import Mathlib

/-! Descriptor registry and file objects of the Win32 POSIX facade.

A shallow embedding of `usr/src/win/win32_file.cpp`, `usr/src/unistd.cpp`,
`usr/src/win/osf.cpp`, `usr/src/win/win32_overrides.cpp`, `usr/src/win/win32_deprecated.cpp`,
`usr/src/poll.cpp` and `usr/src/dirent.cpp`.

* The registry `FileMap` (`std::map<int, Win32File*>`) is an association list with pairwise
  distinct keys.  The entry stored for a descriptor is the value of the object the C++ map
  points to: a `Win32File` lives exactly as long as it is bound, because its constructor binds
  it and its destructor erases it.
* C++ `int`, `long`, `off_t` and handles (`void*`, `HANDLE`, `SOCKET`) are mathematical
  integers.  The only arithmetic on them is the `++fd` of `FileMap::slot`, which stays below
  `2 * size + 2`.  Flag words are natural numbers read as bit patterns.
* Every call into the Win32 API, Winsock or the C runtime is recorded in `World.trace`; its
  result is supplied by an environment `Env`, a function of the history of native calls and
  of the call itself.
* Program behaviour is a function `World → Outcome α`: either the call returns a value, or it
  leaves by a C++ exception, a failed `assert`, or undefined behaviour.
-/

namespace Win32

/-! ## Constants of headers that are not part of the translated sources -/

/-- Constant `INVALID_HANDLE_VALUE` of the Windows SDK, `(HANDLE)-1`. -/
def INVALID_HANDLE_VALUE : Int := -1

/-- Constant `SOCKET_ERROR` of winsock2.h. -/
def SOCKET_ERROR : Int := -1

/-- Constant `EINTR` of errno.h. -/
def EINTR : Int := 4
/-- Constant `EBADF` of errno.h. -/
def EBADF : Int := 9
/-- Constant `EINVAL` of errno.h. -/
def EINVAL : Int := 22
/-- Constant `ECONNABORTED` of errno.h (the value of the Microsoft C runtime). -/
def ECONNABORTED : Int := 106
/-- Constant `ECONNRESET` of errno.h (the value of the Microsoft C runtime). -/
def ECONNRESET : Int := 108
/-- Constant `EWOULDBLOCK` of errno.h (the value of the Microsoft C runtime). -/
def EWOULDBLOCK : Int := 140

/-- Constant `WSAEINTR` of winsock2.h. -/
def WSAEINTR : Int := 10004
/-- Constant `WSAEINVAL` of winsock2.h. -/
def WSAEINVAL : Int := 10022
/-- Constant `WSAEWOULDBLOCK` of winsock2.h. -/
def WSAEWOULDBLOCK : Int := 10035
/-- Constant `WSAECONNABORTED` of winsock2.h. -/
def WSAECONNABORTED : Int := 10053
/-- Constant `WSAECONNRESET` of winsock2.h. -/
def WSAECONNRESET : Int := 10054

/-- Constant `DUPLICATE_CLOSE_SOURCE` of the Windows SDK. -/
def DUPLICATE_CLOSE_SOURCE : Nat := 1
/-- Constant `DUPLICATE_SAME_ACCESS` of the Windows SDK. -/
def DUPLICATE_SAME_ACCESS : Nat := 2
/-- Constant `PROCESS_DUP_HANDLE` of the Windows SDK. -/
def PROCESS_DUP_HANDLE : Nat := 64
/-- Constant `HANDLE_FLAG_INHERIT` of the Windows SDK. -/
def HANDLE_FLAG_INHERIT : Nat := 1
/-- Constant `_O_BINARY` of the C runtime's fcntl.h. -/
def _O_BINARY : Nat := 32768
/-- Constant `FIONBIO` of winsock2.h. -/
def FIONBIO : Int := 2147772030
/-- Constant `FIONREAD` of winsock2.h. -/
def FIONREAD : Int := 1074030207

/-- Constant `F_GETFD` of the repository's fcntl.h (not among the translated sources; Linux
value). -/
def F_GETFD : Int := 1
/-- Constant `F_SETFD` of the repository's fcntl.h (not among the translated sources; Linux
value). -/
def F_SETFD : Int := 2
/-- Constant `F_GETFL` of the repository's fcntl.h (not among the translated sources; Linux
value). -/
def F_GETFL : Int := 3
/-- Constant `F_SETFL` of the repository's fcntl.h (not among the translated sources; Linux
value). -/
def F_SETFL : Int := 4
/-- Constant `FD_CLOEXEC` of the repository's fcntl.h (not among the translated sources; Linux
value). -/
def FD_CLOEXEC : Nat := 1
/-- Constant `O_NONBLOCK` of the repository's fcntl.h (not among the translated sources; Linux
value). -/
def O_NONBLOCK : Nat := 2048

/-! ## File objects -/

/-- The enumeration `Win32File::Type`.  Its declaration is in win32_file.h; the enumerators
are the four the sources use. -/
inductive Win32FileType where
  | File
  | Socket
  | Map
  | Unknown
  deriving DecidableEq, Repr

/-- The data members of class `Win32File`. -/
structure Win32File where
  m_fd : Int
  m_type : Win32FileType
  m_handle : Int
  m_flags : Nat
  deriving DecidableEq, Repr

/-- Function `Win32File::is`. -/
def Win32File.is (self : Win32File) (type : Win32FileType) : Bool :=
  decide (type = self.m_type)

/-- Function `Win32File::isValid`: `m_handle && m_handle != INVALID_HANDLE_VALUE`. -/
def Win32File.isValid (self : Win32File) : Bool :=
  decide (self.m_handle ≠ 0) && decide (self.m_handle ≠ INVALID_HANDLE_VALUE)

/-- Function `Win32File::fd`. -/
def Win32File.fd (self : Win32File) : Int := self.m_fd

/-- Function `Win32File::type`. -/
def Win32File.type (self : Win32File) : Win32FileType := self.m_type

/-- Function `Win32File::handle`. -/
def Win32File.handle (self : Win32File) : Int := self.m_handle

/-! ## The registry `FileMap` -/

/-- The member `m_files` of class `FileMap`, a `std::map<int, Win32File*>`: a finite map, so
the keys of the association list are pairwise distinct. -/
structure FileMap where
  m_files : List (Int × Win32File)
  nodup : (m_files.map Prod.fst).Nodup

namespace FileMap

/-- Constant `FileMap::NewEntry`. -/
def NewEntry : Int := -1

/-- The lookup `std::map::find`: the object stored under `fd`, if any. -/
def find (m : FileMap) (fd : Int) : Option Win32File :=
  (m.m_files.find? (fun e => decide (e.1 = fd))).map Prod.snd

/-- The operation `std::map::count`. -/
def count (m : FileMap) (fd : Int) : Nat :=
  if (m.find fd).isSome then 1 else 0

/-- The operation `std::map::size`. -/
def size (m : FileMap) : Nat := m.m_files.length

/-- The empty map of a fresh `FileMap`. -/
def empty : FileMap := ⟨[], List.nodup_nil⟩

/-- The operation `std::map::erase(key)`. -/
def eraseKey (m : FileMap) (fd : Int) : FileMap :=
  ⟨m.m_files.filter (fun e => decide (e.1 ≠ fd)),
    (List.Sublist.map Prod.fst (List.filter_sublist m.m_files)).nodup m.nodup⟩

/-- The assignment `m_files[fd] = file`: inserts, or replaces what was stored under `fd`. -/
def assign (m : FileMap) (fd : Int) (file : Win32File) : FileMap :=
  ⟨(fd, file) :: m.m_files.filter (fun e => decide (e.1 ≠ fd)),
    by
      rw [List.map_cons, List.nodup_cons]
      refine ⟨?_, (List.Sublist.map Prod.fst (List.filter_sublist m.m_files)).nodup m.nodup⟩
      intro h
      obtain ⟨e, he, hfd⟩ := List.mem_map.1 h
      have := (List.mem_filter.1 he).2
      simp [hfd] at this⟩

/-- A write through the pointer stored under `fd`: the stored object becomes `file`, the keys
stay as they are. -/
def write (m : FileMap) (fd : Int) (file : Win32File) : FileMap :=
  ⟨m.m_files.map (fun e => if e.1 = fd then (e.1, file) else e),
    by
      have h : (m.m_files.map (fun e => if e.1 = fd then (e.1, file) else e)).map Prod.fst
          = m.m_files.map Prod.fst := by
        rw [List.map_map]
        apply List.map_congr_left
        intro e _
        by_cases he : e.1 = fd <;> simp [he]
      rw [h]
      exact m.nodup⟩

/-- The loop `while (m_files.count(++fd)) { }` of `FileMap::slot`, run for at most `fuel`
iterations; `none` when the fuel runs out before the loop ends. -/
def slotLoop (m : FileMap) : Nat → Int → Option Int
  | 0, _ => none
  | fuel + 1, fd =>
    if m.count (fd + 1) ≠ 0 then slotLoop m fuel (fd + 1) else some (fd + 1)

/-- Function `FileMap::slot`: `int fd = m_files.size(); while (m_files.count(++fd)) { } return
fd;`. The loop gets `size + 1` iterations, which `slot_isSome` shows to be enough. -/
def slot (m : FileMap) : Option Int :=
  slotLoop m (m.size + 1) m.size

end FileMap

instance : DecidableEq FileMap := fun a b =>
  decidable_of_iff (a.m_files = b.m_files)
    ⟨fun h => by cases a; cases b; cases h; rfl, fun h => by rw [h]⟩

/-! ## Records handed to native calls -/

/-- The record `struct pollfd` (declared in poll.h, which is not among the translated
sources): a descriptor, the events asked for and the events reported. -/
structure pollfd where
  fd : Int
  events : Int
  revents : Int
  deriving DecidableEq, Repr

/-! ## Native calls, the world, and program outcomes -/

/-- The calls into the Win32 API, Winsock and the C runtime that the translated functions
make, with the arguments that are modelled. -/
inductive NativeCall where
  | GetCurrentProcess
  | OpenProcess (access : Nat) (inherit : Bool) (pid : Int)
  | DuplicateHandle (sourceProcess handle targetProcess : Int) (access : Nat) (inherit : Bool)
      (options : Nat)
  | CloseHandle (handle : Int)
  | closesocket (sock : Int)
  | WSAGetLastError
  | ReadFile (handle : Int) (nbyte : Nat)
  | WriteFile (handle : Int) (count : Nat)
  | recv (sock : Int) (nbyte : Nat) (flags : Nat)
  | send (sock : Int) (count : Nat) (flags : Nat)
  | accept (sock : Int)
  | ioctlsocket (sock : Int) (cmd : Int) (arg : Nat)
  | GetHandleInformation (handle : Int)
  | SetHandleInformation (handle : Int) (mask flags : Nat)
  | _open_osfhandle (handle : Int) (flags : Nat)
  | _close (fd : Int)
  | _tell (fd : Int)
  | _lseek (fd : Int) (offset : Int) (whence : Int)
  | _eof (fd : Int)
  | _isatty (fd : Int)
  | _chsize (fd : Int) (size : Int)
  | _filelength (fd : Int)
  | _locking (fd : Int) (lockMode : Int) (numOfBytes : Int)
  | _setmode (fd : Int) (mode : Int)
  | _open (filename : List Char) (openFlag permissionMode : Int)
  | _sopen (filename : List Char) (openFlag shareFlag permissionMode : Int)
  | _get_osfhandle (fd : Int)
  | WSAStartup (versionRequired : Nat)
  | socket (addressFamily type protocol : Int)
  | dumb_socketpair (make_overlapped : Int)
  | GetFileAttributesExA (path : List Char)
  | GetFileAttributesA (path : List Char)
  | FindFirstFileA (path : List Char)
  | FindClose (handle : Int)
  | GetLastError
  | _stat64i32 (path : List Char)
  | _fstat64i32 (fd : Int)
  | WSAPoll (fds : List pollfd) (timeout : Int)
  | _findfirst (filespec : List Char)
  | _findnext (handle : Int)
  | _findclose (handle : Int)
  | CreateFileA (name : List Char)
  | GetFileInformationByHandle (handle : Int)
  | GetFullPathNameA (name : List Char)
  deriving DecidableEq, Repr

/-- What a native call gives back: its return value `ret` (a `BOOL`, an `int`, a handle) and,
for calls with an out-parameter (`newHandle`, `bytesRead`, `handleFlags`, `length`), the value
`out` written there. -/
structure NativeResult where
  ret : Int
  out : Int
  deriving DecidableEq, Repr

/-- The native environment: the result of a native call, given the native calls made so
far. -/
abbrev Env := List NativeCall → NativeCall → NativeResult

/-- The process state the translated functions act on: the registry `FileMap::shared()`, the
error cell `errno`, and the native calls made so far, oldest first. -/
structure World where
  fileMap : FileMap
  errno : Int
  trace : List NativeCall
  deriving DecidableEq

/-- The ways a call can leave without returning. -/
inductive Exception where
  /-- The exception `std::out_of_range`, thrown by `std::map::at`. -/
  | out_of_range
  /-- A failed `assert`. -/
  | assertion
  /-- A member call through a null `Win32File*`. -/
  | null_pointer
  /-- A member access after `delete this`. -/
  | use_after_free
  /-- A loop that did not end within its fuel. -/
  | nontermination
  deriving DecidableEq, Repr

/-- The outcome of running a function in a world. -/
inductive Outcome (α : Type) where
  | returned (value : α) (w : World)
  | thrown (e : Exception) (w : World)
  deriving DecidableEq

/-- A function of the program: from the world before the call to its outcome. -/
def Prog (α : Type) : Type := World → Outcome α

/-- Return `a` without touching the world. -/
def Prog.pure {α : Type} (a : α) : Prog α := fun w => .returned a w

/-- Sequencing: an exception of the first part ends the whole. -/
def Prog.bind {α β : Type} (x : Prog α) (f : α → Prog β) : Prog β := fun w =>
  match x w with
  | .returned a w1 => f a w1
  | .thrown e w1 => .thrown e w1

instance : Monad Prog where
  pure := Prog.pure
  bind := Prog.bind

/-- Leave with exception `e`. -/
def raise {α : Type} (e : Exception) : Prog α := fun w => .thrown e w

/-- Make the native call `c`: record it and take its result from the environment. -/
def native (env : Env) (c : NativeCall) : Prog NativeResult := fun w =>
  .returned (env w.trace c) { w with trace := w.trace ++ [c] }

/-- Dereference a `Win32File*` for a member call. -/
def deref (p : Option Win32File) : Prog Win32File :=
  match p with
  | some file => pure file
  | none => raise .null_pointer

/-! ## `FileMap` member functions -/

/-- Function `FileMap::has`. -/
def FileMap.has (fd : Int) : Prog Bool := fun w =>
  if fd = FileMap.NewEntry then .returned false w
  else .returned (decide (w.fileMap.count fd ≠ 0)) w

/-- Function `FileMap::set`, called by the constructor as `m_fd(FileMap::shared().set(fd,
this))`: the object stored is `file` with its member `m_fd` equal to the descriptor
returned. -/
def FileMap.set (fd : Int) (file : Win32File) : Prog Int := fun w =>
  match (if fd = FileMap.NewEntry then w.fileMap.slot else some fd) with
  | none => .thrown .nontermination w
  | some fd1 =>
    if w.fileMap.count fd1 = 0 then
      .returned fd1 { w with fileMap := w.fileMap.assign fd1 { file with m_fd := fd1 } }
    else .thrown .assertion w

/-- Function `FileMap::get`: null for `NewEntry`, otherwise `m_files.at(fd)`, which throws
`std::out_of_range` when `fd` is not a key. -/
def FileMap.get (fd : Int) : Prog (Option Win32File) := fun w =>
  if fd = FileMap.NewEntry then .returned none w
  else
    match w.fileMap.find fd with
    | some file => .returned (some file) w
    | none => .thrown .out_of_range w

/-- Function `FileMap::erase`. -/
def FileMap.erase (fd : Int) : Prog Unit := fun w =>
  if fd = FileMap.NewEntry then .returned () w
  else .returned () { w with fileMap := w.fileMap.eraseKey fd }

/-! ## `Win32File`: construction, destruction, helpers -/

/-- The constructor `Win32File::Win32File(void* fh, Type type, int fd)`. -/
def Win32File.new (fh : Int) (type : Win32FileType) (fd : Int) : Prog Win32File := do
  let m_fd ← FileMap.set fd { m_fd := fd, m_type := type, m_handle := fh, m_flags := 0 }
  pure { m_fd := m_fd, m_type := type, m_handle := fh, m_flags := 0 }

/-- The destructor `Win32File::~Win32File`, run by `delete this`. -/
def Win32File.delete (self : Win32File) : Prog Unit :=
  FileMap.erase self.m_fd

/-- Function `Win32File::of`. -/
def Win32File.of (fd : Int) : Prog (Option Win32File) :=
  FileMap.get fd

/-- Function `Win32File::setHandle`, a write to the object bound at `self.m_fd`. -/
def Win32File.setHandle (self : Win32File) (handle : Int) (type : Win32FileType) :
    Prog Unit := fun w =>
  let file : Win32File := { self with m_handle := handle, m_type := type }
  .returned () { w with fileMap := w.fileMap.write self.m_fd file }

/-- The static `handleError`. -/
def handleError (error : Int) : Prog Int := fun w =>
  .returned (-1) { w with errno := error }

/-- The static `duplicateHandle`. -/
def duplicateHandle (env : Env) (sourcePid : Int) (handle : Int) (close : Bool) : Prog Int := do
  let sourceProcess ←
    if sourcePid = -1 then native env .GetCurrentProcess
    else native env (.OpenProcess PROCESS_DUP_HANDLE false sourcePid)
  if sourcePid ≠ -1 ∧ sourceProcess.ret = INVALID_HANDLE_VALUE then
    pure INVALID_HANDLE_VALUE
  else do
    let options :=
      if close then DUPLICATE_SAME_ACCESS ||| DUPLICATE_CLOSE_SOURCE else DUPLICATE_SAME_ACCESS
    let targetProcess ← native env .GetCurrentProcess
    let ok ← native env
      (.DuplicateHandle sourceProcess.ret handle targetProcess.ret 0 false options)
    if ok.ret = 0 then
      pure INVALID_HANDLE_VALUE
    else do
      let _ ← native env (.CloseHandle sourceProcess.ret)
      pure ok.out

/-- The deleter of `UniqueFileDescriptor`, as installed by `osfd(int)`: `_close` when the
descriptor held is at least 1. -/
def UniqueFileDescriptor.delete (env : Env) (fd : Int) : Prog Unit :=
  if fd ≥ 1 then do
    let _ ← native env (._close fd)
    pure ()
  else pure ()

/-- The static `osfd(Win32File*)`; the result is the descriptor the `UniqueFileDescriptor`
holds. -/
def osfd (env : Env) (file : Win32File) : Prog Int :=
  if file.is .File && file.isValid then do
    let handle ← duplicateHandle env (-1) file.handle false
    if handle = INVALID_HANDLE_VALUE then
      pure (-1)
    else do
      let r ← native env (._open_osfhandle handle _O_BINARY)
      pure r.ret
  else raise .assertion

/-- The expression `f(*osfd(this), ...)`: the temporary `UniqueFileDescriptor` is destroyed
at the end of the full expression, after the call `f`. -/
def withOsfd (env : Env) (file : Win32File) (f : Int → NativeCall) : Prog Int := do
  let fd ← osfd env file
  let r ← native env (f fd)
  UniqueFileDescriptor.delete env fd
  pure r.ret

/-- The static `handleWSALastError`. -/
def handleWSALastError (env : Env) : Prog Int := do
  let code ← native env .WSAGetLastError
  let error : Int :=
    if code.ret = WSAEWOULDBLOCK then EWOULDBLOCK
    else if code.ret = WSAEINTR then EINTR
    else if code.ret = WSAEINVAL then EINVAL
    else if code.ret = WSAECONNRESET then ECONNRESET
    else if code.ret = WSAECONNABORTED then ECONNABORTED
    else EBADF
  fun w => .returned (-1) { w with errno := error }

/-! ## `Win32File` operations -/

/-- Function `Win32File::open(void* handle, Type type, int fd, pid_t sourcePid)`. -/
def Win32File.open (env : Env) (handle : Int) (type : Win32FileType) (fd : Int)
    (sourcePid : Int) : Prog Int :=
  let construct (myHandle : Int) : Prog Int := do
    let file ← Win32File.new myHandle type fd
    pure file.fd
  if type ≠ .Unknown then
    if handle = 0 ∨ handle = INVALID_HANDLE_VALUE then
      pure (-1)
    else do
      let myHandle ←
        if sourcePid = -1 then pure handle else duplicateHandle env sourcePid handle true
      if myHandle = INVALID_HANDLE_VALUE then pure (-1) else construct myHandle
  else construct INVALID_HANDLE_VALUE

/-- Function `Win32File::release`: the handle is swapped out of the object, the object is
deleted. -/
def Win32File.release (self : Win32File) : Prog Int := do
  let handle := self.m_handle
  Win32File.delete { self with m_handle := 0 }
  pure handle

/-- Function `Win32File::close`. -/
def Win32File.close (env : Env) (self : Win32File) : Prog Int :=
  if !self.isValid then do
    Win32File.delete self
    handleError EBADF
  else do
    let result ←
      match self.m_type with
      | .File | .Map => do
        let ok ← native env (.CloseHandle self.m_handle)
        if ok.ret = 0 then handleError EBADF else pure 0
      | .Socket => do
        let r ← native env (.closesocket self.m_handle)
        if r.ret < 0 then handleWSALastError env else pure r.ret
      | .Unknown => pure 0
    let _ ← Win32File.release self
    pure result

/-- Function `Win32File::accept`. -/
def Win32File.accept (env : Env) (self : Win32File) : Prog Int :=
  if !self.isValid then handleError EBADF
  else if !self.is .Socket then handleError EBADF
  else do
    let sock ← native env (.accept self.m_handle)
    if sock.ret = -1 then handleWSALastError env
    else do
      let file ← Win32File.new sock.ret .Socket FileMap.NewEntry
      pure file.fd

/-- Function `Win32File::tell`. -/
def Win32File.tell (env : Env) (self : Win32File) : Prog Int :=
  if !self.isValid then handleError EBADF
  else withOsfd env self (fun fd => ._tell fd)

/-- Function `Win32File::lseek`. -/
def Win32File.lseek (env : Env) (self : Win32File) (offset : Int) (whence : Int) : Prog Int :=
  if !self.isValid then handleError EBADF
  else withOsfd env self (fun fd => ._lseek fd offset whence)

/-- Function `Win32File::read`. -/
def Win32File.read (env : Env) (self : Win32File) (nbyte : Nat) (flags : Nat) : Prog Int :=
  if !self.isValid then handleError EBADF
  else
    match self.m_type with
    | .File => do
      let ok ← native env (.ReadFile self.m_handle nbyte)
      if ok.ret = 0 then handleError EBADF else pure ok.out
    | .Socket => do
      let result ← native env (.recv self.m_handle nbyte flags)
      if result.ret < 0 then handleWSALastError env else pure result.ret
    | _ => pure 0

/-- Function `Win32File::write`. -/
def Win32File.write (env : Env) (self : Win32File) (count : Nat) (flags : Nat) : Prog Int :=
  if !self.isValid then handleError EBADF
  else
    match self.m_type with
    | .File => do
      let ok ← native env (.WriteFile self.m_handle count)
      if ok.ret = 0 then handleError EBADF else pure ok.out
    | .Socket => do
      let result ← native env (.send self.m_handle count flags)
      if result.ret < 0 then handleWSALastError env else pure result.ret
    | _ => pure 0

/-- Function `Win32File::eof`. -/
def Win32File.eof (env : Env) (self : Win32File) : Prog Int :=
  if !self.isValid then handleError EBADF
  else withOsfd env self (fun fd => ._eof fd)

/-- Function `Win32File::dup`.  When `newfd` is the descriptor of the object itself, `oldFile` is
`this`: the object is deleted by `oldFile->close()` and the next statement reads its
member `m_handle`. -/
def Win32File.dup (env : Env) (self : Win32File) (newfd : Int) : Prog Int :=
  if !self.isValid then handleError EBADF
  else do
    let oldFile ← Win32File.of newfd
    match oldFile with
      | some file => do
        let _ ← Win32File.close env file
        if newfd = self.m_fd then raise .use_after_free else pure ()
      | none => pure ()
    let newHandle ← duplicateHandle env (-1) self.m_handle false
    if newHandle = INVALID_HANDLE_VALUE then handleError EBADF
    else do
      let file ← Win32File.new newHandle self.m_type newfd
      pure file.fd

/-- Modelled from the spec: the default argument of `Win32File::dup(int newfd)`, declared in
win32_file.h, which is not among the translated sources.  The spec makes the target
descriptor of dup optional and lets bind allocate when it gets the "auto" sentinel, so the
default is `FileMap::NewEntry`. -/
def Win32File.dup_default : Int := FileMap.NewEntry

/-- Function `Win32File::isatty`. -/
def Win32File.isatty (env : Env) (self : Win32File) : Prog Int :=
  if !self.isValid then handleError EBADF
  else withOsfd env self (fun fd => ._isatty fd)

/-- Function `Win32File::fcntl`.  The assignment `m_flags |= O_NONBLOCK` is a write to the object
bound at `self.m_fd`. -/
def Win32File.fcntl (env : Env) (self : Win32File) (command : Int) (flags : Nat) : Prog Int :=
  if !self.isValid then handleError EBADF
  else if command = F_GETFD then do
    let info ← native env (.GetHandleInformation self.m_handle)
    pure (if info.out.toNat &&& HANDLE_FLAG_INHERIT = 0 then 0 else (FD_CLOEXEC : Int))
  else if command = F_SETFD then do
    let _ ←
      if flags &&& FD_CLOEXEC ≠ 0 then
        native env (.SetHandleInformation self.m_handle HANDLE_FLAG_INHERIT 0)
      else
        native env (.SetHandleInformation self.m_handle HANDLE_FLAG_INHERIT HANDLE_FLAG_INHERIT)
    pure 0
  else if command = F_GETFL then
    if flags &&& O_NONBLOCK ≠ 0 then pure ((self.m_flags &&& O_NONBLOCK : Nat) : Int)
    else pure 0
  else if command = F_SETFL then
    if flags &&& O_NONBLOCK ≠ 0 ∧ self.m_flags &&& O_NONBLOCK = 0 then do
      let r ← native env (.ioctlsocket self.m_handle FIONBIO 1)
      if r.ret = SOCKET_ERROR then handleWSALastError env
      else fun w =>
        let file : Win32File := { self with m_flags := self.m_flags ||| O_NONBLOCK }
        .returned 0 { w with fileMap := w.fileMap.write self.m_fd file }
    else pure 0
  else handleError EBADF

/-- Function `Win32File::chsize`. -/
def Win32File.chsize (env : Env) (self : Win32File) (size : Int) : Prog Int :=
  if !self.isValid then handleError EBADF
  else withOsfd env self (fun fd => ._chsize fd size)

/-- Function `Win32File::filelength`. -/
def Win32File.filelength (env : Env) (self : Win32File) : Prog Int :=
  if !self.isValid then handleError EBADF
  else
    match self.m_type with
    | .File => withOsfd env self (fun fd => ._filelength fd)
    | .Socket => do
      let r ← native env (.ioctlsocket self.m_handle FIONREAD 0)
      if r.ret = SOCKET_ERROR then handleWSALastError env else pure r.out
    | _ => pure (-1)

/-- Function `Win32File::locking`. -/
def Win32File.locking (env : Env) (self : Win32File) (lockMode : Int) (numOfBytes : Int) :
    Prog Int :=
  if !self.isValid then handleError EBADF
  else withOsfd env self (fun fd => ._locking fd lockMode numOfBytes)

/-- Function `Win32File::setmode`. -/
def Win32File.setmode (env : Env) (self : Win32File) (mode : Int) : Prog Int :=
  if !self.isValid then handleError EBADF
  else withOsfd env self (fun fd => ._setmode fd mode)

/-! ## Entry points of unistd.cpp and osf.cpp -/

/-- Function `close` of unistd.cpp:
`(fildes > 0 && Win32File::of(fildes)) ? Win32File::of(fildes)->close() : EBADF`. -/
def close (env : Env) (fildes : Int) : Prog Int :=
  if fildes > 0 then do
    let file ← Win32File.of fildes
    if file.isSome then do
      let self ← Win32File.of fildes >>= deref
      Win32File.close env self
    else pure EBADF
  else pure EBADF

/-- Function `dup` of unistd.cpp: `(fildes > 0) ? Win32File::of(fildes)->dup() : -1`. -/
def dup (env : Env) (fildes : Int) : Prog Int :=
  if fildes > 0 then do
    let self ← Win32File.of fildes >>= deref
    Win32File.dup env self Win32File.dup_default
  else pure (-1)

/-- Function `dup2` of unistd.cpp: `(oldfd > 0) ? Win32File::of(oldfd)->dup(newfd) : -1`. -/
def dup2 (env : Env) (oldfd : Int) (newfd : Int) : Prog Int :=
  if oldfd > 0 then do
    let self ← Win32File.of oldfd >>= deref
    Win32File.dup env self newfd
  else pure (-1)

/-- Function `win32_open_osfhandle` of osf.cpp. -/
def win32_open_osfhandle (env : Env) (_OSFileHandle : Int) (_Flags : Int) (_FileHandle : Int) :
    Prog Int :=
  Win32File.open env _OSFileHandle .File _FileHandle (-1)

/-- Function `win32_open_osfhandle_with_type` of osf.cpp. -/
def win32_open_osfhandle_with_type (env : Env) (_OSFileHandle : Int) (_Flags : Int)
    (_FileHandle : Int) (_FileType : Win32FileType) : Prog Int :=
  Win32File.open env _OSFileHandle _FileType _FileHandle (-1)

/-- Function `win32_release_osfhandle` of osf.cpp. -/
def win32_release_osfhandle (_FileHandle : Int) : Prog Int := do
  let self ← Win32File.of _FileHandle >>= deref
  Win32File.release self

/-- Function `win32_get_osfhandle` of osf.cpp. -/
def win32_get_osfhandle (_FileHandle : Int) : Prog Int := do
  let self ← Win32File.of _FileHandle >>= deref
  pure self.handle

/-! ## Metadata: constants and records of the native headers -/

/-- Constant `_S_IFMT` of the C runtime's sys/stat.h. -/
def _S_IFMT : Nat := 0xF000
/-- Constant `_S_IFDIR` of the C runtime's sys/stat.h (`S_IFDIR` is the same value). -/
def _S_IFDIR : Nat := 0x4000
/-- Constant `_S_IFCHR` of the C runtime's sys/stat.h. -/
def _S_IFCHR : Nat := 0x2000
/-- Constant `_S_IFIFO` of the C runtime's sys/stat.h. -/
def _S_IFIFO : Nat := 0x1000
/-- Constant `_S_IFREG` of the C runtime's sys/stat.h (`S_IFREG` is the same value). -/
def _S_IFREG : Nat := 0x8000
/-- Constant `_S_IREAD` of the C runtime's sys/stat.h (`S_IREAD` is the same value). -/
def _S_IREAD : Nat := 0x0100
/-- Constant `_S_IWRITE` of the C runtime's sys/stat.h (`S_IWRITE` is the same value). -/
def _S_IWRITE : Nat := 0x0080

/-- Constant `FILE_ATTRIBUTE_READONLY` of the Windows SDK. -/
def FILE_ATTRIBUTE_READONLY : Nat := 0x1
/-- Constant `FILE_ATTRIBUTE_DIRECTORY` of the Windows SDK. -/
def FILE_ATTRIBUTE_DIRECTORY : Nat := 0x10
/-- Constant `FILE_ATTRIBUTE_DEVICE` of the Windows SDK. -/
def FILE_ATTRIBUTE_DEVICE : Nat := 0x40
/-- Constant `FILE_ATTRIBUTE_REPARSE_POINT` of the Windows SDK. -/
def FILE_ATTRIBUTE_REPARSE_POINT : Nat := 0x400
/-- Constant `INVALID_FILE_ATTRIBUTES` of the Windows SDK, `(DWORD)-1`. -/
def INVALID_FILE_ATTRIBUTES : Nat := 0xFFFFFFFF
/-- Constant `IO_REPARSE_TAG_SYMLINK` of the Windows SDK. -/
def IO_REPARSE_TAG_SYMLINK : Nat := 0xA000000C

/-- Constant `ERROR_FILE_NOT_FOUND` of the Windows SDK. -/
def ERROR_FILE_NOT_FOUND : Nat := 2
/-- Constant `ERROR_PATH_NOT_FOUND` of the Windows SDK. -/
def ERROR_PATH_NOT_FOUND : Nat := 3
/-- Constant `ERROR_ACCESS_DENIED` of the Windows SDK. -/
def ERROR_ACCESS_DENIED : Nat := 5
/-- Constant `ERROR_NOT_ENOUGH_MEMORY` of the Windows SDK. -/
def ERROR_NOT_ENOUGH_MEMORY : Nat := 8
/-- Constant `ERROR_SHARING_VIOLATION` of the Windows SDK. -/
def ERROR_SHARING_VIOLATION : Nat := 32
/-- Constant `ERROR_LOCK_VIOLATION` of the Windows SDK. -/
def ERROR_LOCK_VIOLATION : Nat := 33
/-- Constant `ERROR_SHARING_BUFFER_EXCEEDED` of the Windows SDK. -/
def ERROR_SHARING_BUFFER_EXCEEDED : Nat := 36
/-- Constant `ERROR_BUFFER_OVERFLOW` of the Windows SDK. -/
def ERROR_BUFFER_OVERFLOW : Nat := 111

/-- Constant `ENOENT` of errno.h. -/
def ENOENT : Int := 2
/-- Constant `ENOMEM` of errno.h. -/
def ENOMEM : Int := 12
/-- Constant `EACCES` of errno.h. -/
def EACCES : Int := 13
/-- Constant `ENOTDIR` of errno.h. -/
def ENOTDIR : Int := 20
/-- Constant `ENAMETOOLONG` of errno.h (the value of the Microsoft C runtime). -/
def ENAMETOOLONG : Int := 38

/-- Constant `MAX_LONG_PATH` of win32_file.cpp. -/
def MAX_LONG_PATH : Int := 4096

/-- The two headers of the repository that define `_S_IFLNK` and `S_ISLNK`. -/
inductive Header where
  /-- The header win32_overrides.h. -/
  | win32_overrides
  /-- The header win32_deprecated.h. -/
  | win32_deprecated
  deriving DecidableEq, Repr

/-- The macro `_S_IFLNK`: `(_S_IFREG | _S_IFCHR)` in win32_overrides.h, `0x5000` in
win32_deprecated.h. -/
def _S_IFLNK (h : Header) : Nat :=
  match h with
  | .win32_overrides => _S_IFREG ||| _S_IFCHR
  | .win32_deprecated => 0x5000

/-- The macro `S_ISDIR(m)`, the same in both headers: `((m) & _S_IFMT) == _S_IFDIR`. -/
def S_ISDIR (m : Nat) : Bool := decide (m &&& _S_IFMT = _S_IFDIR)

/-- The macro `S_ISLNK(m)`: `((m) & _S_IFMT) == _S_IFLNK` in win32_overrides.h,
`((m) & _S_IFLNK) == _S_IFLNK` in win32_deprecated.h. -/
def S_ISLNK (h : Header) (m : Nat) : Bool :=
  match h with
  | .win32_overrides => decide (m &&& _S_IFMT = _S_IFLNK h)
  | .win32_deprecated => decide (m &&& _S_IFLNK h = _S_IFLNK h)

/-- The macro `S_ISREG(m)`, the same in both headers: `((m) & _S_IFMT) == _S_IFREG`. -/
def S_ISREG (m : Nat) : Bool := decide (m &&& _S_IFMT = _S_IFREG)

/-- The record `FILETIME` of the Windows SDK: two `DWORD`s. -/
structure FILETIME where
  dwLowDateTime : Nat
  dwHighDateTime : Nat
  deriving DecidableEq, Repr

/-- The record `WIN32_FILE_ATTRIBUTE_DATA` of the Windows SDK. -/
structure WIN32_FILE_ATTRIBUTE_DATA where
  dwFileAttributes : Nat
  ftCreationTime : FILETIME
  ftLastAccessTime : FILETIME
  ftLastWriteTime : FILETIME
  nFileSizeHigh : Nat
  nFileSizeLow : Nat
  deriving DecidableEq, Repr

/-- The record `WIN32_FIND_DATAA` of the Windows SDK, with the members the translated code
reads or that identify the entry. -/
structure WIN32_FIND_DATAA where
  dwFileAttributes : Nat
  dwReserved0 : Nat
  cFileName : List Char
  deriving DecidableEq, Repr

/-- The record `struct stat`, which the sources require to have the size of the C runtime's
`struct _stat64i32`: 32-bit `st_size`, 64-bit times, 16-bit `st_mode`. -/
structure struct_stat where
  st_dev : Int
  st_ino : Int
  st_mode : Nat
  st_nlink : Int
  st_uid : Int
  st_gid : Int
  st_rdev : Int
  st_size : Int
  st_atime : Int
  st_mtime : Int
  st_ctime : Int
  deriving DecidableEq, Repr

/-- The value of a `long long` expression: two's complement in 64 bits. -/
def toLongLong (x : Int) : Int := (x + 2 ^ 63) % 2 ^ 64 - 2 ^ 63

/-- The conversion of a `DWORD` to the 32-bit `long` of `st_size`. -/
def toLong (x : Nat) : Int := ((x : Int) + 2 ^ 31) % 2 ^ 32 - 2 ^ 31

/-! ## Metadata: the static helpers of win32_file.cpp -/

/-- The static `isPathSeparator`. -/
def isPathSeparator (c : Char) : Bool := decide (c = '/') || decide (c = Char.ofNat 92)

/-- The static `fileAttributeToMode`, compiled against header `h`. -/
def fileAttributeToMode (h : Header) (attr : Nat) (tag : Nat) : Nat :=
  let fMode := _S_IREAD
  let fMode :=
    if attr &&& FILE_ATTRIBUTE_REPARSE_POINT ≠ 0 ∧ tag = IO_REPARSE_TAG_SYMLINK then
      fMode ||| _S_IFLNK h
    else if attr &&& FILE_ATTRIBUTE_DIRECTORY ≠ 0 then fMode ||| _S_IFDIR
    else fMode ||| _S_IFREG
  if attr &&& FILE_ATTRIBUTE_READONLY = 0 then fMode ||| _S_IWRITE else fMode

/-- The static `fileTimeToTime`; the result is the value stored through `tt`:
`filetime = ((long long)ft->dwHighDateTime << 32) + ft->dwLowDateTime` and
`*tt = filetime - 116444736000000000LL`. -/
def fileTimeToTime (ft : FILETIME) : Int :=
  let filetime := toLongLong (toLongLong ((ft.dwHighDateTime : Int) * 2 ^ 32) + ft.dwLowDateTime)
  toLongLong (filetime - 116444736000000000)

/-! ## Metadata: the native file system -/

/-- The state of the native file system, as the file queries of the translated code see it:
the result of each query is a function of its argument.

* `GetFileAttributesExA path`: the attribute record, or `none` when the call returns `FALSE`.
* `GetFileAttributesA path`: the attribute word, `INVALID_FILE_ATTRIBUTES` on failure.
* `FindFirstFileA path`: the search handle and the record found, or `none` when the call
  returns `INVALID_HANDLE_VALUE`.
* `GetLastError last`: the last-error code of the calling thread when `last` is the most
  recent native call made (`none`: no call made yet).
* `_stat64i32 path` and `_fstat64i32 fd`: the record written to the output buffer, or `none`
  when the call returns -1 and leaves the buffer alone. -/
structure FileSystem where
  GetFileAttributesExA : List Char → Option WIN32_FILE_ATTRIBUTE_DATA
  GetFileAttributesA : List Char → Nat
  FindFirstFileA : List Char → Option (Int × WIN32_FIND_DATAA)
  GetLastError : Option NativeCall → Nat
  _stat64i32 : List Char → Option struct_stat
  _fstat64i32 : Int → Option struct_stat

/-- The native call `GetFileAttributesExA(path, GetFileExInfoStandard, &attributes)`. -/
def GetFileAttributesExA (fs : FileSystem) (path : List Char) :
    Prog (Option WIN32_FILE_ATTRIBUTE_DATA) := fun w =>
  .returned (fs.GetFileAttributesExA path)
    { w with trace := w.trace ++ [.GetFileAttributesExA path] }

/-- The native call `GetFileAttributesA(path)`. -/
def GetFileAttributesA (fs : FileSystem) (path : List Char) : Prog Nat := fun w =>
  .returned (fs.GetFileAttributesA path) { w with trace := w.trace ++ [.GetFileAttributesA path] }

/-- The native call `FindFirstFileA(path, &finddata)`. -/
def FindFirstFileA (fs : FileSystem) (path : List Char) :
    Prog (Option (Int × WIN32_FIND_DATAA)) := fun w =>
  .returned (fs.FindFirstFileA path) { w with trace := w.trace ++ [.FindFirstFileA path] }

/-- The native call `FindClose(fh)`, whose result the code ignores. -/
def FindClose (fh : Int) : Prog Unit := fun w =>
  .returned () { w with trace := w.trace ++ [.FindClose fh] }

/-- The native call `GetLastError()`. -/
def GetLastError (fs : FileSystem) : Prog Nat := fun w =>
  .returned (fs.GetLastError w.trace.getLast?) { w with trace := w.trace ++ [.GetLastError] }

/-- The native call `_stat64i32(filename, out)`: the return value and the output buffer
after the call. -/
def _stat64i32 (fs : FileSystem) (filename : List Char) (out : struct_stat) :
    Prog (Int × struct_stat) := fun w =>
  .returned (match fs._stat64i32 filename with
      | some record => (0, record)
      | none => (-1, out))
    { w with trace := w.trace ++ [._stat64i32 filename] }

/-- The native call `_fstat64i32(fd, out)`: the return value and the output buffer after
the call. -/
def _fstat64i32 (fs : FileSystem) (fd : Int) (out : struct_stat) :
    Prog (Int × struct_stat) := fun w =>
  .returned (match fs._fstat64i32 fd with
      | some record => (0, record)
      | none => (-1, out))
    { w with trace := w.trace ++ [._fstat64i32 fd] }

/-! ## Metadata: `stat`, `fstat`, `lstat` -/

/-- The terminator of a C string. -/
def NUL : Char := Char.ofNat 0

/-- The C string that starts at the beginning of the memory `mem`: the characters before
the first `NUL`. -/
def cstr (mem : List Char) : List Char := mem.takeWhile (fun c => decide (c ≠ NUL))

/-- The loop `while (n > 0) ...` of the static `hasValidDirectoryPrefix`, entered with `n`.
The write `path[n] = 0` makes the C string at `path` its first `n` characters for the
call of `GetFileAttributesA`; `path[n] = c` restores it. -/
def hasValidDirectoryPrefixLoop (fs : FileSystem) (path : List Char) : Nat → Prog Int
  | 0 => pure 1
  | n + 1 =>
    if !isPathSeparator (path.getD n NUL) then hasValidDirectoryPrefixLoop fs path n
    else do
      let attributes ← GetFileAttributesA fs (path.take n)
      if attributes = FILE_ATTRIBUTE_DIRECTORY ∨ attributes = FILE_ATTRIBUTE_DEVICE then
        pure 1
      else if attributes = INVALID_FILE_ATTRIBUTES then do
        let error ← GetLastError fs
        if error = ERROR_PATH_NOT_FOUND then hasValidDirectoryPrefixLoop fs path n
        else if error = ERROR_FILE_NOT_FOUND then pure 1
        else pure 0
      else pure 0

/-- The static `hasValidDirectoryPrefix`, on the C string `path`. -/
def hasValidDirectoryPrefix (fs : FileSystem) (path : List Char) : Prog Int :=
  hasValidDirectoryPrefixLoop fs path path.length

/-- The static `handleLstatLastError`, on the C string `filename`. -/
def handleLstatLastError (fs : FileSystem) (filename : List Char) : Prog Int := do
  let error ← GetLastError fs
  let errno ←
    if error = ERROR_ACCESS_DENIED ∨ error = ERROR_SHARING_VIOLATION
        ∨ error = ERROR_LOCK_VIOLATION ∨ error = ERROR_SHARING_BUFFER_EXCEEDED then
      pure EACCES
    else if error = ERROR_BUFFER_OVERFLOW then pure ENAMETOOLONG
    else if error = ERROR_NOT_ENOUGH_MEMORY then pure ENOMEM
    else if error = ERROR_PATH_NOT_FOUND then do
      let valid ← hasValidDirectoryPrefix fs filename
      if valid = 0 then pure ENOTDIR else pure ENOENT
    else pure ENOENT
  fun w => .returned (-1) { w with errno := errno }

/-- The loop `while (len && isPathSeparator(path[len - 1])) path[--len] = 0;` of
`Win32File::lstat`: the memory at `path` and `len` after the loop. -/
def lstatStrip : List Char → Nat → List Char × Nat
  | path, 0 => (path, 0)
  | path, len + 1 =>
    if isPathSeparator (path.getD len NUL) then lstatStrip (path.set len NUL) len
    else (path, len + 1)

/-- The record `finddata` after `ZeroMemory(&finddata, sizeof(finddata))`. -/
def zeroFindData : WIN32_FIND_DATAA := { dwFileAttributes := 0, dwReserved0 := 0, cFileName := [] }

/-- Function `Win32File::lstat`, compiled against header `h`; the result is the return value and the
record at `out` after the call.

The memory at `path = strvec.data()` holds, after `strncpy(strvec.data(), filename, len)`,
the `len` characters of the name and then what was there before: `reserve(len + 1)` does not
initialise the storage and `strncpy` with count `len = strlen(filename)` writes no
terminator.  `uninit` is that earlier content, from index `len` on. -/
def Win32File.lstat (h : Header) (fs : FileSystem) (filename uninit : List Char)
    (out : struct_stat) : Prog (Int × struct_stat) :=
  let name := cstr filename
  let stripped := lstatStrip (name ++ uninit) name.length
  if stripped.2 = 0 then do
    let r ← handleError ENOENT
    pure (r, out)
  else
    let path := cstr stripped.1
    let fail : Prog (Int × struct_stat) := do
      let r ← handleLstatLastError fs path
      pure (r, out)
    let fill (attributes : WIN32_FILE_ATTRIBUTE_DATA) (finddata : WIN32_FIND_DATAA) :
        Prog (Int × struct_stat) :=
      let st_mode := fileAttributeToMode h attributes.dwFileAttributes finddata.dwReserved0
      pure (0,
        { st_ino := 0, st_gid := 0, st_uid := 0, st_nlink := 1,
          st_mode := st_mode,
          st_size := if S_ISLNK h st_mode then MAX_LONG_PATH else toLong attributes.nFileSizeLow,
          st_dev := 0, st_rdev := 0,
          st_atime := fileTimeToTime attributes.ftLastAccessTime,
          st_mtime := fileTimeToTime attributes.ftLastWriteTime,
          st_ctime := fileTimeToTime attributes.ftCreationTime })
    do
      let attributes ← GetFileAttributesExA fs path
      match attributes with
      | some attributes =>
        if attributes.dwFileAttributes &&& FILE_ATTRIBUTE_REPARSE_POINT ≠ 0 then do
          let found ← FindFirstFileA fs path
          match found with
          | none => fail
          | some (fh, finddata) => do
            FindClose fh
            fill attributes finddata
        else fill attributes zeroFindData
      | none => fail

/-- The entry point `lstat` of win32_overrides.cpp. -/
def win32_overrides.lstat (h : Header) (fs : FileSystem) (_FileName uninit : List Char)
    (_Stat : struct_stat) : Prog (Int × struct_stat) :=
  Win32File.lstat h fs _FileName uninit _Stat

/-- Function `Win32File::open(const char* filename, int openFlag, int permissionMode)`.
The local `fd` is a `UniqueFileDescriptor` made by `osfd(int)`; its deleter runs at every
return, after the return value is computed. -/
def Win32File.open_filename (env : Env) (filename : List Char) (openFlag permissionMode : Int) :
    Prog Int := do
  let fd ← native env (._open filename openFlag permissionMode)
  let leave (result : Int) : Prog Int := do
    UniqueFileDescriptor.delete env fd.ret
    pure result
  if fd.ret = -1 then leave (-1)
  else do
    let handle ← native env (._get_osfhandle fd.ret)
    if handle.ret = INVALID_HANDLE_VALUE then leave (-1)
    else do
      let myHandle ← duplicateHandle env (-1) handle.ret true
      if myHandle = INVALID_HANDLE_VALUE then leave (-1)
      else do
        let file ← Win32File.new myHandle .File FileMap.NewEntry
        leave file.fd

/-- Function `Win32File::sopen`. -/
def Win32File.sopen (env : Env) (filename : List Char)
    (openFlag shareFlag permissionMode : Int) : Prog Int := do
  let fd ← native env (._sopen filename openFlag shareFlag permissionMode)
  let leave (result : Int) : Prog Int := do
    UniqueFileDescriptor.delete env fd.ret
    pure result
  if fd.ret = -1 then leave (-1)
  else do
    let handle ← native env (._get_osfhandle fd.ret)
    if handle.ret = INVALID_HANDLE_VALUE then leave (-1)
    else do
      let myHandle ← duplicateHandle env (-1) handle.ret true
      if myHandle = INVALID_HANDLE_VALUE then leave (-1)
      else do
        let file ← Win32File.new myHandle .File FileMap.NewEntry
        leave file.fd

/-- The value `MAKEWORD(2, 2)`. -/
def versionRequired : Nat := 0x0202

/-- The static `lazyWSAInitializer` after the native calls `trace` (oldest first): `none`
while no `WSAInitializer` has been constructed, that is while `WSAStartup` has not been
called; otherwise the member `m_error`, the result `WSAStartup` gave when it was called
after the calls `before`. -/
def lazyWSAInitializer (env : Env) (before : List NativeCall) : List NativeCall → Option Int
  | [] => none
  | c :: later =>
    if c = .WSAStartup versionRequired then some (env before c).ret
    else lazyWSAInitializer env (before ++ [c]) later

/-- The static `WSAInitialize`; the constructor of `WSAInitializer` calls `WSAStartup` and,
when that fails, `WSAGetLastError` for the log. -/
def WSAInitialize (env : Env) : Prog Int := fun w =>
  match lazyWSAInitializer env [] w.trace with
  | some error => .returned error w
  | none =>
    (do
      let m_error ← native env (.WSAStartup versionRequired)
      if m_error.ret ≠ 0 then do
        let _ ← native env .WSAGetLastError
        pure m_error.ret
      else pure m_error.ret : Prog Int) w

/-- Function `Win32File::socket`. -/
def Win32File.socket (env : Env) (addressFamily type protocol : Int) : Prog Int := do
  let error ← WSAInitialize env
  if error ≠ 0 then pure (-1)
  else do
    let sock ← native env (.socket addressFamily type protocol)
    if sock.ret = -1 then handleWSALastError env
    else do
      let file ← Win32File.new sock.ret .Socket FileMap.NewEntry
      pure file.fd

/-- The function `dumb_socketpair` of socketpair.c, which is not among the translated
sources: given the native calls made so far and `make_overlapped`, its return value and
the two sockets it stores in `socks`. -/
abbrev DumbSocketpair := List NativeCall → Int → Int × Int × Int

/-- Function `Win32File::socketpair`; the result is the return value and the array `fds`
after the call. -/
def Win32File.socketpair (env : Env) (dumb_socketpair : DumbSocketpair) (fds : Int × Int)
    (make_overlapped : Int) : Prog (Int × Int × Int) := do
  let error ← WSAInitialize env
  if error ≠ 0 then pure (-1, fds)
  else do
    let r ← (fun w => .returned (dumb_socketpair w.trace make_overlapped)
      { w with trace := w.trace ++ [.dumb_socketpair make_overlapped] } :
        Prog (Int × Int × Int))
    if r.1 = SOCKET_ERROR then do
      let e ← handleWSALastError env
      pure (e, fds)
    else do
      let fd0 ← Win32File.open env r.2.1 .Socket FileMap.NewEntry (-1)
      let fd1 ← Win32File.open env r.2.2 .Socket FileMap.NewEntry (-1)
      pure (0, fd0, fd1)

/-! ## `poll` of poll.cpp -/

/-- The native `WSAPoll`, reached through `FORWARD_CALL(WSAPOLL)`: given the native calls
made so far, the array handed over and the timeout, its return value and, for each index,
the member `revents` of that entry of the array after the call. -/
abbrev WSAPollResult := List NativeCall → List pollfd → Int → Int × (Nat → Int)

/-- The first loop of `poll` over the copy `_fds`, from the entry at hand to the end:
`Win32File* ufd = Win32File::of(_fds[i].fd); assert(ufd->is(Win32File::Type::Socket));
_fds[i].fd = (SOCKET)ufd->handle();`. The result is the rest of `_fds` after the loop. -/
def pollTranslate : List pollfd → Prog (List pollfd)
  | [] => pure []
  | p :: rest => do
    let ufd ← Win32File.of p.fd >>= deref
    if !ufd.is .Socket then raise .assertion
    else do
      let rest1 ← pollTranslate rest
      pure ({ p with fd := ufd.handle } :: rest1)

/-- Function `poll`.  The array `fds` has `nfds` entries, so `nfds` is the length of the
list; the result is the return value and the array `fds` after the call. -/
def poll (WSAPoll : WSAPollResult) (fds : List pollfd) (timeout : Int) :
    Prog (Int × List pollfd) := do
  let _fds ← pollTranslate fds
  let r ← (fun w => .returned (WSAPoll w.trace _fds timeout)
    { w with trace := w.trace ++ [.WSAPoll _fds timeout] } : Prog (Int × (Nat → Int)))
  pure (r.1, fds.mapIdx (fun i p => { p with revents := r.2 i }))

/-! ## Directory iteration: dirent.cpp -/

/-- Constant `FILE_ATTRIBUTE_NORMAL` of the Windows SDK. -/
def FILE_ATTRIBUTE_NORMAL : Nat := 0x80
/-- Constant `FILE_ATTRIBUTE_ARCHIVE` of the Windows SDK. -/
def FILE_ATTRIBUTE_ARCHIVE : Nat := 0x20
/-- Constant `DT_UNKNOWN` of the repository's dirent.h (not among the translated sources;
Linux value). -/
def DT_UNKNOWN : Nat := 0
/-- Constant `DT_DIR` of the repository's dirent.h (not among the translated sources; Linux
value). -/
def DT_DIR : Nat := 4
/-- Constant `DT_REG` of the repository's dirent.h (not among the translated sources; Linux
value). -/
def DT_REG : Nat := 8
/-- Constant `DT_LNK` of the repository's dirent.h (not among the translated sources; Linux
value). -/
def DT_LNK : Nat := 10
/-- The value of `sizeof(DWORD)`: a `DWORD` has four bytes. -/
def sizeof_DWORD : Nat := 4

/-- The record `struct _finddata_t` of the C runtime; the code reads the member `name`. -/
structure _finddata_t where
  attrib : Nat
  size : Nat
  name : List Char
  deriving DecidableEq, Repr

/-- The members of `BY_HANDLE_FILE_INFORMATION` that the code reads. -/
structure BY_HANDLE_FILE_INFORMATION where
  dwFileAttributes : Nat
  nFileIndexHigh : Nat
  nFileIndexLow : Nat
  deriving DecidableEq, Repr

/-- The record `struct dirent` (declared in dirent.h, which is not among the translated
sources).  The member `d_name` is a character array: its `sizeof` sizes the member
`overflow` of `DIR`, and it is the buffer handed to `GetFullPathNameA`.  Here it is the C
string in that buffer. -/
structure dirent where
  d_ino : Nat
  d_off : Int
  d_reclen : Nat
  d_type : Nat
  d_name : List Char
  deriving DecidableEq, Repr

/-- The record `struct DIR`; `name` is the C string in the member `name`. -/
structure DIR where
  findhandle : Int
  finddata : _finddata_t
  d : dirent
  name : List Char
  deriving DecidableEq, Repr

/-- The native calls of dirent.cpp, each a function of the native calls made so far and of
its arguments.

* `_findfirst(filespec, &finddata)`: `none` when it returns -1, otherwise the handle
  returned and the record written.
* `_findnext(handle, &finddata)`: `none` when it returns -1, otherwise the record written.
* `_findclose(handle)`: the return value.
* `CreateFileA(name, GENERIC_READ, 0, NULL, OPEN_EXISTING, FILE_ATTRIBUTE_NORMAL, NULL)`:
  the handle returned, `INVALID_HANDLE_VALUE` on failure.
* `GetFileInformationByHandle(hfile, &info)`: `none` when it returns `FALSE`, otherwise the
  record written.
* `GetFullPathNameA(name, MAX_PATH, buffer, NULL)`: the return value and the C string in
  the buffer after the call. -/
structure DirectoryCalls where
  _findfirst : List NativeCall → List Char → Option (Int × _finddata_t)
  _findnext : List NativeCall → Int → Option _finddata_t
  _findclose : List NativeCall → Int → Int
  CreateFileA : List NativeCall → List Char → Int
  GetFileInformationByHandle : List NativeCall → Int → Option BY_HANDLE_FILE_INFORMATION
  GetFullPathNameA : List NativeCall → List Char → Nat × List Char

/-- The assignment `errno = error`. -/
def setErrno (error : Int) : Prog Unit := fun w =>
  .returned () { w with errno := error }

/-- The native call `_findfirst(filespec, &finddata)`. -/
def _findfirst (api : DirectoryCalls) (filespec : List Char) :
    Prog (Option (Int × _finddata_t)) := fun w =>
  .returned (api._findfirst w.trace filespec) { w with trace := w.trace ++ [._findfirst filespec] }

/-- The native call `_findnext(handle, &finddata)`. -/
def _findnext (api : DirectoryCalls) (handle : Int) : Prog (Option _finddata_t) := fun w =>
  .returned (api._findnext w.trace handle) { w with trace := w.trace ++ [._findnext handle] }

/-- The native call `_findclose(handle)`. -/
def _findclose (api : DirectoryCalls) (handle : Int) : Prog Int := fun w =>
  .returned (api._findclose w.trace handle) { w with trace := w.trace ++ [._findclose handle] }

/-- The native call `CreateFileA(name, GENERIC_READ, 0, NULL, OPEN_EXISTING,
FILE_ATTRIBUTE_NORMAL, NULL)`. -/
def CreateFileA (api : DirectoryCalls) (name : List Char) : Prog Int := fun w =>
  .returned (api.CreateFileA w.trace name) { w with trace := w.trace ++ [.CreateFileA name] }

/-- The native call `GetFileInformationByHandle(hfile, &info)`. -/
def GetFileInformationByHandle (api : DirectoryCalls) (hfile : Int) :
    Prog (Option BY_HANDLE_FILE_INFORMATION) := fun w =>
  .returned (api.GetFileInformationByHandle w.trace hfile)
    { w with trace := w.trace ++ [.GetFileInformationByHandle hfile] }

/-- The native call `GetFullPathNameA(name, MAX_PATH, buffer, NULL)`. -/
def GetFullPathNameA (api : DirectoryCalls) (name : List Char) : Prog (Nat × List Char) :=
  fun w =>
    .returned (api.GetFullPathNameA w.trace name)
      { w with trace := w.trace ++ [.GetFullPathNameA name] }

/-- The static `allocDir`: `findhandle = -1`, the member `d` zeroed by `memset`, `name`
empty.  `new DIR` leaves the member `finddata` as the storage was; `uninit` is that
content. -/
def allocDir (uninit : _finddata_t) : DIR :=
  { findhandle := -1,
    finddata := uninit,
    d := { d_ino := 0, d_off := 0, d_reclen := 0, d_type := 0, d_name := [] },
    name := [] }

/-- Function `opendir`; `none` is the null pointer, as argument and as result. -/
def opendir (api : DirectoryCalls) (uninit : _finddata_t) (filename : Option (List Char)) :
    Prog (Option DIR) := do
  setErrno EINVAL
  match filename with
  | none => pure none
  | some filename =>
    if cstr filename = [] then pure none
    else do
      let dir := allocDir uninit
      let base_length := (cstr filename).length
      let last := (cstr filename).getD (base_length - 1) NUL
      let all : List Char :=
        if last = '/' ∨ last = Char.ofNat 92 then ['*'] else ['/', '*']
      let dir := { dir with name := cstr filename ++ all }
      let found ← _findfirst api dir.name
      match found with
      | none => pure none
      | some (findhandle, finddata) =>
        if findhandle = -1 then pure none
        else do
          setErrno 0
          pure (some { dir with findhandle := findhandle, finddata := finddata })

/-- The expression `(info.nFileIndexHigh << sizeof(DWORD)) | info.nFileIndexLow` of
`readdir`, computed in the 32 bits of a `DWORD`. -/
def fileIndexToIno (nFileIndexHigh nFileIndexLow : Nat) : Nat :=
  ((nFileIndexHigh <<< sizeof_DWORD) % 2 ^ 32) ||| nFileIndexLow

/-- The loop of `readdir`, run for at most `fuel` iterations; the result is the pointer
returned (`none` for null) and the record `*dir` after the call.

In the condition `(!dir->d.d_name || _findnext(dir->findhandle, &dir->finddata) != -1) &&
!ok` the operand `!dir->d.d_name` is false, `d_name` being an array member, so `_findnext`
is called each time the condition is evaluated; `ok` is never assigned after its
initialisation to `false`.  Both `continue` statements go back to the condition.  The
member `d_type` is assigned only when one of the three attribute tests succeeds. -/
def readdirLoop (api : DirectoryCalls) : Nat → DIR → Prog (Option dirent × DIR)
  | 0, _ => raise .nontermination
  | fuel + 1, dir => do
    let next ← _findnext api dir.findhandle
    match next with
    | none => pure (none, dir)
    | some finddata =>
      let dir := { dir with finddata := finddata }
      let hfile ← CreateFileA api dir.finddata.name
      if hfile = INVALID_HANDLE_VALUE then readdirLoop api fuel dir
      else do
        let info ← GetFileInformationByHandle api hfile
        match info with
        | none => readdirLoop api fuel dir
        | some info =>
          let path ← GetFullPathNameA api dir.finddata.name
          let d_type :=
            if info.dwFileAttributes &&& FILE_ATTRIBUTE_DIRECTORY ≠ 0 then DT_DIR
            else if info.dwFileAttributes &&& FILE_ATTRIBUTE_NORMAL ≠ 0 then DT_REG
            else if info.dwFileAttributes &&& FILE_ATTRIBUTE_REPARSE_POINT ≠ 0 then DT_LNK
            else dir.d.d_type
          let d : dirent :=
            { d_ino := fileIndexToIno info.nFileIndexHigh info.nFileIndexLow,
              d_off := -1,
              d_reclen := path.1 % 2 ^ 16,
              d_type := d_type,
              d_name := path.2 }
          setErrno 0
          pure (some d, { dir with d := d })

/-- Function `readdir`, its loop given `fuel` iterations; `none` is the null pointer.  The
result is the pointer returned and the record `*dir` after the call. -/
def readdir (api : DirectoryCalls) (fuel : Nat) (dir : Option DIR) :
    Prog (Option dirent × Option DIR) := do
  setErrno EBADF
  match dir with
  | none => pure (none, none)
  | some dir =>
    if dir.findhandle = -1 then pure (none, some dir)
    else do
      let r ← readdirLoop api fuel dir
      pure (r.1, some r.2)

/-- Where a thread stands inside a call `FileMap::set(fd, file)`.  The function holds
`m_lock` twice, never across the two: `slot()` takes a `std::lock_guard` for its own
body and releases it when it returns, and `set` takes its `std::lock_guard` only after
`if (fd == NewEntry) fd = slot();`. -/
inductive SetState where
  /-- The call has been made; `fd` is the argument. -/
  | called (fd : Int) (file : Win32File)
  /-- The statement `if (fd == NewEntry) fd = slot();` is done, the lock of `slot` is
  released, and the lock of `set` is not taken yet; `fd` is the local variable. -/
  | allocated (fd : Int) (file : Win32File)
  /-- The call has returned `fd`. -/
  | returned (fd : Int)
  /-- The call has left by `e`. -/
  | failed (e : Exception)
  deriving DecidableEq, Repr

/-- One step of a thread inside `FileMap::set` on the registry `m`, run without
interruption because the step holds `m_lock`: from `called`, the statement
`if (fd == NewEntry) fd = slot();` (the body of `slot` under its lock guard); from
`allocated`, the rest of `set` under its lock guard, `assert(m_files.count(fd) == 0);
m_files[fd] = file; return fd;`. -/
def SetState.step (s : SetState) (m : FileMap) : SetState × FileMap :=
  match s with
  | .called fd file =>
    if fd = FileMap.NewEntry then
      match m.slot with
      | some fd1 => (.allocated fd1 file, m)
      | none => (.failed .nontermination, m)
    else (.allocated fd file, m)
  | .allocated fd file =>
    if m.count fd = 0 then (.returned fd, m.assign fd { file with m_fd := fd })
    else (.failed .assertion, m)
  | .returned fd => (.returned fd, m)
  | .failed e => (.failed e, m)

/-! ## Notions the statements use -/

/-- The descriptor `d` is the smallest integer at or above `lo` that is not a key of `m`. -/
def FileMap.IsSmallestUnboundFrom (m : FileMap) (lo d : Int) : Prop :=
  lo ≤ d ∧ m.count d = 0 ∧ ∀ k, lo ≤ k → k < d → m.count k ≠ 0

/-- The descriptor `fd` is open in `w` and refers to the object `file`: `Win32File::of(fd)`
points to `file`, and `file` is the object whose constructor bound it there
(`file.m_fd` is `fd`). -/
def World.holds (w : World) (fd : Int) (file : Win32File) : Prop :=
  fd ≠ FileMap.NewEntry ∧ w.fileMap.find fd = some file ∧ file.m_fd = fd

/-- Successive auto-assigned opens with no call in between: one `new Win32File(fh, type,
FileMap::NewEntry)` for each element of the list; the result is the list of the
descriptors `file->fd()`, in order. -/
def openAll : List (Int × Win32FileType) → Prog (List Int)
  | [] => pure []
  | (fh, type) :: rest => do
    let file ← Win32File.new fh type FileMap.NewEntry
    let fds ← openAll rest
    pure (file.fd :: fds)

/-- A registry with the given bindings, for the concrete scenarios below. -/
def FileMap.ofList (l : List (Int × Win32File)) : FileMap :=
  l.foldr (fun e m => m.assign e.1 e.2) FileMap.empty

/-- A world with the given bindings, `errno` zero and no native call made yet. -/
def World.ofList (l : List (Int × Win32File)) : World :=
  { fileMap := FileMap.ofList l, errno := 0, trace := [] }

/-- An environment in which every native call succeeds: `DuplicateHandle` hands out the
handle `handle + 100`, the current process is the pseudo handle `-1`, `BOOL` calls return
1 and the others 0. -/
def okEnv : Env := fun _ c =>
  match c with
  | .GetCurrentProcess => ⟨-1, 0⟩
  | .DuplicateHandle _ handle _ _ _ _ => ⟨1, handle + 100⟩
  | .CloseHandle _ => ⟨1, 0⟩
  | _ => ⟨0, 0⟩

/-- An environment in which the native calls fail: the `BOOL` calls `CloseHandle` and
`DuplicateHandle` return `FALSE`, the other calls return -1, and the last socket error is
`code`. -/
def failEnv (code : Int) : Env := fun _ c =>
  match c with
  | .WSAGetLastError => ⟨code, 0⟩
  | .GetCurrentProcess => ⟨-1, 0⟩
  | .CloseHandle _ => ⟨0, 0⟩
  | .DuplicateHandle _ _ _ _ _ _ => ⟨0, 0⟩
  | _ => ⟨-1, 0⟩

/-- The fixed lookup from a native socket error `c` to the POSIX error `e`: the five codes
mapped one by one, every other code collapsing to `EBADF`; would-block is never `EBADF`. -/
def IsMappedError (c e : Int) : Prop :=
  (c = WSAEWOULDBLOCK → e = EWOULDBLOCK) ∧ (c = WSAEINTR → e = EINTR)
    ∧ (c = WSAEINVAL → e = EINVAL) ∧ (c = WSAECONNRESET → e = ECONNRESET)
    ∧ (c = WSAECONNABORTED → e = ECONNABORTED)
    ∧ (c ≠ WSAEWOULDBLOCK → c ≠ WSAEINTR → c ≠ WSAEINVAL → c ≠ WSAECONNRESET
        → c ≠ WSAECONNABORTED → e = EBADF)
    ∧ (c = WSAEWOULDBLOCK → e ≠ EBADF)

/-- The native close call that `Win32File::close` makes for `self` in world `w` fails:
`CloseHandle` returns `FALSE` for a file or a mapping, `closesocket` returns a negative
value for a socket. -/
def nativeCloseFails (env : Env) (w : World) (self : Win32File) : Prop :=
  match self.m_type with
  | .File | .Map => (env w.trace (.CloseHandle self.m_handle)).ret = 0
  | .Socket => (env w.trace (.closesocket self.m_handle)).ret < 0
  | .Unknown => False

instance (env : Env) (w : World) (self : Win32File) : Decidable (nativeCloseFails env w self) := by
  unfold nativeCloseFails
  split <;> infer_instance

instance (w : World) (fd : Int) (file : Win32File) : Decidable (w.holds fd file) := by
  unfold World.holds
  infer_instance

/-- A file system for the concrete scenarios: `f` is a plain file of 5 bytes whose three
times are one second after the 1970 epoch, `l` is a symbolic link (reparse point with the
symbolic-link tag), `d` is a directory; every other path fails with
`ERROR_FILE_NOT_FOUND`.  The C runtime reports `f` as regular, and `l` as the regular
file it leads to. -/
def sampleFs : FileSystem where
  GetFileAttributesExA path :=
    if path = ['f'] then
      some { dwFileAttributes := 0x20,
             ftCreationTime := ⟨3587643008, 27111902⟩,
             ftLastAccessTime := ⟨3587643008, 27111902⟩,
             ftLastWriteTime := ⟨3587643008, 27111902⟩,
             nFileSizeHigh := 0, nFileSizeLow := 5 }
    else if path = ['l'] then
      some { dwFileAttributes := 0x420,
             ftCreationTime := ⟨3587643008, 27111902⟩,
             ftLastAccessTime := ⟨3587643008, 27111902⟩,
             ftLastWriteTime := ⟨3587643008, 27111902⟩,
             nFileSizeHigh := 0, nFileSizeLow := 0 }
    else if path = ['d'] then
      some { dwFileAttributes := 0x10,
             ftCreationTime := ⟨3587643008, 27111902⟩,
             ftLastAccessTime := ⟨3587643008, 27111902⟩,
             ftLastWriteTime := ⟨3587643008, 27111902⟩,
             nFileSizeHigh := 0, nFileSizeLow := 0 }
    else none
  GetFileAttributesA path :=
    if path = ['f'] then 0x20 else if path = ['l'] then 0x420 else if path = ['d'] then 0x10
    else INVALID_FILE_ATTRIBUTES
  FindFirstFileA path :=
    if path = ['l'] then
      some (77, { dwFileAttributes := 0x420, dwReserved0 := IO_REPARSE_TAG_SYMLINK,
                  cFileName := ['l'] })
    else none
  GetLastError _ := ERROR_FILE_NOT_FOUND
  _stat64i32 path :=
    if path = ['f'] ∨ path = ['l'] then
      some { st_dev := 2, st_ino := 0, st_mode := 0x81B6, st_nlink := 1, st_uid := 0,
             st_gid := 0, st_rdev := 2, st_size := 5, st_atime := 1, st_mtime := 1,
             st_ctime := 1 }
    else none
  _fstat64i32 _ := none

/-- A record with every member zero, for output buffers. -/
def zeroStat : struct_stat :=
  { st_dev := 0, st_ino := 0, st_mode := 0, st_nlink := 0, st_uid := 0, st_gid := 0,
    st_rdev := 0, st_size := 0, st_atime := 0, st_mtime := 0, st_ctime := 0 }


/-- The member call `Win32File::of(fd)->fcntl(command, flags)`, as the callers of
`Win32File::fcntl` make it. -/
def fcntlOf (env : Env) (fd : Int) (command : Int) (flags : Nat) : Prog Int := do
  let self ← Win32File.of fd >>= deref
  Win32File.fcntl env self command flags

/-- The flags of handle `handle` after the calls in `trace`, when the native per-handle
flags are a stored word that starts as `initial` and that `SetHandleInformation` updates
under its mask (the calls are listed newest first). -/
def storedHandleFlags (initial : Nat) (handle : Int) : List NativeCall → Nat
  | [] => initial
  | .SetHandleInformation h mask flags :: earlier =>
    if h = handle then
      (storedHandleFlags initial handle earlier
        ^^^ (storedHandleFlags initial handle earlier &&& mask))
        ||| (flags &&& mask)
    else storedHandleFlags initial handle earlier
  | _ :: earlier => storedHandleFlags initial handle earlier

/-- An environment in which the native per-handle flags are a stored word, initially
`initial` for every handle: `GetHandleInformation` reports what the calls of
`SetHandleInformation` so far have stored.  Every other call succeeds as in `okEnv`. -/
def storedFlagsEnv (initial : Nat) : Env := fun trace c =>
  match c with
  | .GetHandleInformation handle => ⟨1, storedHandleFlags initial handle trace.reverse⟩
  | .SetHandleInformation _ _ _ => ⟨1, 0⟩
  | _ => okEnv trace c

/-- The length `len` that `Win32File::lstat` is left with after cutting the trailing
separators: 0 exactly when the name has no other character. -/
def lstatLen (filename uninit : List Char) : Nat :=
  (lstatStrip (cstr filename ++ uninit) (cstr filename).length).2

/-- The path that `Win32File::lstat` queries: the C string in its buffer after the trailing
separators are cut. -/
def lstatPath (filename uninit : List Char) : List Char :=
  cstr (lstatStrip (cstr filename ++ uninit) (cstr filename).length).1

/-- The attribute query of the prefix `p` fails with last error `code`. -/
def prefixFailsWith (fs : FileSystem) (p : List Char) (code : Nat) : Bool :=
  decide (fs.GetFileAttributesA p = INVALID_FILE_ATTRIBUTES)
    && decide (fs.GetLastError (some (.GetFileAttributesA p)) = code)

/-- The prefixes of `path` that end just before a path separator at an index below `n`,
from longest to shortest. -/
def separatorPrefixes (path : List Char) (n : Nat) : List (List Char) :=
  ((List.range n).reverse.filter (fun i => isPathSeparator (path.getD i NUL))).map
    (fun i => path.take i)

/-- The prefix walk in the words of the specification, over the separators below index
`n`: skip the prefixes whose attribute query fails with path-not-found; the walk passes
when no prefix remains, or when the first remaining prefix has attributes exactly
'directory' or exactly 'device', or fails with file-not-found. -/
def prefixWalkPasses (fs : FileSystem) (path : List Char) (n : Nat) : Bool :=
  match (separatorPrefixes path n).dropWhile
      (fun p => prefixFailsWith fs p ERROR_PATH_NOT_FOUND) with
  | [] => true
  | p :: _ =>
    decide (fs.GetFileAttributesA p = FILE_ATTRIBUTE_DIRECTORY)
      || decide (fs.GetFileAttributesA p = FILE_ATTRIBUTE_DEVICE)
      || prefixFailsWith fs p ERROR_FILE_NOT_FOUND

/-- The error classification of a failing `lstat` in the words of the specification, from
the native last-error code and the outcome of the prefix walk. -/
def lstatErrorOf (code : Nat) (walkPasses : Bool) : Int :=
  if code = ERROR_ACCESS_DENIED ∨ code = ERROR_SHARING_VIOLATION ∨ code = ERROR_LOCK_VIOLATION
      ∨ code = ERROR_SHARING_BUFFER_EXCEEDED then EACCES
  else if code = ERROR_BUFFER_OVERFLOW then ENAMETOOLONG
  else if code = ERROR_NOT_ENOUGH_MEMORY then ENOMEM
  else if code = ERROR_PATH_NOT_FOUND then (if walkPasses then ENOENT else ENOTDIR)
  else ENOENT

/-- The native query of `Win32File::lstat` for `path` fails: `GetFileAttributesExA` returns
`FALSE`, or it reports a reparse point and `FindFirstFileA` returns
`INVALID_HANDLE_VALUE`.  The value is the failing call. -/
def lstatFailingCall (fs : FileSystem) (path : List Char) : Option NativeCall :=
  match fs.GetFileAttributesExA path with
  | none => some (.GetFileAttributesExA path)
  | some attributes =>
    if attributes.dwFileAttributes &&& FILE_ATTRIBUTE_REPARSE_POINT ≠ 0 then
      match fs.FindFirstFileA path with
      | none => some (.FindFirstFileA path)
      | some _ => none
    else none

/-- The world an outcome ends in. -/
def Outcome.world {α : Type} : Outcome α → World
  | .returned _ w => w
  | .thrown _ w => w

/-- The calls of the public operations that bind or unbind descriptors. -/
inductive PublicCall where
  /-- `win32_open_osfhandle(handle, flags, fd)`: open by handle, kind file. -/
  | open_osfhandle (handle flags fd : Int)
  /-- `win32_open_osfhandle_with_type(handle, flags, fd, type)`: open by handle. -/
  | open_osfhandle_with_type (handle flags fd : Int) (type : Win32FileType)
  /-- `Win32File::open(filename, openFlag, permissionMode)`: open by path. -/
  | open_filename (filename : List Char) (openFlag permissionMode : Int)
  /-- `Win32File::sopen(filename, openFlag, shareFlag, permissionMode)`. -/
  | sopen (filename : List Char) (openFlag shareFlag permissionMode : Int)
  /-- `Win32File::socket(addressFamily, type, protocol)`. -/
  | socket (addressFamily type protocol : Int)
  /-- `Win32File::socketpair(fds, make_overlapped)`. -/
  | socketpair (make_overlapped : Int)
  /-- `Win32File::of(fd)->accept(addr, addrlen)`. -/
  | accept (fd : Int)
  /-- `dup(fd)`. -/
  | dup (fd : Int)
  /-- `dup2(oldfd, newfd)`. -/
  | dup2 (oldfd newfd : Int)
  /-- `close(fd)`. -/
  | close (fd : Int)
  /-- `win32_release_osfhandle(fd)`. -/
  | release (fd : Int)

/-- The world after the public call `c`, whether it returns or not. -/
def PublicCall.run (env : Env) (dumb_socketpair : DumbSocketpair) (c : PublicCall)
    (w : World) : World :=
  match c with
  | .open_osfhandle handle flags fd => (win32_open_osfhandle env handle flags fd w).world
  | .open_osfhandle_with_type handle flags fd type =>
    (win32_open_osfhandle_with_type env handle flags fd type w).world
  | .open_filename filename openFlag permissionMode =>
    (Win32File.open_filename env filename openFlag permissionMode w).world
  | .sopen filename openFlag shareFlag permissionMode =>
    (Win32File.sopen env filename openFlag shareFlag permissionMode w).world
  | .socket addressFamily type protocol =>
    (Win32File.socket env addressFamily type protocol w).world
  | .socketpair make_overlapped =>
    (Win32File.socketpair env dumb_socketpair (0, 0) make_overlapped w).world
  | .accept fd => ((Win32File.of fd >>= deref >>= Win32File.accept env) w).world
  | .dup fd => (Win32.dup env fd w).world
  | .dup2 oldfd newfd => (Win32.dup2 env oldfd newfd w).world
  | .close fd => (Win32.close env fd w).world
  | .release fd => (win32_release_osfhandle fd w).world

/-- The call opens by handle with the kind `Unknown`. -/
def PublicCall.kindUnknown : PublicCall → Bool
  | .open_osfhandle_with_type _ _ _ .Unknown => true
  | _ => false

/-- The worlds reachable from the empty registry through the public calls that `allowed`
admits. -/
inductive Reachable (env : Env) (dumb_socketpair : DumbSocketpair)
    (allowed : PublicCall → Prop) : World → Prop where
  | start (errno : Int) : Reachable env dumb_socketpair allowed ⟨FileMap.empty, errno, []⟩
  | call (c : PublicCall) (w : World) : allowed c → Reachable env dumb_socketpair allowed w →
      Reachable env dumb_socketpair allowed (c.run env dumb_socketpair w)

/-- Every object bound in the registry holds a native handle that is neither null nor
`INVALID_HANDLE_VALUE`. -/
def World.AllValid (w : World) : Prop :=
  ∀ fd file, w.fileMap.find fd = some file → file.isValid = true

/-- The program `x` keeps the registry invariant `World.AllValid`, whether it returns or
not, and a value it returns satisfies `post`. -/
def Keeps {α : Type} (x : Prog α) (post : α → Prop) : Prop :=
  ∀ w : World, w.AllValid →
    match x w with
    | .returned a w1 => w1.AllValid ∧ post a
    | .thrown _ w1 => w1.AllValid

/-- The native calls that hand out a handle never report success with the null handle:
`DuplicateHandle`, `socket` and `accept`. -/
def Env.NoNullHandle (env : Env) : Prop :=
  ∀ trace : List NativeCall,
    (∀ sourceProcess handle targetProcess access inherit options,
      (env trace (.DuplicateHandle sourceProcess handle targetProcess access inherit
        options)).ret ≠ 0 →
      (env trace (.DuplicateHandle sourceProcess handle targetProcess access inherit
        options)).out ≠ 0)
    ∧ (∀ addressFamily type protocol, (env trace (.socket addressFamily type protocol)).ret ≠ 0)
    ∧ (∀ sock, (env trace (.accept sock)).ret ≠ 0)

/-- An environment whose native calls succeed and hand out handles that are never null:
`DuplicateHandle` gives the handle 1000, `socket` the socket 5, `accept` the socket 6. -/
def handleEnv : Env := fun trace c =>
  match c with
  | .DuplicateHandle _ _ _ _ _ _ => ⟨1, 1000⟩
  | .socket _ _ _ => ⟨5, 0⟩
  | .accept _ => ⟨6, 0⟩
  | _ => okEnv trace c

/-- A `dumb_socketpair` that succeeds with the sockets 8 and 9. -/
def pairOfSockets : DumbSocketpair := fun _ _ => (0, 8, 9)


/-- A run of public calls from the empty registry: a socket, a socket pair, a duplicate of
descriptor 1, and the close of descriptor 2. -/
def sampleRun : World :=
  (PublicCall.close 2).run handleEnv pairOfSockets
    ((PublicCall.dup 1).run handleEnv pairOfSockets
      ((PublicCall.socketpair 0).run handleEnv pairOfSockets
        ((PublicCall.socket 2 1 6).run handleEnv pairOfSockets ⟨FileMap.empty, 0, []⟩)))

/-- The world after one open by handle with the kind `Unknown` from the empty registry. -/
def unknownRun : World :=
  (PublicCall.open_osfhandle_with_type 7 0 FileMap.NewEntry .Unknown).run handleEnv
    pairOfSockets ⟨FileMap.empty, 0, []⟩

/-- An environment in which every native call succeeds except `DuplicateHandle`, which
returns `FALSE`. -/
def noDuplicateEnv : Env := fun trace c =>
  match c with
  | .DuplicateHandle _ _ _ _ _ _ => ⟨0, 0⟩
  | _ => okEnv trace c

/-- The descriptor `fd` is bound in `w` to an object of socket kind. -/
def World.boundToSocket (w : World) (fd : Int) : Prop :=
  fd ≠ FileMap.NewEntry ∧ ∃ file, w.fileMap.find fd = some file ∧ file.m_type = .Socket

/-- The native handle of the object bound at `fd` in `w`. -/
def World.handleOf (w : World) (fd : Int) : Int :=
  match w.fileMap.find fd with
  | some file => file.m_handle
  | none => 0

/-- A native wait that reports one ready entry: `revents = 1` at index 0 and 0 elsewhere. -/
def firstReady : WSAPollResult := fun _ _ _ => (1, fun i => if i = 0 then 1 else 0)

/-- A file of a directory listing: its name, the handle `CreateFileA` gives for it, and
what `GetFileInformationByHandle` reports for that handle (`none` when the query fails). -/
structure ListedFile where
  name : List Char
  handle : Int
  info : Option BY_HANDLE_FILE_INFORMATION
  deriving DecidableEq, Repr

/-- The number of `_findnext` calls among the native calls `trace`. -/
def findnextCalls (trace : List NativeCall) : Nat :=
  (trace.filter (fun c => match c with
    | ._findnext _ => true
    | _ => false)).length

/-- The native calls for a directory whose enumeration yields the files `entries` in
order: `_findfirst` yields the first with the enumeration handle 50, each `_findnext` the
one that follows, and -1 after the last; every file can be opened by its name;
`GetFullPathNameA` gives the name back. -/
def listing (entries : List ListedFile) : DirectoryCalls :=
  { _findfirst := fun _ _ => entries.head?.map (fun e => (50, ⟨0, 0, e.name⟩)),
    _findnext := fun trace _ =>
      (entries.get? (findnextCalls trace + 1)).map (fun e => ⟨0, 0, e.name⟩),
    _findclose := fun _ _ => 0,
    CreateFileA := fun _ name =>
      match entries.find? (fun e => decide (e.name = name)) with
      | some e => e.handle
      | none => INVALID_HANDLE_VALUE,
    GetFileInformationByHandle := fun _ hfile =>
      (entries.find? (fun e => decide (e.handle = hfile))).bind (fun e => e.info),
    GetFullPathNameA := fun _ name => (name.length, name) }

/-- The value a call returned, if it returned. -/
def Outcome.result {α : Type} : Outcome α → Option α
  | .returned a _ => some a
  | .thrown _ _ => none

/-- The storage of a fresh `DIR` taken to be zero. -/
def zeroFinddata : _finddata_t := { attrib := 0, size := 0, name := [] }

/-- Successive calls of `readdir` on the same directory stream, `n` of them; the result is
the list of the pointers returned, in order. -/
def readdirs (api : DirectoryCalls) (fuel : Nat) : Nat → Option DIR → Prog (List (Option dirent))
  | 0, _ => pure []
  | n + 1, dir => do
    let r ← readdir api fuel dir
    let rest ← readdirs api fuel n r.2
    pure (r.1 :: rest)

/-- The native file handles that are open after the native calls `later`, made after the
calls `before`, when the handles `opened` were open before them: a successful
`CreateFileA` opens the handle it returns, `CloseHandle` closes its argument. -/
def openFileHandles (api : DirectoryCalls) (before : List NativeCall) :
    List NativeCall → List Int → List Int
  | [], opened => opened
  | c :: later, opened =>
    openFileHandles api (before ++ [c]) later
      (match c with
        | .CreateFileA name =>
          if api.CreateFileA before name = INVALID_HANDLE_VALUE then opened
          else api.CreateFileA before name :: opened
        | .CloseHandle handle => opened.erase handle
        | _ => opened)

/-- The directory `d` with the two entries `a.txt`, a regular file that has only the archive
attribute, and `b`, a subdirectory. -/
def twoEntries : List ListedFile :=
  [⟨['a', '.', 't', 'x', 't'], 40, some ⟨FILE_ATTRIBUTE_ARCHIVE, 0, 16⟩⟩,
    ⟨['b'], 41, some ⟨FILE_ATTRIBUTE_DIRECTORY, 0, 9⟩⟩]

/-- A directory whose enumeration yields `.`, then the subdirectory `b`, then the regular
file `a.txt` that has only the archive attribute. -/
def dotEntries : List ListedFile :=
  [⟨['.'], 39, some ⟨FILE_ATTRIBUTE_DIRECTORY, 0, 7⟩⟩,
    ⟨['b'], 41, some ⟨FILE_ATTRIBUTE_DIRECTORY, 0, 9⟩⟩,
    ⟨['a', '.', 't', 'x', 't'], 40, some ⟨FILE_ATTRIBUTE_ARCHIVE, 0, 16⟩⟩]

/-- A directory whose enumeration yields `.`, then the regular file `a.txt` that has only
the archive attribute. -/
def archiveEntries : List ListedFile :=
  [⟨['.'], 39, some ⟨FILE_ATTRIBUTE_DIRECTORY, 0, 7⟩⟩,
    ⟨['a', '.', 't', 'x', 't'], 40, some ⟨FILE_ATTRIBUTE_ARCHIVE, 0, 16⟩⟩]

/-- A directory whose enumeration yields `.`, then the file `a.txt`, which can be opened
but whose information query fails. -/
def unqueriedEntries : List ListedFile :=
  [⟨['.'], 39, some ⟨FILE_ATTRIBUTE_DIRECTORY, 0, 7⟩⟩,
    ⟨['a', '.', 't', 'x', 't'], 40, none⟩]

/-- A directory whose enumeration yields `.`, then the file `x` with the file index
(high 1, low 0), then the file `y` with the file index (high 0, low 16). -/
def collidingEntries : List ListedFile :=
  [⟨['.'], 39, some ⟨FILE_ATTRIBUTE_DIRECTORY, 0, 7⟩⟩,
    ⟨['x'], 42, some ⟨FILE_ATTRIBUTE_NORMAL, 1, 0⟩⟩,
    ⟨['y'], 43, some ⟨FILE_ATTRIBUTE_NORMAL, 0, 16⟩⟩]

/-- Threads that share the registry, run under the schedule given as the list of the
indices of the threads that take the next step, in order. -/
def runSchedule : List Nat → List SetState × FileMap → List SetState × FileMap
  | [], c => c
  | i :: rest, (threads, m) =>
    match threads[i]? with
    | none => runSchedule rest (threads, m)
    | some s => runSchedule rest (threads.set i (s.step m).1, (s.step m).2)

/-- The outcome of a call of `FileMap::set` that a thread has finished. -/
def SetState.outcome (s : SetState) (w : World) : Option (Outcome Int) :=
  match s with
  | .returned fd => some (.returned fd w)
  | .failed e => some (.thrown e w)
  | _ => none

theorem FileMap.find_isSome_iff (m : FileMap) (fd : Int) :
    (m.find fd).isSome ↔ fd ∈ m.m_files.map Prod.fst := by
  unfold FileMap.find
  rw [Option.isSome_map', List.find?_isSome]
  constructor
  · rintro ⟨e, he, hfd⟩
    exact List.mem_map.2 ⟨e, he, by simpa using hfd⟩
  · intro h
    obtain ⟨e, he, hfd⟩ := List.mem_map.1 h
    exact ⟨e, he, by simpa using hfd⟩

theorem FileMap.count_eq_zero_iff (m : FileMap) (fd : Int) :
    m.count fd = 0 ↔ m.find fd = none := by
  unfold FileMap.count
  cases h : m.find fd <;> simp

theorem FileMap.count_ne_zero_iff (m : FileMap) (fd : Int) :
    m.count fd ≠ 0 ↔ fd ∈ m.m_files.map Prod.fst := by
  rw [← FileMap.find_isSome_iff, Ne, FileMap.count_eq_zero_iff]
  cases h : m.find fd <;> simp

theorem FileMap.find_assign_self (m : FileMap) (fd : Int) (file : Win32File) :
    (m.assign fd file).find fd = some file := by
  simp [FileMap.find, FileMap.assign]

theorem find?_filter_ne (l : List (Int × Win32File)) (fd k : Int) (h : k ≠ fd) :
    (l.filter (fun e => decide (e.1 ≠ fd))).find? (fun e => decide (e.1 = k))
      = l.find? (fun e => decide (e.1 = k)) := by
  rw [List.find?_filter]
  congr 1
  funext e
  by_cases hk : e.1 = k
  · have hfd : e.1 ≠ fd := fun he => h (hk ▸ he)
    simp [hk, hfd, h]
  · simp [hk]

theorem FileMap.find_assign_ne (m : FileMap) (fd k : Int) (file : Win32File) (h : k ≠ fd) :
    (m.assign fd file).find k = m.find k := by
  have hfd : ¬ fd = k := fun hk => h hk.symm
  unfold FileMap.find FileMap.assign
  dsimp only
  rw [List.find?_cons_of_neg _ (by simpa using hfd), find?_filter_ne _ _ _ h]

theorem FileMap.find_eraseKey_self (m : FileMap) (fd : Int) :
    (m.eraseKey fd).find fd = none := by
  have h : ¬ ((m.eraseKey fd).find fd).isSome := by
    rw [FileMap.find_isSome_iff]
    intro hmem
    obtain ⟨e, he, hfd⟩ := List.mem_map.1 hmem
    have := (List.mem_filter.1 he).2
    simp [hfd] at this
  simpa using h

theorem FileMap.find_eraseKey_ne (m : FileMap) (fd k : Int) (h : k ≠ fd) :
    (m.eraseKey fd).find k = m.find k := by
  unfold FileMap.find FileMap.eraseKey
  dsimp only
  rw [find?_filter_ne _ _ _ h]

/-- The loop of `slot` only stops at an unbound descriptor above its start, having passed
bound descriptors only. -/
theorem FileMap.slotLoop_some (m : FileMap) (fuel : Nat) (fd d : Int)
    (h : m.slotLoop fuel fd = some d) :
    fd < d ∧ m.count d = 0 ∧ ∀ k, fd < k → k < d → m.count k ≠ 0 := by
  induction fuel generalizing fd with
  | zero => simp [FileMap.slotLoop] at h
  | succ fuel ih =>
    unfold FileMap.slotLoop at h
    by_cases hc : m.count (fd + 1) ≠ 0
    · rw [if_pos hc] at h
      obtain ⟨h1, h2, h3⟩ := ih (fd + 1) h
      refine ⟨by omega, h2, fun k hk1 hk2 => ?_⟩
      by_cases hk : k = fd + 1
      · rw [hk]; exact hc
      · exact h3 k (by omega) hk2
    · rw [if_neg hc] at h
      have hd : d = fd + 1 := by simpa using h.symm
      subst hd
      exact ⟨by omega, by simpa using hc, fun k hk1 hk2 => by omega⟩

/-- When the loop of `slot` runs out of fuel, every descriptor it visited is bound. -/
theorem FileMap.slotLoop_none (m : FileMap) (fuel : Nat) (fd : Int)
    (h : m.slotLoop fuel fd = none) :
    ∀ i : Nat, i < fuel → m.count (fd + 1 + i) ≠ 0 := by
  induction fuel generalizing fd with
  | zero => intro i hi; omega
  | succ fuel ih =>
    unfold FileMap.slotLoop at h
    by_cases hc : m.count (fd + 1) ≠ 0
    · rw [if_pos hc] at h
      intro i hi
      cases i with
      | zero => simpa using hc
      | succ i =>
        have := ih (fd + 1) h i (by omega)
        have e : fd + 1 + ((i + 1 : Nat) : Int) = fd + 1 + 1 + (i : Int) := by push_cast; ring
        rw [e]; exact this
    · rw [if_neg hc] at h
      simp at h

/-- The loop of `FileMap::slot` ends within `size + 1` iterations. -/
theorem FileMap.slot_isSome (m : FileMap) : ∃ d, m.slot = some d := by
  cases h : m.slot with
  | some d => exact ⟨d, rfl⟩
  | none =>
    exfalso
    have hall := FileMap.slotLoop_none m _ _ h
    let cand : List Int := (List.range (m.size + 1)).map (fun i : Nat => (m.size : Int) + 1 + i)
    have hnodup : cand.Nodup := by
      apply List.Nodup.map _ (List.nodup_range _)
      intro a b hab
      simpa using hab
    have hsub : cand ⊆ m.m_files.map Prod.fst := by
      intro x hx
      obtain ⟨i, hi, rfl⟩ := List.mem_map.1 hx
      exact (FileMap.count_ne_zero_iff m _).1 (hall i (List.mem_range.1 hi))
    have hlen := (hnodup.subperm hsub).length_le
    simp [cand, FileMap.size] at hlen

/-- Function `FileMap::slot` returns, and what it returns is the smallest unbound descriptor
above the number of bindings. -/
theorem FileMap.slot_spec (m : FileMap) :
    ∃ d, m.slot = some d ∧ m.IsSmallestUnboundFrom (m.size + 1) d := by
  obtain ⟨d, hd⟩ := FileMap.slot_isSome m
  obtain ⟨h1, h2, h3⟩ := FileMap.slotLoop_some m _ _ d hd
  exact ⟨d, hd, by omega, h2, fun k hk1 hk2 => h3 k (by omega) hk2⟩

/-! ## Facts about programs -/

theorem Prog.bind_eq {α β : Type} (x : Prog α) (f : α → Prog β) (w : World) :
    (x >>= f) w = match x w with
      | .returned a w1 => f a w1
      | .thrown e w1 => .thrown e w1 := rfl

theorem Prog.bind_returned {α β : Type} {x : Prog α} {f : α → Prog β} {w w1 : World} {a : α}
    (h : x w = .returned a w1) : (x >>= f) w = f a w1 := by
  rw [Prog.bind_eq, h]

theorem Prog.bind_thrown {α β : Type} {x : Prog α} {f : α → Prog β} {w w1 : World}
    {e : Exception} (h : x w = .thrown e w1) : (x >>= f) w = .thrown e w1 := by
  rw [Prog.bind_eq, h]

theorem Prog.pure_eq {α : Type} (a : α) (w : World) :
    (Pure.pure a : Prog α) w = .returned a w := rfl

/-- Function `FileMap::set` with the `NewEntry` sentinel returns the descriptor `slot` allocates
and binds the object there. -/
theorem FileMap.set_NewEntry_eq (file : Win32File) (w : World) :
    ∃ d, FileMap.set FileMap.NewEntry file w
        = .returned d { w with fileMap := w.fileMap.assign d { file with m_fd := d } }
      ∧ w.fileMap.IsSmallestUnboundFrom (w.fileMap.size + 1) d := by
  obtain ⟨d, hd, hs⟩ := FileMap.slot_spec w.fileMap
  refine ⟨d, ?_, hs⟩
  unfold FileMap.set
  rw [if_pos rfl, hd]
  simp only
  rw [if_pos hs.2.1]

/-- Function `FileMap::set` with an unbound descriptor other than the sentinel binds the object
there. -/
theorem FileMap.set_explicit_eq (fd : Int) (file : Win32File) (w : World)
    (hfd : fd ≠ FileMap.NewEntry) (hfree : w.fileMap.find fd = none) :
    FileMap.set fd file w
      = .returned fd { w with fileMap := w.fileMap.assign fd { file with m_fd := fd } } := by
  unfold FileMap.set
  rw [if_neg hfd]
  simp only
  rw [if_pos ((FileMap.count_eq_zero_iff _ _).2 hfree)]

/-- The constructor with the `NewEntry` sentinel. -/
theorem Win32File.new_NewEntry_eq (fh : Int) (type : Win32FileType) (w : World) :
    ∃ d, Win32File.new fh type FileMap.NewEntry w
        = .returned ⟨d, type, fh, 0⟩
            { w with fileMap := w.fileMap.assign d ⟨d, type, fh, 0⟩ }
      ∧ w.fileMap.IsSmallestUnboundFrom (w.fileMap.size + 1) d := by
  obtain ⟨d, hd, hs⟩ := FileMap.set_NewEntry_eq ⟨FileMap.NewEntry, type, fh, 0⟩ w
  refine ⟨d, ?_, hs⟩
  unfold Win32File.new
  rw [Prog.bind_returned hd]
  rfl

/-- The constructor with an explicit unbound descriptor. -/
theorem Win32File.new_explicit_eq (fh : Int) (type : Win32FileType) (fd : Int) (w : World)
    (hfd : fd ≠ FileMap.NewEntry) (hfree : w.fileMap.find fd = none) :
    Win32File.new fh type fd w
      = .returned ⟨fd, type, fh, 0⟩
          { w with fileMap := w.fileMap.assign fd ⟨fd, type, fh, 0⟩ } := by
  unfold Win32File.new
  rw [Prog.bind_returned (FileMap.set_explicit_eq fd _ w hfd hfree)]
  rfl

theorem Prog.bind_unit_returned {β : Type} {x : Prog Unit} {f : Unit → Prog β} {w w1 : World}
    (h : x w = .returned () w1) : (x >>= f) w = f () w1 := by
  rw [Prog.bind_eq, h]

theorem native_eq (env : Env) (c : NativeCall) (w : World) :
    native env c w = .returned (env w.trace c) { w with trace := w.trace ++ [c] } := rfl

theorem handleError_eq (error : Int) (w : World) :
    handleError error w = .returned (-1) { w with errno := error } := rfl

theorem World.holds_ne {w : World} {fd : Int} {file : Win32File} (h : w.holds fd file) :
    file.m_fd ≠ FileMap.NewEntry := by
  rw [h.2.2]; exact h.1

/-- Function `Win32File::of` on an open descriptor. -/
theorem Win32File.of_holds {w : World} {fd : Int} {file : Win32File} (h : w.holds fd file) :
    Win32File.of fd w = .returned (some file) w := by
  unfold Win32File.of FileMap.get
  rw [if_neg h.1, h.2.1]

/-- Function `Win32File::of` on a descriptor that is not bound: `std::map::at` throws. -/
theorem Win32File.of_unbound {w : World} {fd : Int} (hfd : fd ≠ FileMap.NewEntry)
    (h : w.fileMap.find fd = none) :
    Win32File.of fd w = .thrown .out_of_range w := by
  unfold Win32File.of FileMap.get
  rw [if_neg hfd, h]

/-- Function `Win32File::of` on the sentinel. -/
theorem Win32File.of_NewEntry (w : World) :
    Win32File.of FileMap.NewEntry w = .returned none w := by
  unfold Win32File.of FileMap.get
  rw [if_pos rfl]

/-- The destructor erases the binding of the object's descriptor. -/
theorem Win32File.delete_eq {self : Win32File} (h : self.m_fd ≠ FileMap.NewEntry) (w : World) :
    Win32File.delete self w
      = .returned () { w with fileMap := w.fileMap.eraseKey self.m_fd } := by
  unfold Win32File.delete FileMap.erase
  rw [if_neg h]

/-- Function `Win32File::release` erases the binding of the object's descriptor and returns the
handle. -/
theorem Win32File.release_eq {self : Win32File} (h : self.m_fd ≠ FileMap.NewEntry)
    (w : World) :
    Win32File.release self w
      = .returned self.m_handle { w with fileMap := w.fileMap.eraseKey self.m_fd } := by
  unfold Win32File.release
  show (Win32File.delete { self with m_handle := 0 } >>= fun _ => pure self.m_handle) w = _
  rw [Prog.bind_unit_returned (@Win32File.delete_eq { self with m_handle := 0 } h w)]
  rfl

/-- The static `handleWSALastError` returns -1, asks for the last socket error once, and touches
nothing but `errno`. -/
theorem handleWSALastError_eq (env : Env) (w : World) :
    ∃ e, handleWSALastError env w
      = .returned (-1) { w with errno := e, trace := w.trace ++ [.WSAGetLastError] } :=
  ⟨_, rfl⟩

/-- Function `Win32File::close` returns for every object, and what it does to the registry is to
erase the object's descriptor. -/
theorem Win32File.close_frame (env : Env) {self : Win32File}
    (h : self.m_fd ≠ FileMap.NewEntry) (w : World) :
    ∃ r w1, Win32File.close env self w = .returned r w1
      ∧ w1.fileMap = w.fileMap.eraseKey self.m_fd := by
  unfold Win32File.close
  by_cases hv : self.isValid = true
  · simp only [hv, Bool.not_true, Bool.false_eq_true, if_false]
    rcases self with ⟨fd, type, handle, flags⟩
    cases type
    all_goals simp only [Prog.bind_eq, native_eq]
    all_goals first | split_ifs | skip
    all_goals simp only [Prog.bind_eq, handleError_eq, Prog.pure_eq, Win32File.release_eq h,
      handleWSALastError, native_eq]
    all_goals exact ⟨_, _, rfl, rfl⟩
  · simp only [hv, Bool.not_false, if_true]
    rw [Prog.bind_unit_returned (Win32File.delete_eq h w)]
    exact ⟨_, _, rfl, rfl⟩


/-- What `handleWSALastError` stores in `errno` follows the fixed lookup. -/
theorem handleWSALastError_mapped (env : Env) (w : World) :
    ∃ e, handleWSALastError env w
        = .returned (-1) { w with errno := e, trace := w.trace ++ [.WSAGetLastError] }
      ∧ IsMappedError (env w.trace .WSAGetLastError).ret e := by
  refine ⟨_, rfl, ?_⟩
  unfold IsMappedError
  refine ⟨?_, ?_, ?_, ?_, ?_, ?_, ?_⟩
  · intro h; simp [h]
  · intro h; simp [h, WSAEINTR, WSAEWOULDBLOCK]
  · intro h; simp [h, WSAEINTR, WSAEWOULDBLOCK, WSAEINVAL]
  · intro h; simp [h, WSAEINTR, WSAEWOULDBLOCK, WSAEINVAL, WSAECONNRESET]
  · intro h; simp [h, WSAEINTR, WSAEWOULDBLOCK, WSAEINVAL, WSAECONNRESET, WSAECONNABORTED]
  · intro h1 h2 h3 h4 h5; simp [h1, h2, h3, h4, h5]
  · intro h; simp [h, EWOULDBLOCK, EBADF]

theorem Win32File.isValid_false {self : Win32File}
    (h : self.m_handle = 0 ∨ self.m_handle = INVALID_HANDLE_VALUE) : self.isValid = false := by
  unfold Win32File.isValid
  rcases h with h | h <;> simp [h]

/-- The member call `Win32File::of(fd)->...` on an open descriptor reaches the object. -/
theorem Win32File.of_deref_holds {w : World} {fd : Int} {file : Win32File}
    (h : w.holds fd file) : (Win32File.of fd >>= deref) w = .returned file w := by
  rw [Prog.bind_returned (Win32File.of_holds h)]
  rfl

/-- The general fact behind C3: closing an open descriptor `fd > 0` returns, and a second
`close(fd)` leaves by `std::out_of_range`. -/
theorem close_twice_throws (env : Env) (w : World) (fd : Int) (file : Win32File)
    (hfd : 0 < fd) (h : w.holds fd file) :
    ∃ r w1, close env fd w = .returned r w1 ∧ close env fd w1 = .thrown .out_of_range w1 := by
  obtain ⟨r, w1, hclose, hmap⟩ := Win32File.close_frame env (World.holds_ne h) w
  refine ⟨r, w1, ?_, ?_⟩
  · unfold close
    rw [if_pos hfd, Prog.bind_returned (Win32File.of_holds h)]
    simp only [Option.isSome_some, if_true]
    rw [Prog.bind_returned (Win32File.of_deref_holds h)]
    exact hclose
  · have hnone : w1.fileMap.find fd = none := by
      rw [hmap, h.2.2]; exact FileMap.find_eraseKey_self _ _
    unfold close
    rw [if_pos hfd, Prog.bind_thrown (Win32File.of_unbound h.1 hnone)]

/-- The static `duplicateHandle` returns, and touches neither the registry nor `errno`. -/
theorem duplicateHandle_frame (env : Env) (sourcePid handle : Int) (close : Bool) (w : World) :
    ∃ x w1, duplicateHandle env sourcePid handle close w = .returned x w1
      ∧ w1.fileMap = w.fileMap ∧ w1.errno = w.errno := by
  unfold duplicateHandle
  by_cases hp : sourcePid = -1
  · simp only [hp, if_true, Prog.bind_eq, native_eq, ne_eq, not_true_eq_false, false_and,
      if_false]
    split_ifs
    all_goals simp only [Prog.pure_eq, Prog.bind_eq, native_eq]
    all_goals exact ⟨_, _, rfl, rfl, rfl⟩
  · simp only [hp, if_false, Prog.bind_eq, native_eq, ne_eq, not_false_eq_true, true_and]
    split_ifs
    all_goals try simp only [Prog.pure_eq, Prog.bind_eq, native_eq]
    all_goals try split_ifs
    all_goals try simp only [Prog.pure_eq, Prog.bind_eq, native_eq]
    all_goals exact ⟨_, _, rfl, rfl, rfl⟩

theorem duplicateHandle_frame_of_eq {env : Env} {sourcePid handle : Int} {close : Bool}
    {w w1 : World} {x : Int}
    (h : duplicateHandle env sourcePid handle close w = .returned x w1) :
    w1.fileMap = w.fileMap ∧ w1.errno = w.errno := by
  obtain ⟨x0, w0, h0, hm, he⟩ := duplicateHandle_frame env sourcePid handle close w
  rw [h0] at h
  cases h
  exact ⟨hm, he⟩

theorem Win32File.close_frame_of_eq {env : Env} {self : Win32File} {w w1 : World} {r : Int}
    (hfd : self.m_fd ≠ FileMap.NewEntry) (h : Win32File.close env self w = .returned r w1) :
    w1.fileMap = w.fileMap.eraseKey self.m_fd := by
  obtain ⟨r0, w0, h0, hm⟩ := Win32File.close_frame env hfd w
  rw [h0] at h
  cases h
  exact hm

/-- Function `Win32File::dup` with the `NewEntry` sentinel: nothing is closed, the duplicate is
bound at a freshly allocated descriptor. -/
theorem Win32File.dup_NewEntry_eq {env : Env} {self : Win32File} {w w1 : World} {h : Int}
    (hv : self.isValid = true)
    (hdup : duplicateHandle env (-1) self.m_handle false w = .returned h w1)
    (hh : h ≠ INVALID_HANDLE_VALUE) :
    ∃ d, Win32File.dup env self FileMap.NewEntry w
        = .returned d { w1 with fileMap := w1.fileMap.assign d ⟨d, self.m_type, h, 0⟩ }
      ∧ w1.fileMap.IsSmallestUnboundFrom (w1.fileMap.size + 1) d := by
  obtain ⟨d, hd, hs⟩ := Win32File.new_NewEntry_eq h self.m_type w1
  refine ⟨d, ?_, hs⟩
  unfold Win32File.dup
  simp only [hv, Bool.not_true, Bool.false_eq_true, if_false]
  rw [Prog.bind_returned (Win32File.of_NewEntry w)]
  simp only [Prog.bind_eq, Prog.pure_eq, hdup, if_neg hh, hd]
  rfl

/-- Function `Win32File::dup` onto an occupied descriptor other than its own: the occupant is
closed, then the duplicate is bound at that descriptor. -/
theorem Win32File.dup_occupied_eq {env : Env} {self occupant : Win32File} {w w1 w2 : World}
    {newfd r h : Int} (hv : self.isValid = true) (hocc : w.holds newfd occupant)
    (hne : newfd ≠ self.m_fd)
    (hclose : Win32File.close env occupant w = .returned r w1)
    (hdup : duplicateHandle env (-1) self.m_handle false w1 = .returned h w2)
    (hh : h ≠ INVALID_HANDLE_VALUE) :
    Win32File.dup env self newfd w
      = .returned newfd
          { w2 with fileMap := w2.fileMap.assign newfd ⟨newfd, self.m_type, h, 0⟩ } := by
  have hm1 := Win32File.close_frame_of_eq (World.holds_ne hocc) hclose
  have hm2 := (duplicateHandle_frame_of_eq hdup).1
  have hfree : w2.fileMap.find newfd = none := by
    rw [hm2, hm1, hocc.2.2]
    exact FileMap.find_eraseKey_self _ _
  unfold Win32File.dup
  simp only [hv, Bool.not_true, Bool.false_eq_true, if_false]
  rw [Prog.bind_returned (Win32File.of_holds hocc)]
  simp only [Prog.bind_eq, Prog.pure_eq, hclose, if_neg hne, hdup, if_neg hh,
    Win32File.new_explicit_eq h self.m_type newfd w2 hocc.1 hfree]
  rfl

theorem find?_map_write (l : List (Int × Win32File)) (fd k : Int) (file : Win32File) :
    ((l.map (fun e => if e.1 = fd then (e.1, file) else e)).find?
        (fun e => decide (e.1 = k))).map Prod.snd
      = ((l.find? (fun e => decide (e.1 = k))).map Prod.snd).map
          (fun old => if k = fd then file else old) := by
  induction l with
  | nil => rfl
  | cons e l ih =>
    by_cases hk : e.1 = k
    · by_cases hfd : e.1 = fd
      · have hkfd : k = fd := hk ▸ hfd
        simp [List.find?_cons, hk, hfd, hkfd]
      · have hkfd : ¬ k = fd := fun h => hfd (hk.trans h)
        simp [List.find?_cons, hk, hfd, hkfd]
    · by_cases hfd : e.1 = fd
      · simp only [List.map_cons, if_pos hfd, List.find?_cons, hk, decide_False]
        exact ih
      · simp only [List.map_cons, if_neg hfd, List.find?_cons, hk, decide_False]
        exact ih

/-- A write through the pointer stored under `fd` replaces the object bound there. -/
theorem FileMap.find_write_self (m : FileMap) (fd : Int) (file old : Win32File)
    (h : m.find fd = some old) : (m.write fd file).find fd = some file := by
  unfold FileMap.find at h
  unfold FileMap.find FileMap.write
  dsimp only
  rw [find?_map_write, h]
  simp

/-- A write through the pointer stored under `fd` leaves the other bindings alone. -/
theorem FileMap.find_write_ne (m : FileMap) (fd k : Int) (file : Win32File) (h : k ≠ fd) :
    (m.write fd file).find k = m.find k := by
  unfold FileMap.find FileMap.write
  dsimp only
  rw [find?_map_write]
  cases (List.find? (fun e => decide (e.1 = k)) m.m_files) <;> simp [h]

theorem or_and_self_right (a b : Nat) : (a ||| b) &&& b = b := by
  apply Nat.eq_of_testBit_eq
  intro i
  simp only [Nat.testBit_and, Nat.testBit_or]
  cases a.testBit i <;> cases b.testBit i <;> rfl

/-- The calls `Win32File::of(fd)->fcntl(...)` on an open descriptor reach the object. -/
theorem fcntlOf_holds {env : Env} {w : World} {fd : Int} {self : Win32File}
    (h : w.holds fd self) (command : Int) (flags : Nat) :
    fcntlOf env fd command flags w = Win32File.fcntl env self command flags w := by
  unfold fcntlOf
  rw [Prog.bind_returned (Win32File.of_deref_holds h)]

/-- Command `F_GETFL` looks at the flags word only when its argument has `O_NONBLOCK`. -/
theorem Win32File.fcntl_GETFL_eq (env : Env) (self : Win32File) (flags : Nat) (w : World)
    (hv : self.isValid = true) :
    Win32File.fcntl env self F_GETFL flags w
      = .returned (if flags &&& O_NONBLOCK ≠ 0 then ((self.m_flags &&& O_NONBLOCK : Nat) : Int)
          else 0) w := by
  unfold Win32File.fcntl
  simp only [hv, Bool.not_true, Bool.false_eq_true, if_false]
  have h1 : ¬ F_GETFL = F_GETFD := by decide
  have h2 : ¬ F_GETFL = F_SETFD := by decide
  rw [if_neg h1, if_neg h2, if_pos trivial]
  split_ifs <;> rfl


theorem GetFileAttributesA_eq (fs : FileSystem) (path : List Char) (w : World) :
    GetFileAttributesA fs path w
      = .returned (fs.GetFileAttributesA path)
          { w with trace := w.trace ++ [.GetFileAttributesA path] } := rfl

theorem GetFileAttributesExA_eq (fs : FileSystem) (path : List Char) (w : World) :
    GetFileAttributesExA fs path w
      = .returned (fs.GetFileAttributesExA path)
          { w with trace := w.trace ++ [.GetFileAttributesExA path] } := rfl

theorem FindFirstFileA_eq (fs : FileSystem) (path : List Char) (w : World) :
    FindFirstFileA fs path w
      = .returned (fs.FindFirstFileA path)
          { w with trace := w.trace ++ [.FindFirstFileA path] } := rfl

theorem GetLastError_eq (fs : FileSystem) (w : World) :
    GetLastError fs w
      = .returned (fs.GetLastError w.trace.getLast?)
          { w with trace := w.trace ++ [.GetLastError] } := rfl

/-- Right after the native call `c`, `GetLastError` gives the code the file system has for
`c`. -/
theorem GetLastError_after (fs : FileSystem) (w : World) (c : NativeCall) :
    GetLastError fs { w with trace := w.trace ++ [c] }
      = .returned (fs.GetLastError (some c))
          { w with trace := w.trace ++ [c] ++ [.GetLastError] } := by
  rw [GetLastError_eq]
  simp

theorem separatorPrefixes_succ (path : List Char) (n : Nat) :
    separatorPrefixes path (n + 1)
      = if isPathSeparator (path.getD n NUL) then path.take n :: separatorPrefixes path n
        else separatorPrefixes path n := by
  unfold separatorPrefixes
  rw [List.range_succ, List.reverse_append, List.reverse_singleton, List.singleton_append,
    List.filter_cons]
  split_ifs <;> simp

/-- The loop of `hasValidDirectoryPrefix` computes the prefix walk of the specification; it
returns, and touches neither the registry nor `errno`. -/
theorem hasValidDirectoryPrefixLoop_spec (fs : FileSystem) (path : List Char) (n : Nat)
    (w : World) :
    ∃ w1, hasValidDirectoryPrefixLoop fs path n w
        = .returned (if prefixWalkPasses fs path n then 1 else 0) w1
      ∧ w1.fileMap = w.fileMap ∧ w1.errno = w.errno := by
  induction n generalizing w with
  | zero => exact ⟨w, rfl, rfl, rfl⟩
  | succ n ih =>
    unfold hasValidDirectoryPrefixLoop
    by_cases hsep : isPathSeparator (path.getD n NUL) = true
    · simp only [hsep, Bool.not_true, Bool.false_eq_true, if_false, Prog.bind_eq,
        GetFileAttributesA_eq]
      have hwalk : prefixWalkPasses fs path (n + 1)
          = if prefixFailsWith fs (path.take n) ERROR_PATH_NOT_FOUND then
              prefixWalkPasses fs path n
            else (decide (fs.GetFileAttributesA (path.take n) = FILE_ATTRIBUTE_DIRECTORY)
              || decide (fs.GetFileAttributesA (path.take n) = FILE_ATTRIBUTE_DEVICE)
              || prefixFailsWith fs (path.take n) ERROR_FILE_NOT_FOUND) := by
        unfold prefixWalkPasses
        rw [separatorPrefixes_succ, if_pos hsep, List.dropWhile_cons]
        split_ifs <;> rfl
      rw [hwalk]
      by_cases hdir : fs.GetFileAttributesA (path.take n) = FILE_ATTRIBUTE_DIRECTORY
          ∨ fs.GetFileAttributesA (path.take n) = FILE_ATTRIBUTE_DEVICE
      · have hnf : prefixFailsWith fs (path.take n) ERROR_PATH_NOT_FOUND = false := by
          have hne1 : ¬ FILE_ATTRIBUTE_DIRECTORY = INVALID_FILE_ATTRIBUTES := by decide
          have hne2 : ¬ FILE_ATTRIBUTE_DEVICE = INVALID_FILE_ATTRIBUTES := by decide
          unfold prefixFailsWith
          rcases hdir with hd | hd <;> simp [hd, hne1, hne2]
        rw [if_pos hdir, hnf]
        refine ⟨{ w with trace := w.trace ++ [.GetFileAttributesA (path.take n)] }, ?_, rfl, rfl⟩
        rcases hdir with hd | hd <;> simp [hd, Prog.pure_eq]
      · rw [if_neg hdir]
        have hd1 : ¬ fs.GetFileAttributesA (path.take n) = FILE_ATTRIBUTE_DIRECTORY :=
          fun hd => hdir (Or.inl hd)
        have hd2 : ¬ fs.GetFileAttributesA (path.take n) = FILE_ATTRIBUTE_DEVICE :=
          fun hd => hdir (Or.inr hd)
        by_cases hinv : fs.GetFileAttributesA (path.take n) = INVALID_FILE_ATTRIBUTES
        · rw [if_pos hinv]
          simp only [Prog.bind_eq, GetLastError_after]
          by_cases hpnf : fs.GetLastError (some (.GetFileAttributesA (path.take n)))
              = ERROR_PATH_NOT_FOUND
          · have hf : prefixFailsWith fs (path.take n) ERROR_PATH_NOT_FOUND = true := by
              unfold prefixFailsWith
              simp [hinv, hpnf]
            rw [if_pos hpnf, hf]
            obtain ⟨w1, h1, h2, h3⟩ := ih
              { w with trace := w.trace ++ [.GetFileAttributesA (path.take n)]
                  ++ [.GetLastError] }
            exact ⟨w1, by simpa using h1, h2, h3⟩
          · have hf : prefixFailsWith fs (path.take n) ERROR_PATH_NOT_FOUND = false := by
              unfold prefixFailsWith
              simp [hpnf]
            rw [if_neg hpnf, hf]
            refine ⟨{ w with trace := w.trace ++ [.GetFileAttributesA (path.take n)]
                ++ [.GetLastError] }, ?_, rfl, rfl⟩
            by_cases hfnf : fs.GetLastError (some (.GetFileAttributesA (path.take n)))
                = ERROR_FILE_NOT_FOUND
            · simp [hfnf, hd1, hd2, hinv, prefixFailsWith, Prog.pure_eq]
            · simp [hfnf, hd1, hd2, prefixFailsWith, Prog.pure_eq]
        · have hf : prefixFailsWith fs (path.take n) ERROR_PATH_NOT_FOUND = false := by
            unfold prefixFailsWith
            simp [hinv]
          rw [if_neg hinv, hf]
          refine ⟨{ w with trace := w.trace ++ [.GetFileAttributesA (path.take n)] }, ?_, rfl, rfl⟩
          simp [hd1, hd2, hinv, prefixFailsWith, Prog.pure_eq]
    · have hsep' : isPathSeparator (path.getD n NUL) = false := by simpa using hsep
      simp only [hsep', Bool.not_false, if_true]
      have hwalk : prefixWalkPasses fs path (n + 1) = prefixWalkPasses fs path n := by
        unfold prefixWalkPasses
        rw [separatorPrefixes_succ, hsep']
        rfl
      rw [hwalk]
      exact ih w


/-- The static `handleLstatLastError`, called right after the failing native call `c`,
returns -1 and sets `errno` by the classification of the specification. -/
theorem handleLstatLastError_spec (fs : FileSystem) (path : List Char) (w : World)
    (c : NativeCall) :
    ∃ w1, handleLstatLastError fs path { w with trace := w.trace ++ [c] } = .returned (-1) w1
      ∧ w1.errno
          = lstatErrorOf (fs.GetLastError (some c)) (prefixWalkPasses fs path path.length)
      ∧ w1.fileMap = w.fileMap := by
  unfold handleLstatLastError
  simp only [Prog.bind_eq, GetLastError_after]
  unfold lstatErrorOf
  by_cases h1 : fs.GetLastError (some c) = ERROR_ACCESS_DENIED
      ∨ fs.GetLastError (some c) = ERROR_SHARING_VIOLATION
      ∨ fs.GetLastError (some c) = ERROR_LOCK_VIOLATION
      ∨ fs.GetLastError (some c) = ERROR_SHARING_BUFFER_EXCEEDED
  · simp only [if_pos h1, Prog.pure_eq]
    exact ⟨_, rfl, rfl, rfl⟩
  · simp only [if_neg h1]
    by_cases h2 : fs.GetLastError (some c) = ERROR_BUFFER_OVERFLOW
    · simp only [if_pos h2, Prog.pure_eq]
      exact ⟨_, rfl, rfl, rfl⟩
    · simp only [if_neg h2]
      by_cases h3 : fs.GetLastError (some c) = ERROR_NOT_ENOUGH_MEMORY
      · simp only [if_pos h3, Prog.pure_eq]
        exact ⟨_, rfl, rfl, rfl⟩
      · simp only [if_neg h3]
        by_cases h4 : fs.GetLastError (some c) = ERROR_PATH_NOT_FOUND
        · simp only [if_pos h4, Prog.bind_eq]
          obtain ⟨w1, hw1, hm, _⟩ := hasValidDirectoryPrefixLoop_spec fs path path.length
            { w with trace := w.trace ++ [c] ++ [.GetLastError] }
          unfold hasValidDirectoryPrefix
          rw [hw1]
          by_cases hp : prefixWalkPasses fs path path.length = true
          · simp only [hp, if_true, Prog.pure_eq]
            exact ⟨_, rfl, rfl, hm⟩
          · have hp' : prefixWalkPasses fs path path.length = false := by simpa using hp
            simp only [hp', Bool.false_eq_true, if_false, Prog.pure_eq]
            exact ⟨_, rfl, rfl, hm⟩
        · simp only [if_neg h4, Prog.pure_eq]
          exact ⟨_, rfl, rfl, rfl⟩

/-- A name without any character other than separators leaves `lstat` with length 0. -/
theorem lstatStrip_separators (name uninit : List Char)
    (h : ∀ c ∈ name, isPathSeparator c = true) :
    (lstatStrip (name ++ uninit) name.length).2 = 0 := by
  induction name using List.reverseRecOn generalizing uninit with
  | nil => rfl
  | append_singleton l c ih =>
    have hc : isPathSeparator c = true := h c (by simp)
    have hget : (l ++ [c] ++ uninit).getD l.length NUL = c := by
      rw [List.append_assoc, List.getD_eq_getElem?_getD,
        List.getElem?_append_right (le_refl _)]
      simp
    have hset : (l ++ [c] ++ uninit).set l.length NUL = l ++ (NUL :: uninit) := by
      rw [List.append_assoc, List.set_append_right _ _ (le_refl _)]
      simp
    rw [List.length_append, List.length_singleton]
    unfold lstatStrip
    rw [hget, if_pos hc, hset]
    exact ih (NUL :: uninit) (fun c hcl => h c (by simp [hcl]))

/-- With length 0 after the cut, `Win32File::lstat` returns -1 with `errno = ENOENT`
and makes no native call. -/
theorem Win32File.lstat_of_len_zero (h : Header) (fs : FileSystem)
    (filename uninit : List Char) (out : struct_stat) (w : World)
    (hlen : lstatLen filename uninit = 0) :
    Win32File.lstat h fs filename uninit out w
      = .returned (-1, out) { w with errno := ENOENT } := by
  unfold lstatLen at hlen
  unfold Win32File.lstat
  simp only [hlen, if_true]
  rfl

/-- A failing native query makes `Win32File::lstat` return -1, leave the record alone and
set `errno` by the classification of the specification. -/
theorem Win32File.lstat_of_failing_query (h : Header) (fs : FileSystem)
    (filename uninit : List Char) (out : struct_stat) (w : World) (c : NativeCall)
    (hlen : lstatLen filename uninit ≠ 0)
    (hfail : lstatFailingCall fs (lstatPath filename uninit) = some c) :
    ∃ w1, Win32File.lstat h fs filename uninit out w = .returned (-1, out) w1
      ∧ w1.errno = lstatErrorOf (fs.GetLastError (some c))
          (prefixWalkPasses fs (lstatPath filename uninit) (lstatPath filename uninit).length)
      ∧ w1.fileMap = w.fileMap := by
  unfold lstatLen at hlen
  unfold lstatPath at hfail ⊢
  unfold Win32File.lstat
  simp only [if_neg hlen, Prog.bind_eq, GetFileAttributesExA_eq]
  unfold lstatFailingCall at hfail
  cases hattr : fs.GetFileAttributesExA
      (cstr (lstatStrip (cstr filename ++ uninit) (cstr filename).length).1) with
  | none =>
    rw [hattr] at hfail
    simp only at hfail
    cases hfail
    obtain ⟨w1, hw1, he, hm⟩ := handleLstatLastError_spec fs
      (cstr (lstatStrip (cstr filename ++ uninit) (cstr filename).length).1) w
      (.GetFileAttributesExA (cstr (lstatStrip (cstr filename ++ uninit) (cstr filename).length).1))
    dsimp only
    rw [Prog.bind_returned hw1]
    exact ⟨w1, rfl, he, hm⟩
  | some a =>
    rw [hattr] at hfail
    simp only at hfail
    by_cases hrp : a.dwFileAttributes &&& FILE_ATTRIBUTE_REPARSE_POINT ≠ 0
    · rw [if_pos hrp] at hfail
      simp only [if_pos hrp, Prog.bind_eq, FindFirstFileA_eq]
      cases hfind : fs.FindFirstFileA
          (cstr (lstatStrip (cstr filename ++ uninit) (cstr filename).length).1) with
      | none =>
        rw [hfind] at hfail
        simp only at hfail
        cases hfail
        obtain ⟨w1, hw1, he, hm⟩ := handleLstatLastError_spec fs
          (cstr (lstatStrip (cstr filename ++ uninit) (cstr filename).length).1)
          { w with trace := w.trace ++ [.GetFileAttributesExA
            (cstr (lstatStrip (cstr filename ++ uninit) (cstr filename).length).1)] }
          (.FindFirstFileA (cstr (lstatStrip (cstr filename ++ uninit) (cstr filename).length).1))
        dsimp only
        rw [Prog.bind_returned hw1]
        exact ⟨w1, rfl, he, hm⟩
      | some found =>
        rw [hfind] at hfail
        simp at hfail
    · rw [if_neg hrp] at hfail
      simp at hfail

/-- A name that consists of separators only, the empty name included, makes
`Win32File::lstat` return -1 with `errno = ENOENT` without any native call. -/
theorem Win32File.lstat_separators_only (h : Header) (fs : FileSystem)
    (filename uninit : List Char) (out : struct_stat) (w : World)
    (hsep : ∀ c ∈ cstr filename, isPathSeparator c = true) :
    Win32File.lstat h fs filename uninit out w
      = .returned (-1, out) { w with errno := ENOENT } :=
  Win32File.lstat_of_len_zero h fs filename uninit out w
    (lstatStrip_separators (cstr filename) uninit hsep)

/-! ## The registry invariant -/

theorem Keeps.pure {α : Type} {post : α → Prop} (a : α) (h : post a) :
    Keeps (Pure.pure a : Prog α) post :=
  fun _ hw => ⟨hw, h⟩

theorem Keeps.raise {α : Type} {post : α → Prop} (e : Exception) :
    Keeps (Win32.raise e : Prog α) post :=
  fun _ hw => hw

theorem Keeps.bind {α β : Type} {x : Prog α} {f : α → Prog β} {mid : α → Prop}
    {post : β → Prop} (hx : Keeps x mid) (hf : ∀ a, mid a → Keeps (f a) post) :
    Keeps (x >>= f) post := by
  intro w hw
  have h1 := hx w hw
  rw [Prog.bind_eq]
  cases hxw : x w with
  | returned a w1 =>
    rw [hxw] at h1
    exact hf a h1.2 w1 h1.1
  | thrown e w1 =>
    rw [hxw] at h1
    exact h1

theorem Keeps.weaken {α : Type} {x : Prog α} {post post1 : α → Prop} (hx : Keeps x post)
    (h : ∀ a, post a → post1 a) : Keeps x post1 := by
  intro w hw
  have h1 := hx w hw
  cases hxw : x w with
  | returned a w1 =>
    rw [hxw] at h1
    exact ⟨h1.1, h _ h1.2⟩
  | thrown e w1 =>
    rw [hxw] at h1
    exact h1

theorem Keeps.ite {α : Type} {x y : Prog α} {post : α → Prop} (c : Prop) [Decidable c]
    (hx : c → Keeps x post) (hy : ¬ c → Keeps y post) :
    Keeps (if c then x else y) post := by
  by_cases hc : c
  · rw [if_pos hc]; exact hx hc
  · rw [if_neg hc]; exact hy hc

/-- A program that returns and leaves the registry alone keeps the invariant. -/
theorem Keeps.of_frame {α : Type} {x : Prog α} {post : α → Prop}
    (h : ∀ w, ∃ a w1, x w = .returned a w1 ∧ w1.fileMap = w.fileMap ∧ post a) :
    Keeps x post := by
  intro w hw
  obtain ⟨a, w1, hx, hm, hp⟩ := h w
  rw [hx]
  refine ⟨?_, hp⟩
  intro fd file hf
  rw [hm] at hf
  exact hw fd file hf

theorem Keeps.native {post : NativeResult → Prop} (env : Env) (c : NativeCall)
    (h : ∀ trace, post (env trace c)) : Keeps (Win32.native env c) post :=
  Keeps.of_frame fun w => ⟨_, _, rfl, rfl, h w.trace⟩

theorem Keeps.native_any (env : Env) (c : NativeCall) :
    Keeps (Win32.native env c) (fun _ => True) :=
  Keeps.native env c (fun _ => trivial)

theorem Keeps.bind_any {α β : Type} {x : Prog α} {f : α → Prog β} {post : β → Prop}
    (hx : Keeps x (fun _ => True)) (hf : ∀ a, Keeps (f a) post) : Keeps (x >>= f) post :=
  Keeps.bind hx (fun a _ => hf a)

theorem Keeps.handleError {post : Int → Prop} (error : Int) (h : post (-1)) :
    Keeps (Win32.handleError error) post :=
  Keeps.of_frame fun _ => ⟨_, _, rfl, rfl, h⟩

theorem Keeps.handleWSALastError {post : Int → Prop} (env : Env) (h : post (-1)) :
    Keeps (Win32.handleWSALastError env) post :=
  Keeps.of_frame fun _ => ⟨_, _, rfl, rfl, h⟩

theorem World.AllValid.eraseKey {w : World} (hw : w.AllValid) (fd : Int) :
    ({ w with fileMap := w.fileMap.eraseKey fd } : World).AllValid := by
  intro k file hk
  by_cases hkf : k = fd
  · rw [hkf] at hk
    have : (w.fileMap.eraseKey fd).find fd = some file := hk
    rw [FileMap.find_eraseKey_self] at this
    cases this
  · have : (w.fileMap.eraseKey fd).find k = some file := hk
    rw [FileMap.find_eraseKey_ne _ _ _ hkf] at this
    exact hw k file this

theorem World.AllValid.assign {w : World} (hw : w.AllValid) (fd : Int) (file : Win32File)
    (hv : file.isValid = true) :
    ({ w with fileMap := w.fileMap.assign fd file } : World).AllValid := by
  intro k f hk
  by_cases hkf : k = fd
  · rw [hkf] at hk
    have : (w.fileMap.assign fd file).find fd = some f := hk
    rw [FileMap.find_assign_self] at this
    cases this
    exact hv
  · have : (w.fileMap.assign fd file).find k = some f := hk
    rw [FileMap.find_assign_ne _ _ _ _ hkf] at this
    exact hw k f this

theorem Keeps.set (fd : Int) (file : Win32File) (hv : file.isValid = true) :
    Keeps (FileMap.set fd file) (fun _ => True) := by
  intro w hw
  unfold FileMap.set
  cases hslot : (if fd = FileMap.NewEntry then w.fileMap.slot else some fd) with
  | none => exact hw
  | some fd1 =>
    dsimp only
    by_cases hc : w.fileMap.count fd1 = 0
    · rw [if_pos hc]
      exact ⟨hw.assign fd1 { file with m_fd := fd1 } hv, trivial⟩
    · rw [if_neg hc]
      exact hw

theorem Keeps.new (fh : Int) (type : Win32FileType) (fd : Int) (h0 : fh ≠ 0)
    (h1 : fh ≠ INVALID_HANDLE_VALUE) : Keeps (Win32File.new fh type fd) (fun _ => True) := by
  unfold Win32File.new
  refine Keeps.bind_any (Keeps.set fd _ ?_) (fun _ => Keeps.pure _ trivial)
  simp [Win32File.isValid, h0, h1]

theorem Keeps.erase (fd : Int) : Keeps (FileMap.erase fd) (fun _ => True) := by
  intro w hw
  unfold FileMap.erase
  by_cases hfd : fd = FileMap.NewEntry
  · rw [if_pos hfd]; exact ⟨hw, trivial⟩
  · rw [if_neg hfd]; exact ⟨hw.eraseKey fd, trivial⟩

theorem Keeps.release (self : Win32File) : Keeps (Win32File.release self) (fun _ => True) := by
  unfold Win32File.release Win32File.delete
  exact Keeps.bind_any (Keeps.erase _) (fun _ => Keeps.pure _ trivial)

theorem Keeps.of (fd : Int) : Keeps (Win32File.of fd) (fun _ => True) := by
  intro w hw
  unfold Win32File.of FileMap.get
  by_cases hfd : fd = FileMap.NewEntry
  · rw [if_pos hfd]; exact ⟨hw, trivial⟩
  · rw [if_neg hfd]
    cases w.fileMap.find fd with
    | none => exact hw
    | some file => exact ⟨hw, trivial⟩

theorem Keeps.deref (p : Option Win32File) : Keeps (Win32.deref p) (fun _ => True) := by
  cases p with
  | none => exact Keeps.raise _
  | some file => exact Keeps.pure _ trivial

theorem Keeps.close (env : Env) (self : Win32File) :
    Keeps (Win32File.close env self) (fun _ => True) := by
  unfold Win32File.close Win32File.delete
  dsimp only
  repeat' first
    | exact Keeps.pure _ trivial
    | exact Keeps.native_any env _
    | exact Keeps.handleError _ trivial
    | exact Keeps.handleWSALastError env trivial
    | exact Keeps.release _
    | exact Keeps.erase _
    | refine Keeps.ite _ (fun _ => ?_) (fun _ => ?_)
    | refine Keeps.bind_any ?_ (fun _ => ?_)
    | split

/-- The static `duplicateHandle` gives `INVALID_HANDLE_VALUE` or a handle that is not
null. -/
theorem Keeps.duplicateHandle (env : Env) (hnn : env.NoNullHandle) (sourcePid handle : Int)
    (close : Bool) :
    Keeps (Win32.duplicateHandle env sourcePid handle close)
      (fun x => x = INVALID_HANDLE_VALUE ∨ x ≠ 0) := by
  have tailOk : ∀ (y targetProcess : NativeResult),
      Keeps (Win32.native env (.DuplicateHandle y.ret handle targetProcess.ret 0 false
          (if close = true then DUPLICATE_SAME_ACCESS ||| DUPLICATE_CLOSE_SOURCE
            else DUPLICATE_SAME_ACCESS)) >>= fun ok =>
        if ok.ret = 0 then (Pure.pure INVALID_HANDLE_VALUE : Prog Int)
        else Win32.native env (.CloseHandle y.ret) >>= fun _ => Pure.pure ok.out)
        (fun x => x = INVALID_HANDLE_VALUE ∨ x ≠ 0) := by
    intro y targetProcess
    refine @Keeps.bind _ _ _ _ (fun ok => ok.ret ≠ 0 → ok.out ≠ 0) _
      (Keeps.native env _ (fun trace => (hnn trace).1 _ _ _ _ _ _)) (fun ok hok => ?_)
    refine Keeps.ite _ (fun _ => Keeps.pure _ (Or.inl rfl)) (fun hne => ?_)
    exact Keeps.bind_any (Keeps.native_any env _) (fun _ => Keeps.pure _ (Or.inr (hok hne)))
  unfold Win32.duplicateHandle
  dsimp only
  refine Keeps.ite _ (fun _ => ?_) (fun _ => ?_)
  · refine Keeps.bind_any (Keeps.native_any env _) (fun y => ?_)
    refine Keeps.ite _ (fun _ => Keeps.pure _ (Or.inl rfl)) (fun _ => ?_)
    exact Keeps.bind_any (Keeps.native_any env _) (fun targetProcess => tailOk y targetProcess)
  · refine Keeps.bind_any (Keeps.native_any env _) (fun y => ?_)
    refine Keeps.ite _ (fun _ => Keeps.pure _ (Or.inl rfl)) (fun _ => ?_)
    exact Keeps.bind_any (Keeps.native_any env _) (fun targetProcess => tailOk y targetProcess)


theorem Keeps.UniqueFileDescriptor_delete (env : Env) (fd : Int) :
    Keeps (UniqueFileDescriptor.delete env fd) (fun _ => True) := by
  unfold UniqueFileDescriptor.delete
  dsimp only
  repeat' first
    | exact Keeps.pure _ trivial
    | exact Keeps.native_any env _
    | refine Keeps.ite _ (fun _ => ?_) (fun _ => ?_)

/-- Binding the result of `duplicateHandle`, once it is known not to be
`INVALID_HANDLE_VALUE`, keeps the invariant. -/
theorem Keeps.new_of_duplicate (type : Win32FileType) (fd : Int) (x : Int)
    (hx : x = INVALID_HANDLE_VALUE ∨ x ≠ 0) (hne : ¬ x = INVALID_HANDLE_VALUE) :
    Keeps (Win32File.new x type fd) (fun _ => True) :=
  Keeps.new x type fd (hx.resolve_left hne) hne

/-- The tail of `Win32File::dup`: duplicate the handle and bind the copy. -/
theorem Keeps.dup_tail (env : Env) (hnn : env.NoNullHandle) (self : Win32File) (newfd : Int) :
    Keeps (Win32.duplicateHandle env (-1) self.m_handle false >>= fun newHandle =>
      if newHandle = INVALID_HANDLE_VALUE then Win32.handleError EBADF
      else Win32File.new newHandle self.m_type newfd >>= fun file => Pure.pure file.fd)
      (fun _ => True) := by
  refine Keeps.bind (Keeps.duplicateHandle env hnn _ _ _) (fun x hx => ?_)
  refine Keeps.ite _ (fun _ => Keeps.handleError _ trivial) (fun hne => ?_)
  exact Keeps.bind_any (Keeps.new_of_duplicate _ _ x hx hne) (fun _ => Keeps.pure _ trivial)

theorem Keeps.dup (env : Env) (hnn : env.NoNullHandle) (self : Win32File) (newfd : Int) :
    Keeps (Win32File.dup env self newfd) (fun _ => True) := by
  unfold Win32File.dup
  dsimp only
  refine Keeps.ite _ (fun _ => Keeps.handleError _ trivial) (fun _ => ?_)
  refine Keeps.bind_any (Keeps.of _) (fun oldFile => ?_)
  cases oldFile with
  | none =>
    dsimp only
    exact Keeps.bind_any (Keeps.pure _ trivial) (fun _ => Keeps.dup_tail env hnn self newfd)
  | some file =>
    dsimp only
    refine Keeps.bind_any (Keeps.close env file) (fun _ => ?_)
    refine Keeps.ite _ (fun _ => ?_) (fun _ => ?_)
    · exact Keeps.bind_any (Keeps.raise _) (fun _ => Keeps.dup_tail env hnn self newfd)
    · exact Keeps.bind_any (Keeps.pure _ trivial) (fun _ => Keeps.dup_tail env hnn self newfd)

/-- The tail of `Win32File::open`: bind the handle unless it is `INVALID_HANDLE_VALUE`. -/
theorem Keeps.open_tail (type : Win32FileType) (fd y : Int)
    (hy : y = INVALID_HANDLE_VALUE ∨ y ≠ 0) :
    Keeps (if y = INVALID_HANDLE_VALUE then (Pure.pure (-1) : Prog Int)
      else Win32File.new y type fd >>= fun file => Pure.pure file.fd) (fun _ => True) := by
  refine Keeps.ite _ (fun _ => Keeps.pure _ trivial) (fun hne => ?_)
  exact Keeps.bind_any (Keeps.new_of_duplicate _ _ y hy hne) (fun _ => Keeps.pure _ trivial)

theorem Keeps.open (env : Env) (hnn : env.NoNullHandle) (handle : Int) (type : Win32FileType)
    (fd sourcePid : Int) (htype : type ≠ .Unknown) :
    Keeps (Win32File.open env handle type fd sourcePid) (fun _ => True) := by
  unfold Win32File.open
  dsimp only
  rw [if_pos htype]
  refine Keeps.ite _ (fun _ => Keeps.pure _ trivial) (fun hh => ?_)
  refine Keeps.ite _ (fun _ => ?_) (fun _ => ?_)
  · refine @Keeps.bind _ _ _ _ (fun y => y = INVALID_HANDLE_VALUE ∨ y ≠ 0) _
      (Keeps.pure _ (Or.inr fun h0 => hh (Or.inl h0))) (fun y hy => Keeps.open_tail type fd y hy)
  · exact Keeps.bind (Keeps.duplicateHandle env hnn _ _ _)
      (fun y hy => Keeps.open_tail type fd y hy)

/-- The epilogue of the two path openers: run the deleter of the C runtime descriptor,
then return. -/
theorem Keeps.leave (env : Env) (fd result : Int) :
    Keeps (UniqueFileDescriptor.delete env fd >>= fun _ => (Pure.pure result : Prog Int))
      (fun _ => True) :=
  Keeps.bind_any (Keeps.UniqueFileDescriptor_delete env fd) (fun _ => Keeps.pure _ trivial)

theorem Keeps.open_filename (env : Env) (hnn : env.NoNullHandle) (filename : List Char)
    (openFlag permissionMode : Int) :
    Keeps (Win32File.open_filename env filename openFlag permissionMode) (fun _ => True) := by
  unfold Win32File.open_filename
  dsimp only
  refine Keeps.bind_any (Keeps.native_any env _) (fun fd => ?_)
  refine Keeps.ite _ (fun _ => Keeps.leave env _ _) (fun _ => ?_)
  refine Keeps.bind_any (Keeps.native_any env _) (fun handle => ?_)
  refine Keeps.ite _ (fun _ => Keeps.leave env _ _) (fun _ => ?_)
  refine Keeps.bind (Keeps.duplicateHandle env hnn _ _ _) (fun x hx => ?_)
  refine Keeps.ite _ (fun _ => Keeps.leave env _ _) (fun hne => ?_)
  exact Keeps.bind_any (Keeps.new_of_duplicate _ _ x hx hne) (fun _ => Keeps.leave env _ _)

theorem Keeps.sopen (env : Env) (hnn : env.NoNullHandle) (filename : List Char)
    (openFlag shareFlag permissionMode : Int) :
    Keeps (Win32File.sopen env filename openFlag shareFlag permissionMode) (fun _ => True) := by
  unfold Win32File.sopen
  dsimp only
  refine Keeps.bind_any (Keeps.native_any env _) (fun fd => ?_)
  refine Keeps.ite _ (fun _ => Keeps.leave env _ _) (fun _ => ?_)
  refine Keeps.bind_any (Keeps.native_any env _) (fun handle => ?_)
  refine Keeps.ite _ (fun _ => Keeps.leave env _ _) (fun _ => ?_)
  refine Keeps.bind (Keeps.duplicateHandle env hnn _ _ _) (fun x hx => ?_)
  refine Keeps.ite _ (fun _ => Keeps.leave env _ _) (fun hne => ?_)
  exact Keeps.bind_any (Keeps.new_of_duplicate _ _ x hx hne) (fun _ => Keeps.leave env _ _)

theorem Keeps.WSAInitialize (env : Env) : Keeps (Win32.WSAInitialize env) (fun _ => True) := by
  have started : Keeps (Win32.native env (.WSAStartup versionRequired) >>= fun m_error =>
      if m_error.ret ≠ 0 then
        Win32.native env .WSAGetLastError >>= fun _ => (Pure.pure m_error.ret : Prog Int)
      else Pure.pure m_error.ret) (fun _ => True) := by
    refine Keeps.bind_any (Keeps.native_any env _) (fun m_error => ?_)
    refine Keeps.ite _ (fun _ => ?_) (fun _ => Keeps.pure _ trivial)
    exact Keeps.bind_any (Keeps.native_any env _) (fun _ => Keeps.pure _ trivial)
  intro w hw
  unfold Win32.WSAInitialize
  cases lazyWSAInitializer env [] w.trace with
  | some error => exact ⟨hw, trivial⟩
  | none => exact started w hw

theorem Keeps.socket (env : Env) (hnn : env.NoNullHandle) (addressFamily type protocol : Int) :
    Keeps (Win32File.socket env addressFamily type protocol) (fun _ => True) := by
  unfold Win32File.socket
  refine Keeps.bind_any (Keeps.WSAInitialize env) (fun error => ?_)
  refine Keeps.ite _ (fun _ => Keeps.pure _ trivial) (fun _ => ?_)
  refine @Keeps.bind _ _ _ _ (fun sock => sock.ret ≠ 0) _
    (Keeps.native env _ (fun trace => (hnn trace).2.1 _ _ _)) (fun sock hsock => ?_)
  refine Keeps.ite _ (fun _ => Keeps.handleWSALastError env trivial) (fun hne => ?_)
  exact Keeps.bind_any (Keeps.new _ _ _ hsock hne) (fun _ => Keeps.pure _ trivial)

theorem Keeps.accept (env : Env) (hnn : env.NoNullHandle) (self : Win32File) :
    Keeps (Win32File.accept env self) (fun _ => True) := by
  unfold Win32File.accept
  refine Keeps.ite _ (fun _ => Keeps.handleError _ trivial) (fun _ => ?_)
  refine Keeps.ite _ (fun _ => Keeps.handleError _ trivial) (fun _ => ?_)
  refine @Keeps.bind _ _ _ _ (fun sock => sock.ret ≠ 0) _
    (Keeps.native env _ (fun trace => (hnn trace).2.2 _)) (fun sock hsock => ?_)
  refine Keeps.ite _ (fun _ => Keeps.handleWSALastError env trivial) (fun hne => ?_)
  exact Keeps.bind_any (Keeps.new _ _ _ hsock hne) (fun _ => Keeps.pure _ trivial)

theorem Keeps.socketpair (env : Env) (hnn : env.NoNullHandle) (dumb_socketpair : DumbSocketpair)
    (fds : Int × Int) (make_overlapped : Int) :
    Keeps (Win32File.socketpair env dumb_socketpair fds make_overlapped) (fun _ => True) := by
  unfold Win32File.socketpair
  refine Keeps.bind_any (Keeps.WSAInitialize env) (fun error => ?_)
  refine Keeps.ite _ (fun _ => Keeps.pure _ trivial) (fun _ => ?_)
  refine Keeps.bind_any (Keeps.of_frame fun w => ⟨_, _, rfl, rfl, trivial⟩) (fun r => ?_)
  refine Keeps.ite _ (fun _ => ?_) (fun _ => ?_)
  · exact Keeps.bind_any (Keeps.handleWSALastError env trivial) (fun _ => Keeps.pure _ trivial)
  · refine Keeps.bind_any (Keeps.open env hnn _ _ _ _ (by decide)) (fun _ => ?_)
    exact Keeps.bind_any (Keeps.open env hnn _ _ _ _ (by decide)) (fun _ => Keeps.pure _ trivial)

/-- Every public call other than an open by handle with the kind `Unknown` keeps the
registry invariant, when the native calls never hand out the null handle. -/
theorem PublicCall.run_AllValid (env : Env) (hnn : env.NoNullHandle)
    (dumb_socketpair : DumbSocketpair) (c : PublicCall) (hc : c.kindUnknown = false)
    (w : World) (hw : w.AllValid) : (c.run env dumb_socketpair w).AllValid := by
  have world_of : ∀ {α : Type} {x : Prog α}, Keeps x (fun _ => True) → (x w).world.AllValid := by
    intro α x hx
    have h1 := hx w hw
    cases hxw : x w with
    | returned a w1 => rw [hxw] at h1; exact h1.1
    | thrown e w1 => rw [hxw] at h1; exact h1
  cases c with
  | open_osfhandle handle flags fd => exact world_of (Keeps.open env hnn _ _ _ _ (by decide))
  | open_osfhandle_with_type handle flags fd type =>
    refine world_of (Keeps.open env hnn _ _ _ _ ?_)
    intro ht
    subst ht
    exact Bool.noConfusion hc
  | open_filename filename openFlag permissionMode =>
    exact world_of (Keeps.open_filename env hnn _ _ _)
  | sopen filename openFlag shareFlag permissionMode =>
    exact world_of (Keeps.sopen env hnn _ _ _ _)
  | socket addressFamily type protocol => exact world_of (Keeps.socket env hnn _ _ _)
  | socketpair make_overlapped => exact world_of (Keeps.socketpair env hnn _ _ _)
  | accept fd =>
    exact world_of (Keeps.bind_any (Keeps.bind_any (Keeps.of _) (fun p => Keeps.deref p))
      (fun self => Keeps.accept env hnn self))
  | dup fd =>
    refine world_of ?_
    unfold Win32.dup
    refine Keeps.ite _ (fun _ => ?_) (fun _ => Keeps.pure _ trivial)
    exact Keeps.bind_any (Keeps.bind_any (Keeps.of _) (fun p => Keeps.deref p))
      (fun self => Keeps.dup env hnn self _)
  | dup2 oldfd newfd =>
    refine world_of ?_
    unfold Win32.dup2
    refine Keeps.ite _ (fun _ => ?_) (fun _ => Keeps.pure _ trivial)
    exact Keeps.bind_any (Keeps.bind_any (Keeps.of _) (fun p => Keeps.deref p))
      (fun self => Keeps.dup env hnn self _)
  | close fd =>
    refine world_of ?_
    unfold Win32.close
    refine Keeps.ite _ (fun _ => ?_) (fun _ => Keeps.pure _ trivial)
    refine Keeps.bind_any (Keeps.of _) (fun file => ?_)
    refine Keeps.ite _ (fun _ => ?_) (fun _ => Keeps.pure _ trivial)
    exact Keeps.bind_any (Keeps.bind_any (Keeps.of _) (fun p => Keeps.deref p))
      (fun self => Keeps.close env self)
  | release fd =>
    refine world_of ?_
    unfold win32_release_osfhandle
    exact Keeps.bind_any (Keeps.bind_any (Keeps.of _) (fun p => Keeps.deref p))
      (fun self => Keeps.release self)


theorem handleEnv_NoNullHandle : handleEnv.NoNullHandle := by
  intro trace
  refine ⟨?_, ?_, ?_⟩
  · intro _ _ _ _ _ _ _
    show (1000 : Int) ≠ 0
    decide
  · intro _ _ _
    show (5 : Int) ≠ 0
    decide
  · intro _
    show (6 : Int) ≠ 0
    decide

/-- Command `F_SETFL` with `O_NONBLOCK` on an object with a valid handle whose flags word
lacks `O_NONBLOCK`, of whatever kind: `ioctlsocket` is called on the handle; when it fails the
result is that of `handleWSALastError`, otherwise 0 with `O_NONBLOCK` recorded. -/
theorem Win32File.fcntl_SETFL_NONBLOCK_eq (env : Env) (self : Win32File) (w : World)
    (hv : self.isValid = true) (hclear : self.m_flags &&& O_NONBLOCK = 0) :
    Win32File.fcntl env self F_SETFL O_NONBLOCK w
      = if (env w.trace (.ioctlsocket self.m_handle FIONBIO 1)).ret = SOCKET_ERROR then
          handleWSALastError env
            { w with trace := w.trace ++ [.ioctlsocket self.m_handle FIONBIO 1] }
        else
          .returned 0
            { w with
              fileMap := w.fileMap.write self.m_fd
                { self with m_flags := self.m_flags ||| O_NONBLOCK },
              trace := w.trace ++ [.ioctlsocket self.m_handle FIONBIO 1] } := by
  unfold Win32File.fcntl
  simp only [hv, Bool.not_true, Bool.false_eq_true, if_false]
  have h1 : ¬ F_SETFL = F_GETFD := by decide
  have h2 : ¬ F_SETFL = F_SETFD := by decide
  have h3 : ¬ F_SETFL = F_GETFL := by decide
  have h4 : O_NONBLOCK &&& O_NONBLOCK ≠ 0 ∧ self.m_flags &&& O_NONBLOCK = 0 :=
    ⟨by decide, hclear⟩
  rw [if_neg h1, if_neg h2, if_neg h3, if_pos trivial, if_pos h4]
  simp only [Prog.bind_eq, native_eq]
  split_ifs <;> rfl

/-- Command `F_SETFL` makes no native call when its argument lacks `O_NONBLOCK` or the flags
word has it already. -/
theorem Win32File.fcntl_SETFL_idle (env : Env) (self : Win32File) (flags : Nat) (w : World)
    (hv : self.isValid = true)
    (hidle : flags &&& O_NONBLOCK = 0 ∨ self.m_flags &&& O_NONBLOCK ≠ 0) :
    Win32File.fcntl env self F_SETFL flags w = .returned 0 w := by
  unfold Win32File.fcntl
  simp only [hv, Bool.not_true, Bool.false_eq_true, if_false]
  have h1 : ¬ F_SETFL = F_GETFD := by decide
  have h2 : ¬ F_SETFL = F_SETFD := by decide
  have h3 : ¬ F_SETFL = F_GETFL := by decide
  have h4 : ¬ (flags &&& O_NONBLOCK ≠ 0 ∧ self.m_flags &&& O_NONBLOCK = 0) := by
    rintro ⟨ha, hb⟩
    rcases hidle with h | h
    · exact ha h
    · exact h hb
  rw [if_neg h1, if_neg h2, if_neg h3, if_pos trivial, if_neg h4]
  rfl

/-- The static `duplicateHandle` within the current process returns, changes only the
trace, and makes no `_close` call. -/
theorem duplicateHandle_trace (env : Env) (handle : Int) (close : Bool) (w : World) :
    ∃ x calls, duplicateHandle env (-1) handle close w
        = .returned x { w with trace := w.trace ++ calls }
      ∧ ∀ fd, NativeCall._close fd ∉ calls := by
  unfold duplicateHandle
  simp only [if_true, Prog.bind_eq, native_eq, ne_eq, not_true_eq_false, false_and, if_false]
  split_ifs
  all_goals simp only [Prog.pure_eq, Prog.bind_eq, native_eq, List.append_assoc,
    List.singleton_append]
  all_goals exact ⟨_, _, rfl, by simp⟩

/-- The deleter of the temporary descriptor followed by the return: one `_close` when the
descriptor is at least 1, no call otherwise. -/
theorem UniqueFileDescriptor.delete_then (env : Env) (fd result : Int) (w : World) :
    (UniqueFileDescriptor.delete env fd >>= fun _ => (Pure.pure result : Prog Int)) w
      = .returned result
          { w with trace := w.trace ++ (if fd ≥ 1 then [NativeCall._close fd] else []) } := by
  unfold UniqueFileDescriptor.delete
  by_cases h : fd ≥ 1
  · simp only [if_pos h, Prog.bind_eq, native_eq, Prog.pure_eq]
  · simp only [if_neg h, Prog.bind_eq, Prog.pure_eq, List.append_nil]

/-- Calls without a `_close`, followed by what the deleter of descriptor `fd` adds: when
`fd` is at least 1 the last call is `_close(fd)` and it is the only `_close(fd)`; otherwise
there is no `_close` at all. -/
theorem closes_once_at_end (pre : List NativeCall) (fd : Int)
    (hno : ∀ x, NativeCall._close x ∉ pre) :
    (1 ≤ fd →
        (pre ++ (if fd ≥ 1 then [NativeCall._close fd] else [])).getLast?
            = some (NativeCall._close fd)
          ∧ (pre ++ (if fd ≥ 1 then [NativeCall._close fd] else [])).count
            (NativeCall._close fd) = 1)
    ∧ (fd < 1 →
        ∀ x, NativeCall._close x ∉ pre ++ (if fd ≥ 1 then [NativeCall._close fd] else [])) := by
  constructor
  · intro h
    have h1 : fd ≥ 1 := h
    rw [if_pos h1]
    refine ⟨by simp, ?_⟩
    rw [List.count_append, List.count_eq_zero_of_not_mem (hno fd)]
    simp
  · intro h
    have h1 : ¬ fd ≥ 1 := by omega
    rw [if_neg h1, List.append_nil]
    exact hno

/-- The common body of the two openers by path after the native open returned `fd`: the
calls made are some calls without a `_close`, then what the deleter of `fd` adds. -/
theorem Win32File.open_tail_trace (env : Env) (fd : Int) (w : World) :
    ∃ r w1 pre,
      (if fd = -1 then
          UniqueFileDescriptor.delete env fd >>= fun _ => (Pure.pure (-1) : Prog Int)
        else
          Win32.native env (._get_osfhandle fd) >>= fun handle =>
            if handle.ret = INVALID_HANDLE_VALUE then
              UniqueFileDescriptor.delete env fd >>= fun _ => (Pure.pure (-1) : Prog Int)
            else
              Win32.duplicateHandle env (-1) handle.ret true >>= fun myHandle =>
                if myHandle = INVALID_HANDLE_VALUE then
                  UniqueFileDescriptor.delete env fd >>= fun _ => (Pure.pure (-1) : Prog Int)
                else
                  Win32File.new myHandle .File FileMap.NewEntry >>= fun file =>
                    UniqueFileDescriptor.delete env fd >>= fun _ =>
                      (Pure.pure file.fd : Prog Int)) w
        = .returned r w1
      ∧ w1.trace = w.trace ++ (pre ++ (if fd ≥ 1 then [NativeCall._close fd] else []))
      ∧ ∀ x, NativeCall._close x ∉ pre := by
  by_cases h1 : fd = -1
  · rw [if_pos h1, UniqueFileDescriptor.delete_then]
    exact ⟨_, _, [], rfl, by simp, by simp⟩
  rw [if_neg h1, Prog.bind_eq, native_eq]
  dsimp only
  by_cases h2 : (env w.trace (._get_osfhandle fd)).ret = INVALID_HANDLE_VALUE
  · rw [if_pos h2, UniqueFileDescriptor.delete_then]
    exact ⟨_, _, [._get_osfhandle fd], rfl, by simp, by simp⟩
  rw [if_neg h2]
  obtain ⟨x, dcalls, hdup, hno⟩ := duplicateHandle_trace env
    (env w.trace (._get_osfhandle fd)).ret true
    { w with trace := w.trace ++ [._get_osfhandle fd] }
  rw [Prog.bind_returned hdup]
  by_cases h3 : x = INVALID_HANDLE_VALUE
  · rw [if_pos h3, UniqueFileDescriptor.delete_then]
    refine ⟨_, _, ._get_osfhandle fd :: dcalls, rfl, by simp, ?_⟩
    intro y hy
    rcases List.mem_cons.1 hy with h | h
    · cases h
    · exact hno y h
  rw [if_neg h3]
  obtain ⟨d, hnew, _⟩ := Win32File.new_NewEntry_eq x .File
    { w with trace := w.trace ++ [._get_osfhandle fd] ++ dcalls }
  rw [Prog.bind_returned hnew, UniqueFileDescriptor.delete_then]
  refine ⟨_, _, ._get_osfhandle fd :: dcalls, rfl, by simp, ?_⟩
  intro y hy
  rcases List.mem_cons.1 hy with h | h
  · cases h
  · exact hno y h

/-- The first loop of `poll` on descriptors that are all bound to sockets: every entry gets
the native handle of its descriptor, nothing else changes. -/
theorem pollTranslate_eq (fds : List pollfd) (w : World)
    (hsock : ∀ p ∈ fds, w.boundToSocket p.fd) :
    pollTranslate fds w
      = .returned (fds.map (fun p => { p with fd := w.handleOf p.fd })) w := by
  induction fds with
  | nil => rfl
  | cons p rest ih =>
    obtain ⟨hne, file, hfind, htype⟩ := hsock p (List.mem_cons_self _ _)
    have hof : (Win32File.of p.fd >>= deref) w = .returned file w := by
      unfold Win32File.of FileMap.get
      rw [Prog.bind_eq, if_neg hne, hfind]
      rfl
    have his : file.is .Socket = true := by
      unfold Win32File.is
      rw [htype]
      rfl
    have hh : w.handleOf p.fd = file.handle := by
      unfold World.handleOf
      rw [hfind]
      rfl
    unfold pollTranslate
    rw [Prog.bind_returned hof]
    simp only [his, Bool.not_true, Bool.false_eq_true, if_false]
    rw [Prog.bind_returned (ih (fun q hq => hsock q (List.mem_cons_of_mem _ hq)))]
    rw [Prog.pure_eq, List.map_cons, hh]

/-- One more iteration of fuel changes no result of the loop of `readdir`. -/
theorem readdirLoop_succ (api : DirectoryCalls) :
    ∀ (fuel : Nat) (dir : DIR) (w w1 : World) (r : Option dirent × DIR),
      readdirLoop api fuel dir w = .returned r w1 →
      readdirLoop api (fuel + 1) dir w = .returned r w1 := by
  intro fuel
  induction fuel with
  | zero =>
    intro dir w w1 r h
    cases h
  | succ fuel ih =>
    intro dir w w1 r h
    unfold readdirLoop at h ⊢
    simp only [Prog.bind_eq, _findnext] at h ⊢
    cases hn : api._findnext w.trace dir.findhandle with
    | none =>
      rw [hn] at h
      exact h
    | some finddata =>
      rw [hn] at h
      simp only [CreateFileA, Prog.bind_eq] at h ⊢
      split_ifs at h ⊢ with hf
      · exact ih _ _ _ _ h
      · simp only [GetFileInformationByHandle, Prog.bind_eq] at h ⊢
        generalize api.GetFileInformationByHandle _ _ = info at h ⊢
        cases info with
        | none => exact ih _ _ _ _ h
        | some info => exact h

/-- More fuel changes no result of the loop of `readdir`. -/
theorem readdirLoop_mono (api : DirectoryCalls) (fuel k : Nat) (dir : DIR) (w w1 : World)
    (r : Option dirent × DIR) (h : readdirLoop api fuel dir w = .returned r w1) :
    readdirLoop api (fuel + k) dir w = .returned r w1 := by
  induction k with
  | zero => exact h
  | succ k ih => exact readdirLoop_succ api (fuel + k) dir w w1 r ih

/-- More fuel changes no result of `readdir`. -/
theorem readdir_mono (api : DirectoryCalls) (fuel k : Nat) (dir : Option DIR) (w w1 : World)
    (r : Option dirent × Option DIR) (h : readdir api fuel dir w = .returned r w1) :
    readdir api (fuel + k) dir w = .returned r w1 := by
  unfold readdir at h ⊢
  simp only [Prog.bind_eq, setErrno] at h ⊢
  cases dir with
  | none => exact h
  | some dir =>
    simp only at h ⊢
    split_ifs at h ⊢ with hf
    · exact h
    · simp only [Prog.bind_eq] at h ⊢
      cases hl : readdirLoop api fuel dir { w with errno := EBADF } with
      | thrown e w2 =>
        rw [hl] at h
        cases h
      | returned r2 w2 =>
        rw [hl] at h
        rw [readdirLoop_mono api fuel k dir _ w2 r2 hl]
        exact h

/-- More fuel changes no result of successive `readdir` calls. -/
theorem readdirs_mono (api : DirectoryCalls) (fuel k n : Nat) :
    ∀ (dir : Option DIR) (w w1 : World) (v : List (Option dirent)),
      readdirs api fuel n dir w = .returned v w1 →
      readdirs api (fuel + k) n dir w = .returned v w1 := by
  induction n with
  | zero =>
    intro dir w w1 v h
    exact h
  | succ n ih =>
    intro dir w w1 v h
    unfold readdirs at h ⊢
    simp only [Prog.bind_eq] at h ⊢
    cases hr : readdir api fuel dir w with
    | thrown e w2 =>
      rw [hr] at h
      cases h
    | returned r2 w2 =>
      rw [hr] at h
      rw [readdir_mono api fuel k dir w w2 r2 hr]
      simp only at h ⊢
      cases hrest : readdirs api fuel n r2.2 w2 with
      | thrown e w3 =>
        rw [hrest] at h
        cases h
      | returned v3 w3 =>
        rw [hrest] at h
        rw [ih r2.2 w2 w3 v3 hrest]
        exact h

/-- A run of `opendir` and successive `readdir` calls that returns when the loop of
`readdir` is given `fuel` iterations returns the same with more. -/
theorem opendir_readdirs_mono (api : DirectoryCalls) (uninit : _finddata_t)
    (filename : Option (List Char)) (fuel n : Nat) (w w1 : World)
    (v : List (Option dirent))
    (h : (opendir api uninit filename >>= readdirs api fuel n) w = .returned v w1)
    (k : Nat) :
    (opendir api uninit filename >>= readdirs api (fuel + k) n) w = .returned v w1 := by
  rw [Prog.bind_eq] at h ⊢
  cases ho : opendir api uninit filename w with
  | thrown e w2 =>
    rw [ho] at h
    cases h
  | returned dir w2 =>
    rw [ho] at h
    simp only at h ⊢
    exact readdirs_mono api fuel k n dir w2 w1 v h

/-- A `readdir` call whose `_findnext` fails returns null after that one native call,
whatever record the stream holds from `_findfirst` or from an earlier call. -/
theorem readdir_of_findnext_fails (api : DirectoryCalls) (fuel : Nat) (dir : DIR) (w : World)
    (hopen : dir.findhandle ≠ -1) (hnext : api._findnext w.trace dir.findhandle = none) :
    readdir api (fuel + 1) (some dir) w
      = .returned (none, some dir)
          { w with errno := EBADF, trace := w.trace ++ [._findnext dir.findhandle] } := by
  unfold readdir readdirLoop
  simp only [Prog.bind_eq, setErrno, if_neg hopen, _findnext, hnext, Prog.pure_eq]

/-- A `readdir` call whose first candidate can be opened and queried returns that entry
after four native calls, none of them `CloseHandle`: `d_off` is -1, and `d_type` is
assigned from the attributes of the entry when one of the three tests succeeds and is
otherwise what the record of the stream held before the call. -/
theorem readdir_first_candidate (api : DirectoryCalls) (fuel : Nat) (dir : DIR) (w : World)
    (finddata : _finddata_t) (info : BY_HANDLE_FILE_INFORMATION)
    (hopen : dir.findhandle ≠ -1)
    (hnext : api._findnext w.trace dir.findhandle = some finddata)
    (hfile : api.CreateFileA (w.trace ++ [._findnext dir.findhandle]) finddata.name
      ≠ INVALID_HANDLE_VALUE)
    (hinfo : api.GetFileInformationByHandle
      (w.trace ++ [._findnext dir.findhandle] ++ [.CreateFileA finddata.name])
      (api.CreateFileA (w.trace ++ [._findnext dir.findhandle]) finddata.name) = some info) :
    ∃ d : dirent,
      readdir api (fuel + 1) (some dir) w
        = .returned (some d, some { dir with finddata := finddata, d := d })
            { w with
              errno := 0,
              trace := w.trace ++ [._findnext dir.findhandle]
                ++ [.CreateFileA finddata.name]
                ++ [.GetFileInformationByHandle
                  (api.CreateFileA (w.trace ++ [._findnext dir.findhandle]) finddata.name)]
                ++ [.GetFullPathNameA finddata.name] }
      ∧ d.d_off = -1
      ∧ d.d_ino = fileIndexToIno info.nFileIndexHigh info.nFileIndexLow
      ∧ d.d_type =
          if info.dwFileAttributes &&& FILE_ATTRIBUTE_DIRECTORY ≠ 0 then DT_DIR
          else if info.dwFileAttributes &&& FILE_ATTRIBUTE_NORMAL ≠ 0 then DT_REG
          else if info.dwFileAttributes &&& FILE_ATTRIBUTE_REPARSE_POINT ≠ 0 then DT_LNK
          else dir.d.d_type := by
  refine ⟨
    { d_ino := fileIndexToIno info.nFileIndexHigh info.nFileIndexLow,
      d_off := -1,
      d_reclen := (api.GetFullPathNameA
        (w.trace ++ [._findnext dir.findhandle] ++ [.CreateFileA finddata.name]
          ++ [.GetFileInformationByHandle
            (api.CreateFileA (w.trace ++ [._findnext dir.findhandle]) finddata.name)])
        finddata.name).1 % 2 ^ 16,
      d_type :=
        if info.dwFileAttributes &&& FILE_ATTRIBUTE_DIRECTORY ≠ 0 then DT_DIR
        else if info.dwFileAttributes &&& FILE_ATTRIBUTE_NORMAL ≠ 0 then DT_REG
        else if info.dwFileAttributes &&& FILE_ATTRIBUTE_REPARSE_POINT ≠ 0 then DT_LNK
        else dir.d.d_type,
      d_name := (api.GetFullPathNameA
        (w.trace ++ [._findnext dir.findhandle] ++ [.CreateFileA finddata.name]
          ++ [.GetFileInformationByHandle
            (api.CreateFileA (w.trace ++ [._findnext dir.findhandle]) finddata.name)])
        finddata.name).2 },
    ?_, rfl, rfl, rfl⟩
  unfold readdir readdirLoop
  simp only [Prog.bind_eq, setErrno, if_neg hopen, _findnext, hnext, CreateFileA, if_neg hfile,
    GetFileInformationByHandle, hinfo, GetFullPathNameA, Prog.pure_eq]

/-- The two steps of one thread with no other thread in between are the function
`FileMap::set`. -/
theorem SetState.step_step_eq_set (fd : Int) (file : Win32File) (w : World) :
    (((SetState.called fd file).step w.fileMap).1.step
        ((SetState.called fd file).step w.fileMap).2).1.outcome
      { w with fileMap := (((SetState.called fd file).step w.fileMap).1.step
        ((SetState.called fd file).step w.fileMap).2).2 }
      = some (FileMap.set fd file w) := by
  unfold FileMap.set
  by_cases hfd : fd = FileMap.NewEntry
  · simp only [SetState.step, if_pos hfd]
    cases hslot : w.fileMap.slot with
    | none => rfl
    | some fd1 =>
      simp only [SetState.step]
      by_cases hc : w.fileMap.count fd1 = 0
      · simp only [if_pos hc, SetState.outcome]
      · simp only [if_neg hc, SetState.outcome]
  · simp only [SetState.step, if_neg hfd]
    by_cases hc : w.fileMap.count fd = 0
    · simp only [if_pos hc, SetState.outcome]
    · simp only [if_neg hc, SetState.outcome]

/-- Command `F_SETFL` with an argument that has `O_NONBLOCK`, on an object with a valid
handle whose flags word lacks it: `ioctlsocket` is called on the handle; when it fails the
result is that of `handleWSALastError`, otherwise 0 with `O_NONBLOCK` recorded. -/
theorem Win32File.fcntl_SETFL_set_eq (env : Env) (self : Win32File) (flags : Nat) (w : World)
    (hv : self.isValid = true) (hask : flags &&& O_NONBLOCK ≠ 0)
    (hclear : self.m_flags &&& O_NONBLOCK = 0) :
    Win32File.fcntl env self F_SETFL flags w
      = if (env w.trace (.ioctlsocket self.m_handle FIONBIO 1)).ret = SOCKET_ERROR then
          handleWSALastError env
            { w with trace := w.trace ++ [.ioctlsocket self.m_handle FIONBIO 1] }
        else
          .returned 0
            { w with
              fileMap := w.fileMap.write self.m_fd
                { self with m_flags := self.m_flags ||| O_NONBLOCK },
              trace := w.trace ++ [.ioctlsocket self.m_handle FIONBIO 1] } := by
  unfold Win32File.fcntl
  simp only [hv, Bool.not_true, Bool.false_eq_true, if_false]
  have h1 : ¬ F_SETFL = F_GETFD := by decide
  have h2 : ¬ F_SETFL = F_SETFD := by decide
  have h3 : ¬ F_SETFL = F_GETFL := by decide
  have h4 : flags &&& O_NONBLOCK ≠ 0 ∧ self.m_flags &&& O_NONBLOCK = 0 := ⟨hask, hclear⟩
  rw [if_neg h1, if_neg h2, if_neg h3, if_pos trivial, if_pos h4]
  simp only [Prog.bind_eq, native_eq]
  split_ifs <;> rfl

/-- C1 (as the code has it): for every registry state with `n` bindings, `FileMap::set`
called with the `NewEntry` sentinel returns the descriptor allocated by `FileMap::slot`,
which is the smallest integer `d > n` that is not bound, and binds the object at `d`;
so `d ≥ 1` and `d` is unbound, but unbound descriptors in `1..n` are passed over. -/
theorem C1_set_NewEntry_smallest_above_size (file : Win32File) (w : World) :
    ∃ d, FileMap.set FileMap.NewEntry file w
        = .returned d { w with fileMap := w.fileMap.assign d { file with m_fd := d } }
      ∧ 1 ≤ d
      ∧ w.fileMap.IsSmallestUnboundFrom (w.fileMap.size + 1) d := by
  obtain ⟨d, hd, hs⟩ := FileMap.set_NewEntry_eq file w
  exact ⟨d, hd, by have := hs.1; omega, hs⟩

/-- C1 fails as stated: after three auto-assigned opens (descriptors 1, 2, 3) and
`close(1)`, descriptors 2 and 3 are bound and 1 is not; `FileMap::set` with `NewEntry` then
returns 4, which is not the smallest unbound integer `≥ 1`. -/
theorem C1_counterexample :
    (openAll [(7, .File), (8, .File), (9, .File)] >>= fun _ => close okEnv 1) (World.ofList [])
      = .returned 0
          ⟨FileMap.ofList [(3, ⟨3, .File, 9, 0⟩), (2, ⟨2, .File, 8, 0⟩)], 0, [.CloseHandle 7]⟩
    ∧ FileMap.set FileMap.NewEntry ⟨-1, .File, 10, 0⟩
        ⟨FileMap.ofList [(3, ⟨3, .File, 9, 0⟩), (2, ⟨2, .File, 8, 0⟩)], 0, [.CloseHandle 7]⟩
      = .returned 4
          ⟨FileMap.ofList [(4, ⟨4, .File, 10, 0⟩), (3, ⟨3, .File, 9, 0⟩), (2, ⟨2, .File, 8, 0⟩)],
            0, [.CloseHandle 7]⟩
    ∧ ¬ (FileMap.ofList [(3, ⟨3, .File, 9, 0⟩), (2, ⟨2, .File, 8, 0⟩)]).IsSmallestUnboundFrom
        1 4 := by
  refine ⟨by decide, by decide, ?_⟩
  intro h
  exact h.2.2 1 (by decide) (by decide) (by decide)

/-- C2: for every registry state and every `N`, `N` successive constructions with the
`NewEntry` sentinel all return; the `N` descriptors are pairwise distinct, none of them was
bound at the start, each is bound at the end, and every binding of the start is still
there, unchanged. -/
theorem C2_openAll_distinct_fresh (l : List (Int × Win32FileType)) (w : World) :
    ∃ fds w1, openAll l w = .returned fds w1
      ∧ fds.length = l.length
      ∧ fds.Nodup
      ∧ (∀ d ∈ fds, w.fileMap.find d = none)
      ∧ (∀ d ∈ fds, (w1.fileMap.find d).isSome)
      ∧ (∀ d file, w.fileMap.find d = some file → w1.fileMap.find d = some file) := by
  induction l generalizing w with
  | nil => exact ⟨[], w, rfl, rfl, List.nodup_nil, by simp, by simp, fun _ _ h => h⟩
  | cons e l ih =>
    obtain ⟨fh, type⟩ := e
    obtain ⟨d, hd, hs⟩ := Win32File.new_NewEntry_eq fh type w
    have hfree : w.fileMap.find d = none := (FileMap.count_eq_zero_iff _ _).1 hs.2.1
    obtain ⟨fds, w1, hrun, hlen, hnd, hfresh, hbound, hkeep⟩ :=
      ih { w with fileMap := w.fileMap.assign d ⟨d, type, fh, 0⟩ }
    have hne : ∀ k ∈ fds, k ≠ d := by
      intro k hk hkd
      have := hfresh k hk
      rw [hkd] at this
      simp [FileMap.find_assign_self] at this
    refine ⟨d :: fds, w1, ?_, by simp [hlen], ?_, ?_, ?_, ?_⟩
    · unfold openAll
      rw [Prog.bind_returned hd, Prog.bind_returned hrun]
      rfl
    · exact List.nodup_cons.2 ⟨fun hmem => hne d hmem rfl, hnd⟩
    · intro k hk
      rcases List.mem_cons.1 hk with rfl | hk
      · exact hfree
      · have := hfresh k hk
        rwa [show ({ w with fileMap := w.fileMap.assign d ⟨d, type, fh, 0⟩ } : World).fileMap
          = w.fileMap.assign d ⟨d, type, fh, 0⟩ from rfl,
          FileMap.find_assign_ne _ _ _ _ (hne k hk)] at this
    · intro k hk
      rcases List.mem_cons.1 hk with rfl | hk
      · rw [hkeep k ⟨k, type, fh, 0⟩ (FileMap.find_assign_self _ _ _)]; rfl
      · exact hbound k hk
    · intro k file hk
      apply hkeep
      have hkd : k ≠ d := by
        intro hkd
        rw [hkd, hfree] at hk
        cases hk
      show (w.fileMap.assign d ⟨d, type, fh, 0⟩).find k = some file
      rw [FileMap.find_assign_ne _ _ _ _ hkd]
      exact hk

/-- C3 (the code at the failing input): with descriptor 1 open, the first `close(1)`
returns 0 and unbinds it; the second `close(1)` does not return -1 with `errno = EBADF`
but leaves by the `std::out_of_range` exception of `std::map::at` in `FileMap::get`. -/
theorem C3_second_close_throws :
    close okEnv 1 (World.ofList [(1, ⟨1, .File, 7, 0⟩)])
        = .returned 0 ⟨FileMap.empty, 0, [.CloseHandle 7]⟩
      ∧ close okEnv 1 ⟨FileMap.empty, 0, [.CloseHandle 7]⟩
        = .thrown .out_of_range ⟨FileMap.empty, 0, [.CloseHandle 7]⟩ := by
  decide

/-- C4 (as the code has it): for every open descriptor `fd > 0` with a valid handle and
every occupied target descriptor different from `fd`, when native handle duplication
succeeds `dup2(fd, target)` first closes the previous occupant of `target` (`w1` is the
world after `occupant->close()`, in which `target` is unbound), then duplicates the handle
of `fd` (`h`, in world `w2`) and returns `target`, with `target` bound to a new object of
the kind of `fd` holding `h`; `fd` stays bound, and a `close(fd)` after that returns,
removes only the binding of `fd` and leaves `target` bound. -/
theorem C4_dup2_occupied_target (env : Env) (w w1 w2 : World) (fd target r h : Int)
    (self occupant : Win32File) (hfd : 0 < fd) (hopen : w.holds fd self)
    (hv : self.isValid = true) (hocc : w.holds target occupant) (hne : target ≠ fd)
    (hclose : Win32File.close env occupant w = .returned r w1)
    (hdup : duplicateHandle env (-1) self.m_handle false w1 = .returned h w2)
    (hh : h ≠ INVALID_HANDLE_VALUE) :
    w1.fileMap.find target = none
    ∧ ∃ w3, dup2 env fd target w = .returned target w3
      ∧ w3 = { w2 with fileMap := w2.fileMap.assign target ⟨target, self.m_type, h, 0⟩ }
      ∧ w3.holds target ⟨target, self.m_type, h, 0⟩
      ∧ w3.holds fd self
      ∧ ∃ r4 w4, close env fd w3 = .returned r4 w4
        ∧ w4.fileMap.find fd = none
        ∧ w4.holds target ⟨target, self.m_type, h, 0⟩
        ∧ ∀ d, d ≠ fd → w4.fileMap.find d = w3.fileMap.find d := by
  have hm1 := Win32File.close_frame_of_eq (World.holds_ne hocc) hclose
  have hm2 := (duplicateHandle_frame_of_eq hdup).1
  have hne' : target ≠ self.m_fd := by rw [hopen.2.2]; exact hne
  have hrun := Win32File.dup_occupied_eq hv hocc hne' hclose hdup hh
  have hfree : w1.fileMap.find target = none := by
    rw [hm1, hocc.2.2]
    exact FileMap.find_eraseKey_self _ _
  have htarget : ({ w2 with fileMap := w2.fileMap.assign target ⟨target, self.m_type, h, 0⟩ }
      : World).holds target ⟨target, self.m_type, h, 0⟩ :=
    ⟨hocc.1, FileMap.find_assign_self _ _ _, rfl⟩
  have hstill : ({ w2 with fileMap := w2.fileMap.assign target ⟨target, self.m_type, h, 0⟩ }
      : World).holds fd self := by
    refine ⟨hopen.1, ?_, hopen.2.2⟩
    show (w2.fileMap.assign target ⟨target, self.m_type, h, 0⟩).find fd = some self
    rw [FileMap.find_assign_ne _ _ _ _ (Ne.symm hne), hm2, hm1, hocc.2.2,
      FileMap.find_eraseKey_ne _ _ _ (Ne.symm hne)]
    exact hopen.2.1
  refine ⟨hfree, _, ?_, rfl, htarget, hstill, ?_⟩
  · unfold dup2
    rw [if_pos hfd, Prog.bind_returned (Win32File.of_deref_holds hopen)]
    exact hrun
  · obtain ⟨r4, w4, hclose4, hm4⟩ := Win32File.close_frame env (World.holds_ne hopen)
      { w2 with fileMap := w2.fileMap.assign target ⟨target, self.m_type, h, 0⟩ }
    rw [hopen.2.2] at hm4
    refine ⟨r4, w4, ?_, ?_, ⟨hocc.1, ?_, rfl⟩, ?_⟩
    · unfold close
      rw [if_pos hfd, Prog.bind_returned (Win32File.of_holds hstill)]
      simp only [Option.isSome_some, if_true]
      rw [Prog.bind_returned (Win32File.of_deref_holds hstill)]
      exact hclose4
    · rw [hm4]
      exact FileMap.find_eraseKey_self _ _
    · rw [hm4, FileMap.find_eraseKey_ne _ _ _ hne]
      exact htarget.2.1
    · intro d hd
      rw [hm4]
      exact FileMap.find_eraseKey_ne _ _ _ hd

/-- C4 at descriptors 1 (a file on handle 7) and 2 (a socket on handle 8): `dup2(1, 2)`
closes the socket, binds a file object with the duplicate handle 107 at 2 and returns 2. -/
theorem C4_dup2_occupied_target_witness :
    dup2 okEnv 1 2 (World.ofList [(1, ⟨1, .File, 7, 0⟩), (2, ⟨2, .Socket, 8, 0⟩)])
      = .returned 2
          { fileMap := FileMap.ofList [(2, ⟨2, .File, 107, 0⟩), (1, ⟨1, .File, 7, 0⟩)],
            errno := 0,
            trace := [.closesocket 8, .GetCurrentProcess, .GetCurrentProcess,
              .DuplicateHandle (-1) 7 (-1) 0 false 2, .CloseHandle (-1)] } := by
  obtain ⟨_, w3, hrun, hw3, _⟩ :=
    C4_dup2_occupied_target okEnv
      (World.ofList [(1, ⟨1, .File, 7, 0⟩), (2, ⟨2, .Socket, 8, 0⟩)])
      { fileMap := FileMap.ofList [(1, ⟨1, .File, 7, 0⟩)], errno := 0,
        trace := [.closesocket 8] }
      { fileMap := FileMap.ofList [(1, ⟨1, .File, 7, 0⟩)], errno := 0,
        trace := [.closesocket 8, .GetCurrentProcess, .GetCurrentProcess,
          .DuplicateHandle (-1) 7 (-1) 0 false 2, .CloseHandle (-1)] }
      1 2 0 107 ⟨1, .File, 7, 0⟩ ⟨2, .Socket, 8, 0⟩
      (by decide) (by decide) (by decide) (by decide) (by decide) (by decide) (by decide)
      (by decide)
  rw [hrun, hw3]
  decide

/-- C4 fails as stated: descriptor 0 is open on a valid handle (bound by
`win32_open_osfhandle(7, 0, 0)`) and descriptor 5 is occupied, yet `dup2(0, 5)` returns -1
and does nothing, because of the guard `oldfd > 0`: 5 keeps its occupant. -/
theorem C4_counterexample :
    win32_open_osfhandle okEnv 7 0 0 (World.ofList [(5, ⟨5, .File, 8, 0⟩)])
      = .returned 0 (World.ofList [(0, ⟨0, .File, 7, 0⟩), (5, ⟨5, .File, 8, 0⟩)])
    ∧ (World.ofList [(0, ⟨0, .File, 7, 0⟩), (5, ⟨5, .File, 8, 0⟩)]).holds 0 ⟨0, .File, 7, 0⟩
    ∧ (⟨0, .File, 7, 0⟩ : Win32File).isValid = true
    ∧ (World.ofList [(0, ⟨0, .File, 7, 0⟩), (5, ⟨5, .File, 8, 0⟩)]).holds 5 ⟨5, .File, 8, 0⟩
    ∧ dup2 okEnv 0 5 (World.ofList [(0, ⟨0, .File, 7, 0⟩), (5, ⟨5, .File, 8, 0⟩)])
      = .returned (-1) (World.ofList [(0, ⟨0, .File, 7, 0⟩), (5, ⟨5, .File, 8, 0⟩)]) := by
  decide

/-- C5 (the code at the failing input): with descriptor 1 open on a valid handle and
descriptor 5 not occupied, `dup2(1, 5)` does not bind a duplicate at 5: the lookup of the
target leaves by the `std::out_of_range` exception of `std::map::at` in `FileMap::get`,
before any handle is duplicated. -/
theorem C5_dup2_unoccupied_target_throws :
    dup2 okEnv 1 5 (World.ofList [(1, ⟨1, .File, 7, 0⟩)])
      = .thrown .out_of_range (World.ofList [(1, ⟨1, .File, 7, 0⟩)]) := by
  decide

/-- C6: for every open descriptor `fd > 0` with a valid handle, when native handle
duplication succeeds (`duplicateHandle` gives `h`, not `INVALID_HANDLE_VALUE`), `dup(fd)`
returns a descriptor `d` that differs from `fd` and was not bound before the call; `d` is
bound to a new object of the same kind whose handle is the duplicate `h`; the binding of
`fd` and every other binding are as before. -/
theorem C6_dup_fresh_descriptor (env : Env) (w w1 : World) (fd h : Int) (self : Win32File)
    (hfd : 0 < fd) (hopen : w.holds fd self) (hv : self.isValid = true)
    (hdup : duplicateHandle env (-1) self.m_handle false w = .returned h w1)
    (hh : h ≠ INVALID_HANDLE_VALUE) :
    ∃ d w2, dup env fd w = .returned d w2
      ∧ d ≠ fd
      ∧ w.fileMap.find d = none
      ∧ w2.holds d ⟨d, self.m_type, h, 0⟩
      ∧ w2.holds fd self
      ∧ ∀ k, k ≠ d → w2.fileMap.find k = w.fileMap.find k := by
  have hm := (duplicateHandle_frame_of_eq hdup).1
  obtain ⟨d, hrun, hs⟩ := Win32File.dup_NewEntry_eq hv hdup hh
  have hfree : w.fileMap.find d = none := by
    rw [← hm]; exact (FileMap.count_eq_zero_iff _ _).1 hs.2.1
  have hdne : d ≠ fd := by
    intro hd
    rw [hd, hopen.2.1] at hfree
    cases hfree
  have hdnew : d ≠ FileMap.NewEntry := by
    have := hs.1
    unfold FileMap.NewEntry
    omega
  refine ⟨d, { w1 with fileMap := w1.fileMap.assign d ⟨d, self.m_type, h, 0⟩ }, ?_, hdne,
    hfree, ⟨hdnew, FileMap.find_assign_self _ _ _, rfl⟩, ⟨hopen.1, ?_, hopen.2.2⟩, ?_⟩
  · unfold dup
    rw [if_pos hfd, Prog.bind_returned (Win32File.of_deref_holds hopen)]
    exact hrun
  · show (w1.fileMap.assign d ⟨d, self.m_type, h, 0⟩).find fd = some self
    rw [FileMap.find_assign_ne _ _ _ _ (Ne.symm hdne), hm]
    exact hopen.2.1
  · intro k hk
    show (w1.fileMap.assign d ⟨d, self.m_type, h, 0⟩).find k = w.fileMap.find k
    rw [FileMap.find_assign_ne _ _ _ _ hk, hm]

/-- C6 at descriptor 1, a file on handle 7, with 2 bound as well: `dup(1)` returns a
descriptor other than 1 that was free, bound to a file object on the duplicate 107. -/
theorem C6_dup_fresh_descriptor_witness :
    ∃ d w2, dup okEnv 1 (World.ofList [(1, ⟨1, .File, 7, 0⟩), (2, ⟨2, .Socket, 8, 0⟩)])
        = .returned d w2
      ∧ d ≠ 1
      ∧ (World.ofList [(1, ⟨1, .File, 7, 0⟩), (2, ⟨2, .Socket, 8, 0⟩)]).fileMap.find d = none
      ∧ w2.holds d ⟨d, .File, 107, 0⟩
      ∧ w2.holds 1 ⟨1, .File, 7, 0⟩
      ∧ ∀ k, k ≠ d → w2.fileMap.find k
          = (World.ofList [(1, ⟨1, .File, 7, 0⟩), (2, ⟨2, .Socket, 8, 0⟩)]).fileMap.find k :=
  C6_dup_fresh_descriptor okEnv
    (World.ofList [(1, ⟨1, .File, 7, 0⟩), (2, ⟨2, .Socket, 8, 0⟩)])
    { fileMap := FileMap.ofList [(1, ⟨1, .File, 7, 0⟩), (2, ⟨2, .Socket, 8, 0⟩)], errno := 0,
      trace := [.GetCurrentProcess, .GetCurrentProcess,
        .DuplicateHandle (-1) 7 (-1) 0 false 2, .CloseHandle (-1)] }
    1 107 ⟨1, .File, 7, 0⟩ (by decide) (by decide) (by decide) (by decide) (by decide)

/-- C7: for every object bound at its descriptor (any kind, valid or invalid handle) and
whatever the native calls return, `Win32File::close` returns and the object is gone: the
registry has no binding for the object's descriptor, and every other binding is as
before. -/
theorem C7_close_destroys_object (env : Env) (w : World) (self : Win32File)
    (h : w.holds self.m_fd self) :
    ∃ r w1, Win32File.close env self w = .returned r w1
      ∧ w1.fileMap.find self.m_fd = none
      ∧ FileMap.has self.m_fd w1 = .returned false w1
      ∧ ∀ d, d ≠ self.m_fd → w1.fileMap.find d = w.fileMap.find d := by
  obtain ⟨r, w1, hclose, hmap⟩ := Win32File.close_frame env (World.holds_ne h) w
  have hnone : w1.fileMap.find self.m_fd = none := by
    rw [hmap]; exact FileMap.find_eraseKey_self _ _
  refine ⟨r, w1, hclose, hnone, ?_, ?_⟩
  · unfold FileMap.has
    rw [if_neg h.1, (FileMap.count_eq_zero_iff _ _).2 hnone]
    rfl
  · intro d hd
    rw [hmap]
    exact FileMap.find_eraseKey_ne _ _ _ hd

/-- C7 at a socket whose native close fails: the object is destroyed all the same. -/
theorem C7_close_destroys_object_witness :
    (World.ofList [(3, ⟨3, .Socket, 7, 0⟩), (4, ⟨4, .File, 8, 0⟩)]).holds 3 ⟨3, .Socket, 7, 0⟩
    ∧ ∃ r w1, Win32File.close (failEnv WSAEINTR) ⟨3, .Socket, 7, 0⟩
          (World.ofList [(3, ⟨3, .Socket, 7, 0⟩), (4, ⟨4, .File, 8, 0⟩)]) = .returned r w1
      ∧ w1.fileMap.find 3 = none
      ∧ FileMap.has 3 w1 = .returned false w1
      ∧ ∀ d, d ≠ 3 → w1.fileMap.find d
          = (World.ofList [(3, ⟨3, .Socket, 7, 0⟩), (4, ⟨4, .File, 8, 0⟩)]).fileMap.find d :=
  ⟨by decide, C7_close_destroys_object (failEnv WSAEINTR) _ ⟨3, .Socket, 7, 0⟩ (by decide)⟩

/-- C8 (as the code has it): for every object with a valid handle of kind file, mapping or
socket, if the native close call fails then `close()` returns -1; the error in `errno` is
`EBADF` for a file or a mapping, and for a socket it is the error the fixed lookup gives
for the last socket error (`EBADF` only for the codes not mapped one by one). -/
theorem C8_close_failure_error (env : Env) (w : World) (self : Win32File)
    (hv : self.isValid = true) (hfail : nativeCloseFails env w self) :
    ∃ w1, Win32File.close env self w = .returned (-1) w1
      ∧ (self.m_type ≠ .Socket → w1.errno = EBADF)
      ∧ (self.m_type = .Socket →
          IsMappedError
            (env (w.trace ++ [.closesocket self.m_handle]) .WSAGetLastError).ret w1.errno) := by
  unfold Win32File.close
  simp only [hv, Bool.not_true, Bool.false_eq_true, if_false]
  rcases self with ⟨fd, type, handle, flags⟩
  unfold nativeCloseFails at hfail
  cases type
  case Unknown => exact hfail.elim
  case Socket =>
    simp only at hfail
    obtain ⟨e, he, hmapped⟩ := handleWSALastError_mapped env
      { w with trace := w.trace ++ [.closesocket handle] }
    simp only [Prog.bind_eq, native_eq, if_pos hfail, he, Win32File.release, Win32File.delete,
      FileMap.erase, Prog.pure_eq]
    split_ifs
    all_goals exact ⟨_, rfl, fun hne => absurd rfl hne, fun _ => hmapped⟩
  all_goals
    simp only at hfail
    simp only [Prog.bind_eq, native_eq, if_pos hfail, handleError_eq, Win32File.release,
      Win32File.delete, FileMap.erase, Prog.pure_eq]
    split_ifs
    all_goals exact ⟨_, rfl, fun _ => rfl, fun hs => by cases hs⟩

/-- C8 at a file whose `CloseHandle` fails: -1 with `errno = EBADF`. -/
theorem C8_close_failure_error_witness :
    (⟨1, .File, 7, 0⟩ : Win32File).isValid = true
    ∧ nativeCloseFails (failEnv 0) (World.ofList [(1, ⟨1, .File, 7, 0⟩)]) ⟨1, .File, 7, 0⟩
    ∧ ∃ w1, Win32File.close (failEnv 0) ⟨1, .File, 7, 0⟩ (World.ofList [(1, ⟨1, .File, 7, 0⟩)])
          = .returned (-1) w1
        ∧ w1.errno = EBADF :=
  ⟨by decide, by decide,
    (C8_close_failure_error (failEnv 0) _ ⟨1, .File, 7, 0⟩ (by decide) (by decide)).imp
      fun _ h => ⟨h.1, h.2.1 (by decide)⟩⟩

/-- C8 fails as stated: a socket with a valid handle whose `closesocket` fails with last
error `WSAEWOULDBLOCK` makes `close()` return -1 with `errno = EWOULDBLOCK`, not `EBADF`. -/
theorem C8_counterexample :
    Win32File.close (failEnv WSAEWOULDBLOCK) ⟨1, .Socket, 7, 0⟩
        (World.ofList [(1, ⟨1, .Socket, 7, 0⟩)])
      = .returned (-1) ⟨FileMap.empty, EWOULDBLOCK, [.closesocket 7, .WSAGetLastError]⟩
    ∧ EWOULDBLOCK ≠ EBADF := by
  decide

/-- C9: for every file object whose native handle is null or `INVALID_HANDLE_VALUE`, of
every kind, each of `read`, `write`, `lseek`, `tell`, `eof`, `dup`, `isatty`, `fcntl`,
`chsize`, `filelength`, `locking`, `setmode` and `accept` returns -1 with `errno = EBADF`
and changes nothing else: no native call is recorded, and the registry, with the flags of
every object in it, is as before. -/
theorem C9_invalid_handle_is_EBADF (env : Env) (w : World) (self : Win32File)
    (h : self.m_handle = 0 ∨ self.m_handle = INVALID_HANDLE_VALUE) :
    (∀ nbyte flags, Win32File.read env self nbyte flags w
        = .returned (-1) { w with errno := EBADF })
    ∧ (∀ count flags, Win32File.write env self count flags w
        = .returned (-1) { w with errno := EBADF })
    ∧ (∀ offset whence, Win32File.lseek env self offset whence w
        = .returned (-1) { w with errno := EBADF })
    ∧ Win32File.tell env self w = .returned (-1) { w with errno := EBADF }
    ∧ Win32File.eof env self w = .returned (-1) { w with errno := EBADF }
    ∧ (∀ newfd, Win32File.dup env self newfd w = .returned (-1) { w with errno := EBADF })
    ∧ Win32File.isatty env self w = .returned (-1) { w with errno := EBADF }
    ∧ (∀ command flags, Win32File.fcntl env self command flags w
        = .returned (-1) { w with errno := EBADF })
    ∧ (∀ size, Win32File.chsize env self size w = .returned (-1) { w with errno := EBADF })
    ∧ Win32File.filelength env self w = .returned (-1) { w with errno := EBADF }
    ∧ (∀ lockMode numOfBytes, Win32File.locking env self lockMode numOfBytes w
        = .returned (-1) { w with errno := EBADF })
    ∧ (∀ mode, Win32File.setmode env self mode w = .returned (-1) { w with errno := EBADF })
    ∧ Win32File.accept env self w = .returned (-1) { w with errno := EBADF } := by
  have hv := Win32File.isValid_false h
  refine ⟨?_, ?_, ?_, ?_, ?_, ?_, ?_, ?_, ?_, ?_, ?_, ?_, ?_⟩
  · intro nbyte flags
    unfold Win32File.read
    simp only [hv, Bool.not_false, if_true, handleError_eq]
  · intro count flags
    unfold Win32File.write
    simp only [hv, Bool.not_false, if_true, handleError_eq]
  · intro offset whence
    unfold Win32File.lseek
    simp only [hv, Bool.not_false, if_true, handleError_eq]
  · unfold Win32File.tell
    simp only [hv, Bool.not_false, if_true, handleError_eq]
  · unfold Win32File.eof
    simp only [hv, Bool.not_false, if_true, handleError_eq]
  · intro newfd
    unfold Win32File.dup
    simp only [hv, Bool.not_false, if_true, handleError_eq]
  · unfold Win32File.isatty
    simp only [hv, Bool.not_false, if_true, handleError_eq]
  · intro command flags
    unfold Win32File.fcntl
    simp only [hv, Bool.not_false, if_true, handleError_eq]
  · intro size
    unfold Win32File.chsize
    simp only [hv, Bool.not_false, if_true, handleError_eq]
  · unfold Win32File.filelength
    simp only [hv, Bool.not_false, if_true, handleError_eq]
  · intro lockMode numOfBytes
    unfold Win32File.locking
    simp only [hv, Bool.not_false, if_true, handleError_eq]
  · intro mode
    unfold Win32File.setmode
    simp only [hv, Bool.not_false, if_true, handleError_eq]
  · unfold Win32File.accept
    simp only [hv, Bool.not_false, if_true, handleError_eq]

/-- C9 at a socket object whose handle is `INVALID_HANDLE_VALUE`, via `read`. -/
theorem C9_invalid_handle_is_EBADF_witness :
    ((⟨3, .Socket, -1, 0⟩ : Win32File).m_handle = 0
      ∨ (⟨3, .Socket, -1, 0⟩ : Win32File).m_handle = INVALID_HANDLE_VALUE)
    ∧ Win32File.read okEnv ⟨3, .Socket, -1, 0⟩ 16 0 (World.ofList [(3, ⟨3, .Socket, -1, 0⟩)])
      = .returned (-1) { World.ofList [(3, ⟨3, .Socket, -1, 0⟩)] with errno := EBADF } :=
  ⟨by decide,
    (C9_invalid_handle_is_EBADF okEnv (World.ofList [(3, ⟨3, .Socket, -1, 0⟩)])
      ⟨3, .Socket, -1, 0⟩ (by decide)).1 16 0⟩

/-- C10: for every socket-kind object with a valid handle and every native last-error code,
when the native call inside `read` (`recv`), `write` (`send`) or `accept` fails, the
operation returns -1 and what it stores in `errno` follows the fixed lookup from the last
socket error asked for right after the failed call: `EWOULDBLOCK`, `EINTR`, `EINVAL`,
`ECONNRESET`, `ECONNABORTED` for the five mapped codes, `EBADF` for every other code, and
never `EBADF` for would-block.  The registry is not changed. -/
theorem C10_socket_failure_errno (env : Env) (w : World) (self : Win32File)
    (hs : self.m_type = .Socket) (hv : self.isValid = true) :
    (∀ nbyte flags, (env w.trace (.recv self.m_handle nbyte flags)).ret < 0 →
      ∃ w1, Win32File.read env self nbyte flags w = .returned (-1) w1
        ∧ w1.fileMap = w.fileMap
        ∧ IsMappedError
            (env (w.trace ++ [.recv self.m_handle nbyte flags]) .WSAGetLastError).ret w1.errno)
    ∧ (∀ count flags, (env w.trace (.send self.m_handle count flags)).ret < 0 →
      ∃ w1, Win32File.write env self count flags w = .returned (-1) w1
        ∧ w1.fileMap = w.fileMap
        ∧ IsMappedError
            (env (w.trace ++ [.send self.m_handle count flags]) .WSAGetLastError).ret w1.errno)
    ∧ ((env w.trace (.accept self.m_handle)).ret = -1 →
      ∃ w1, Win32File.accept env self w = .returned (-1) w1
        ∧ w1.fileMap = w.fileMap
        ∧ IsMappedError
            (env (w.trace ++ [.accept self.m_handle]) .WSAGetLastError).ret w1.errno) := by
  rcases self with ⟨fd, type, handle, flags0⟩
  simp only at hs
  subst hs
  refine ⟨?_, ?_, ?_⟩
  · intro nbyte flags hfail
    obtain ⟨e, he, hmapped⟩ := handleWSALastError_mapped env
      { w with trace := w.trace ++ [.recv handle nbyte flags] }
    unfold Win32File.read
    simp only [hv, Bool.not_true, Bool.false_eq_true, if_false, Prog.bind_eq, native_eq,
      if_pos hfail, he]
    exact ⟨_, rfl, rfl, hmapped⟩
  · intro count flags hfail
    obtain ⟨e, he, hmapped⟩ := handleWSALastError_mapped env
      { w with trace := w.trace ++ [.send handle count flags] }
    unfold Win32File.write
    simp only [hv, Bool.not_true, Bool.false_eq_true, if_false, Prog.bind_eq, native_eq,
      if_pos hfail, he]
    exact ⟨_, rfl, rfl, hmapped⟩
  · intro hfail
    obtain ⟨e, he, hmapped⟩ := handleWSALastError_mapped env
      { w with trace := w.trace ++ [.accept handle] }
    unfold Win32File.accept
    simp only [hv, Bool.not_true, Bool.false_eq_true, if_false, Prog.bind_eq, native_eq,
      if_pos hfail, he, Win32File.is, decide_True]
    exact ⟨_, rfl, rfl, hmapped⟩

/-- C10 at a socket whose `recv` fails with last error `WSAEWOULDBLOCK`: `read` returns -1
with `errno = EWOULDBLOCK`. -/
theorem C10_socket_failure_errno_witness :
    (⟨3, .Socket, 7, 0⟩ : Win32File).m_type = .Socket
    ∧ (⟨3, .Socket, 7, 0⟩ : Win32File).isValid = true
    ∧ ((failEnv WSAEWOULDBLOCK) (World.ofList [(3, ⟨3, .Socket, 7, 0⟩)]).trace
        (.recv 7 16 0)).ret < 0
    ∧ ∃ w1, Win32File.read (failEnv WSAEWOULDBLOCK) ⟨3, .Socket, 7, 0⟩ 16 0
          (World.ofList [(3, ⟨3, .Socket, 7, 0⟩)]) = .returned (-1) w1
        ∧ w1.errno = EWOULDBLOCK :=
  ⟨rfl, by decide, by decide,
    ((C10_socket_failure_errno (failEnv WSAEWOULDBLOCK) (World.ofList [(3, ⟨3, .Socket, 7, 0⟩)])
      ⟨3, .Socket, 7, 0⟩ rfl (by decide)).1 16 0 (by decide)).imp
      fun _ h => ⟨h.1, h.2.2.1 rfl⟩⟩

/-- C12 (as stated, refuted): one open by handle with the kind `Unknown` from the empty
registry, in an environment whose native calls never hand out the null handle, binds
descriptor 1 to an object whose handle is `INVALID_HANDLE_VALUE`. -/
theorem C12_counterexample :
    handleEnv.NoNullHandle
    ∧ Reachable handleEnv pairOfSockets (fun _ => True) unknownRun
    ∧ unknownRun.fileMap.find 1 = some ⟨1, .Unknown, INVALID_HANDLE_VALUE, 0⟩
    ∧ (⟨1, .Unknown, INVALID_HANDLE_VALUE, 0⟩ : Win32File).isValid = false :=
  ⟨handleEnv_NoNullHandle, Reachable.call _ _ trivial (Reachable.start 0), by decide,
    by decide⟩

/-- C12 (amended): when the native calls never report success with the null handle, in
every state reachable from the empty registry through the public operations (open by
handle with a kind other than `Unknown`, open by path, socket, socketpair, accept, dup,
dup2, close, release), every object bound in the registry holds a native handle that is
neither null nor `INVALID_HANDLE_VALUE`. -/
theorem C12_registry_invariant (env : Env) (dumb_socketpair : DumbSocketpair)
    (hnn : env.NoNullHandle) (w : World)
    (hw : Reachable env dumb_socketpair (fun c => c.kindUnknown = false) w) :
    ∀ fd file, w.fileMap.find fd = some file →
      file.m_handle ≠ 0 ∧ file.m_handle ≠ INVALID_HANDLE_VALUE := by
  have hall : w.AllValid := by
    induction hw with
    | start errno =>
      intro fd file hfind
      exact absurd hfind (by simp [FileMap.find, FileMap.empty])
    | call c w1 hc _ ih => exact PublicCall.run_AllValid env hnn dumb_socketpair c hc w1 ih
  intro fd file hfind
  have hv := hall fd file hfind
  simpa [Win32File.isValid] using hv

theorem C12_registry_invariant_witness :
    handleEnv.NoNullHandle
    ∧ Reachable handleEnv pairOfSockets (fun c => c.kindUnknown = false) sampleRun
    ∧ sampleRun.fileMap.find 1 = some ⟨1, .Socket, 5, 0⟩
    ∧ ∀ fd file, sampleRun.fileMap.find fd = some file →
      file.m_handle ≠ 0 ∧ file.m_handle ≠ INVALID_HANDLE_VALUE :=
  have hr : Reachable handleEnv pairOfSockets (fun c => c.kindUnknown = false) sampleRun :=
    Reachable.call _ _ rfl (Reachable.call _ _ rfl (Reachable.call _ _ rfl
      (Reachable.call _ _ rfl (Reachable.start 0))))
  ⟨handleEnv_NoNullHandle, hr, by decide,
    C12_registry_invariant handleEnv pairOfSockets handleEnv_NoNullHandle sampleRun hr⟩

/-- C13 (the code at the failing input): with the native inheritance flag a stored bit,
`fcntl(F_SETFD, FD_CLOEXEC)` clears the inherit bit of the handle and the following
`fcntl(F_GETFD)` returns 0, not `FD_CLOEXEC`; `fcntl(F_SETFD, 0)` sets the inherit bit
and the following `fcntl(F_GETFD)` returns `FD_CLOEXEC`, not 0: `F_GETFD` reports
`FD_CLOEXEC` exactly when the handle is inheritable. -/
theorem C13_cloexec_round_trip_inverted :
    (fcntlOf (storedFlagsEnv 0) 1 F_SETFD FD_CLOEXEC >>= fun _ =>
        fcntlOf (storedFlagsEnv 0) 1 F_GETFD 0) (World.ofList [(1, ⟨1, .File, 7, 0⟩)])
      = .returned 0
          { World.ofList [(1, ⟨1, .File, 7, 0⟩)] with
            trace := [.SetHandleInformation 7 HANDLE_FLAG_INHERIT 0, .GetHandleInformation 7] }
    ∧ (fcntlOf (storedFlagsEnv 0) 1 F_SETFD 0 >>= fun _ =>
        fcntlOf (storedFlagsEnv 0) 1 F_GETFD 0) (World.ofList [(1, ⟨1, .File, 7, 0⟩)])
      = .returned FD_CLOEXEC
          { World.ofList [(1, ⟨1, .File, 7, 0⟩)] with
            trace := [.SetHandleInformation 7 HANDLE_FLAG_INHERIT HANDLE_FLAG_INHERIT,
              .GetHandleInformation 7] } := by
  decide

/-- C14 fails as stated: on a socket with a valid handle, `fcntl(F_SETFL, O_NONBLOCK)`
succeeds (the native `ioctlsocket` is called and `O_NONBLOCK` is recorded in the flags
word), and the following `fcntl(F_GETFL)` with argument 0 returns 0, a value whose
`O_NONBLOCK` bit is clear.  A later `fcntl(F_SETFL, 0)` returns 0 and leaves `O_NONBLOCK`
in the flags word: `fcntl(F_GETFL)` asked with `O_NONBLOCK` still returns `O_NONBLOCK`. -/
theorem C14_counterexample :
    (fcntlOf okEnv 3 F_SETFL O_NONBLOCK >>= fun r => fcntlOf okEnv 3 F_GETFL 0 >>= fun g =>
        pure (r, g)) (World.ofList [(3, ⟨3, .Socket, 7, 0⟩)])
      = .returned (0, 0)
          { World.ofList [(3, ⟨3, .Socket, 7, O_NONBLOCK⟩)] with
            trace := [.ioctlsocket 7 FIONBIO 1] }
    ∧ (fcntlOf okEnv 3 F_SETFL O_NONBLOCK >>= fun _ => fcntlOf okEnv 3 F_SETFL 0 >>= fun r =>
        fcntlOf okEnv 3 F_GETFL O_NONBLOCK >>= fun g => pure (r, g))
          (World.ofList [(3, ⟨3, .Socket, 7, 0⟩)])
      = .returned (0, (O_NONBLOCK : Int))
          { World.ofList [(3, ⟨3, .Socket, 7, O_NONBLOCK⟩)] with
            trace := [.ioctlsocket 7 FIONBIO 1] } := by
  decide

/-- C14 (amended): for every object with a valid handle bound at `fd`, of socket kind in
particular.

* `fcntl(F_GETFL)` called with an argument that has `O_NONBLOCK` returns the `O_NONBLOCK`
  bit of the flags word; called with an argument that lacks it, 0 in particular, it
  returns 0 whatever the flags word holds.  It changes nothing.
* `fcntl(F_SETFL)` with an argument that lacks `O_NONBLOCK`, or when `O_NONBLOCK` is in
  the flags word already, returns 0 and changes nothing: the flag is never cleared.
* `fcntl(F_SETFL)` with an argument that has `O_NONBLOCK`, when the flags word lacks it
  and the native `ioctlsocket` succeeds, returns 0 and records `O_NONBLOCK` in the flags
  word, leaving the other bits.  In the world after it, `F_GETFL` asked with `O_NONBLOCK`
  returns `O_NONBLOCK`, `F_GETFL` asked without it returns 0, and every later `F_SETFL`,
  with or without `O_NONBLOCK`, returns 0 and leaves the flag recorded, so that `F_GETFL`
  asked with `O_NONBLOCK` still returns `O_NONBLOCK` after it and `F_GETFL` with argument
  0 still returns 0. -/
theorem C14_nonblock_reported_on_request (env : Env) (w : World) (fd : Int)
    (self : Win32File) (hopen : w.holds fd self) (hv : self.isValid = true) :
    (∀ ask : Nat, fcntlOf env fd F_GETFL ask w
        = .returned (if ask &&& O_NONBLOCK ≠ 0 then ((self.m_flags &&& O_NONBLOCK : Nat) : Int)
            else 0) w)
    ∧ (∀ flags : Nat, flags &&& O_NONBLOCK = 0 ∨ self.m_flags &&& O_NONBLOCK ≠ 0 →
        fcntlOf env fd F_SETFL flags w = .returned 0 w)
    ∧ (∀ flags : Nat, flags &&& O_NONBLOCK ≠ 0 → self.m_flags &&& O_NONBLOCK = 0 →
        (env w.trace (.ioctlsocket self.m_handle FIONBIO 1)).ret ≠ SOCKET_ERROR →
        ∃ w1, fcntlOf env fd F_SETFL flags w = .returned 0 w1
          ∧ w1.holds fd { self with m_flags := self.m_flags ||| O_NONBLOCK }
          ∧ (∀ ask : Nat, ask &&& O_NONBLOCK ≠ 0 →
              fcntlOf env fd F_GETFL ask w1 = .returned O_NONBLOCK w1)
          ∧ (∀ ask : Nat, ask &&& O_NONBLOCK = 0 →
              fcntlOf env fd F_GETFL ask w1 = .returned 0 w1)
          ∧ (∀ later ask : Nat,
              (fcntlOf env fd F_SETFL later >>= fun r =>
                fcntlOf env fd F_GETFL ask >>= fun g => pure (r, g)) w1
              = .returned (0, if ask &&& O_NONBLOCK ≠ 0 then (O_NONBLOCK : Int) else 0) w1)) := by
  refine ⟨?_, ?_, ?_⟩
  · intro ask
    rw [fcntlOf_holds hopen, Win32File.fcntl_GETFL_eq env self ask w hv]
  · intro flags hidle
    rw [fcntlOf_holds hopen]
    exact Win32File.fcntl_SETFL_idle env self flags w hv hidle
  · intro flags hask hclear hok
    have hv1 : ({ self with m_flags := self.m_flags ||| O_NONBLOCK } : Win32File).isValid
        = true := hv
    have hheld : ({ w with
        fileMap := w.fileMap.write self.m_fd
          { self with m_flags := self.m_flags ||| O_NONBLOCK },
        trace := w.trace ++ [.ioctlsocket self.m_handle FIONBIO 1] } : World).holds fd
        { self with m_flags := self.m_flags ||| O_NONBLOCK } := by
      refine ⟨hopen.1, ?_, hopen.2.2⟩
      show (w.fileMap.write self.m_fd _).find fd = _
      rw [hopen.2.2]
      exact FileMap.find_write_self _ _ _ _ hopen.2.1
    have hbit : (({ self with m_flags := self.m_flags ||| O_NONBLOCK } : Win32File).m_flags
        &&& O_NONBLOCK) = O_NONBLOCK := or_and_self_right _ _
    have hset : ({ self with m_flags := self.m_flags ||| O_NONBLOCK } : Win32File).m_flags
        &&& O_NONBLOCK ≠ 0 := by
      rw [hbit]
      decide
    have hget : ∀ ask : Nat, fcntlOf env fd F_GETFL ask
        { w with
          fileMap := w.fileMap.write self.m_fd
            { self with m_flags := self.m_flags ||| O_NONBLOCK },
          trace := w.trace ++ [.ioctlsocket self.m_handle FIONBIO 1] }
        = .returned (if ask &&& O_NONBLOCK ≠ 0 then (O_NONBLOCK : Int) else 0)
          { w with
            fileMap := w.fileMap.write self.m_fd
              { self with m_flags := self.m_flags ||| O_NONBLOCK },
            trace := w.trace ++ [.ioctlsocket self.m_handle FIONBIO 1] } := by
      intro ask
      rw [fcntlOf_holds hheld, Win32File.fcntl_GETFL_eq env _ ask _ hv1, hbit]
    refine ⟨_, ?_, hheld, ?_, ?_, ?_⟩
    · rw [fcntlOf_holds hopen, Win32File.fcntl_SETFL_set_eq env self flags w hv hask hclear,
        if_neg hok]
    · intro ask hbitAsk
      rw [hget ask, if_pos hbitAsk]
    · intro ask hno
      have hno1 : ¬ ask &&& O_NONBLOCK ≠ 0 := fun h => h hno
      rw [hget ask, if_neg hno1]
    · intro later ask
      have hlater : fcntlOf env fd F_SETFL later
          { w with
            fileMap := w.fileMap.write self.m_fd
              { self with m_flags := self.m_flags ||| O_NONBLOCK },
            trace := w.trace ++ [.ioctlsocket self.m_handle FIONBIO 1] }
          = .returned 0
            { w with
              fileMap := w.fileMap.write self.m_fd
                { self with m_flags := self.m_flags ||| O_NONBLOCK },
              trace := w.trace ++ [.ioctlsocket self.m_handle FIONBIO 1] } := by
        rw [fcntlOf_holds hheld]
        exact Win32File.fcntl_SETFL_idle env _ later _ hv1 (Or.inr hset)
      rw [Prog.bind_returned hlater, Prog.bind_returned (hget ask)]
      rfl

/-- C14 at a socket on handle 7 bound at descriptor 3, with `ioctlsocket` succeeding:
after `F_SETFL` with `O_NONBLOCK` and a later `F_SETFL` with argument 0, `F_GETFL` with
argument 0 returns 0 and `F_GETFL` asked with `O_NONBLOCK` returns `O_NONBLOCK`. -/
theorem C14_nonblock_reported_on_request_witness :
    (World.ofList [(3, ⟨3, .Socket, 7, 0⟩)]).holds 3 ⟨3, .Socket, 7, 0⟩
    ∧ ∃ w1, fcntlOf okEnv 3 F_SETFL O_NONBLOCK (World.ofList [(3, ⟨3, .Socket, 7, 0⟩)])
        = .returned 0 w1
      ∧ w1.holds 3 ⟨3, .Socket, 7, 0 ||| O_NONBLOCK⟩
      ∧ fcntlOf okEnv 3 F_GETFL O_NONBLOCK w1 = .returned O_NONBLOCK w1
      ∧ fcntlOf okEnv 3 F_GETFL 0 w1 = .returned 0 w1
      ∧ (fcntlOf okEnv 3 F_SETFL 0 >>= fun r =>
          fcntlOf okEnv 3 F_GETFL O_NONBLOCK >>= fun g => pure (r, g)) w1
        = .returned (0, (O_NONBLOCK : Int)) w1
      ∧ (fcntlOf okEnv 3 F_SETFL 0 >>= fun r =>
          fcntlOf okEnv 3 F_GETFL 0 >>= fun g => pure (r, g)) w1
        = .returned (0, 0) w1 :=
  ⟨by decide,
    ((C14_nonblock_reported_on_request okEnv (World.ofList [(3, ⟨3, .Socket, 7, 0⟩)]) 3
      ⟨3, .Socket, 7, 0⟩ (by decide) (by decide)).2.2 O_NONBLOCK (by decide) (by decide)
      (by decide)).imp
      fun _ h => ⟨h.1, h.2.1, h.2.2.1 O_NONBLOCK (by decide), h.2.2.2.1 0 (by decide),
        h.2.2.2.2 0 O_NONBLOCK, h.2.2.2.2 0 0⟩⟩

/-- C15 (as stated, refuted): on a file-kind object with a valid handle,
`fcntl(F_SETFL, O_NONBLOCK)` calls the native `ioctlsocket` on the file handle; when that
call fails, `fcntl` returns -1 with `errno` from the socket error lookup and records
nothing; when it succeeds 0 is returned and `O_NONBLOCK` recorded, the native call made. -/
theorem C15_counterexample :
    fcntlOf (failEnv 10038) 1 F_SETFL O_NONBLOCK (World.ofList [(1, ⟨1, .File, 7, 0⟩)])
      = .returned (-1)
          { World.ofList [(1, ⟨1, .File, 7, 0⟩)] with
            errno := EBADF, trace := [.ioctlsocket 7 FIONBIO 1, .WSAGetLastError] }
    ∧ fcntlOf okEnv 1 F_SETFL O_NONBLOCK (World.ofList [(1, ⟨1, .File, 7, 0⟩)])
      = .returned 0
          { World.ofList [(1, ⟨1, .File, 7, O_NONBLOCK⟩)] with
            trace := [.ioctlsocket 7 FIONBIO 1] } := by
  decide

/-- C15 (amended): for every object with a valid handle bound at `fd`, of file kind in
particular, `fcntl(F_SETFL, O_NONBLOCK)` is flag bookkeeping only when `O_NONBLOCK` is
already in the flags word: it returns 0 and changes nothing.  When the flag is not yet
recorded the call issues the native `ioctlsocket(FIONBIO)` on the handle, as it does for a
socket: if that succeeds it returns 0 and records `O_NONBLOCK` in the flags word of the
object at `fd`; if it fails it returns -1, records nothing and sets `errno` by the socket
error lookup. -/
theorem C15_file_SETFL_nonblock (env : Env) (w : World) (fd : Int) (self : Win32File)
    (hopen : w.holds fd self) (hv : self.isValid = true) :
    (self.m_flags &&& O_NONBLOCK ≠ 0 → fcntlOf env fd F_SETFL O_NONBLOCK w = .returned 0 w)
    ∧ (self.m_flags &&& O_NONBLOCK = 0 →
        (env w.trace (.ioctlsocket self.m_handle FIONBIO 1)).ret ≠ SOCKET_ERROR →
        fcntlOf env fd F_SETFL O_NONBLOCK w
          = .returned 0
              { w with
                fileMap := w.fileMap.write fd
                  { self with m_flags := self.m_flags ||| O_NONBLOCK },
                trace := w.trace ++ [.ioctlsocket self.m_handle FIONBIO 1] })
    ∧ (self.m_flags &&& O_NONBLOCK = 0 →
        (env w.trace (.ioctlsocket self.m_handle FIONBIO 1)).ret = SOCKET_ERROR →
        ∃ e, fcntlOf env fd F_SETFL O_NONBLOCK w
            = .returned (-1)
                { w with
                  errno := e,
                  trace := w.trace ++ [.ioctlsocket self.m_handle FIONBIO 1]
                    ++ [.WSAGetLastError] }
          ∧ IsMappedError
              (env (w.trace ++ [.ioctlsocket self.m_handle FIONBIO 1]) .WSAGetLastError).ret
              e) := by
  refine ⟨?_, ?_, ?_⟩
  · intro hset
    rw [fcntlOf_holds hopen]
    exact Win32File.fcntl_SETFL_idle env self _ w hv (Or.inr hset)
  · intro hclear hok
    rw [fcntlOf_holds hopen, Win32File.fcntl_SETFL_NONBLOCK_eq env self w hv hclear, if_neg hok,
      hopen.2.2]
  · intro hclear hfail
    rw [fcntlOf_holds hopen, Win32File.fcntl_SETFL_NONBLOCK_eq env self w hv hclear,
      if_pos hfail]
    exact handleWSALastError_mapped env _

/-- C15 at a file object on handle 7 bound at descriptor 1, with `ioctlsocket` failing
with the native error 10038 (not a socket). -/
theorem C15_file_SETFL_nonblock_witness :
    (World.ofList [(1, ⟨1, .File, 7, 0⟩)]).holds 1 ⟨1, .File, 7, 0⟩
    ∧ ∃ e, fcntlOf (failEnv 10038) 1 F_SETFL O_NONBLOCK (World.ofList [(1, ⟨1, .File, 7, 0⟩)])
        = .returned (-1)
            { World.ofList [(1, ⟨1, .File, 7, 0⟩)] with
              errno := e, trace := [] ++ [.ioctlsocket 7 FIONBIO 1] ++ [.WSAGetLastError] }
      ∧ IsMappedError 10038 e :=
  ⟨by decide,
    (C15_file_SETFL_nonblock (failEnv 10038) (World.ofList [(1, ⟨1, .File, 7, 0⟩)]) 1
      ⟨1, .File, 7, 0⟩ (by decide) (by decide)).2.2 (by decide) (by decide)⟩

/-- C16 (the code at the failing input): the native timestamp one second after the 1970
epoch, `t = 116444736000000000 + 10^7` (high word 27111902, low word 3587643008), is
converted by `fileTimeToTime` to 10000000, the count of 100-nanosecond intervals since
1970, and not to 1, the POSIX seconds: the offset is subtracted but the result is never
divided by `10^7`.  `lstat` reports that value as access, modification and creation time
of the file `f`, which carries this timestamp. -/
theorem C16_fileTimeToTime_not_seconds :
    (27111902 * 2 ^ 32 + 3587643008 : Int) = 116444736000000000 + 10 ^ 7
    ∧ fileTimeToTime ⟨3587643008, 27111902⟩ = 10 ^ 7
    ∧ fileTimeToTime ⟨3587643008, 27111902⟩ ≠ 1
    ∧ Win32File.lstat .win32_overrides sampleFs ['f'] [NUL] zeroStat (World.ofList [])
      = .returned
          (0, { st_dev := 0, st_ino := 0, st_mode := 0x8180, st_nlink := 1, st_uid := 0,
                st_gid := 0, st_rdev := 0, st_size := 5, st_atime := 10000000,
                st_mtime := 10000000, st_ctime := 10000000 })
          { World.ofList [] with trace := [.GetFileAttributesExA ['f']] } := by
  decide

/-- C17: for every attribute word and reparse tag, and with either header, the mode
synthesized by `fileAttributeToMode` has the read bit set, has the write bit set exactly
when the read-only attribute is absent, satisfies `S_ISLNK` exactly when `attr` has the
reparse-point flag and the tag is the symbolic-link tag, satisfies `S_ISDIR` exactly when it
is not such a link and `attr` has the directory flag, and satisfies `S_ISREG` exactly in the
remaining case; so exactly one of the three holds. -/
theorem C17_fileAttributeToMode_classification (h : Header) (attr tag : Nat) :
    fileAttributeToMode h attr tag &&& _S_IREAD = _S_IREAD
    ∧ (fileAttributeToMode h attr tag &&& _S_IWRITE = _S_IWRITE
        ↔ attr &&& FILE_ATTRIBUTE_READONLY = 0)
    ∧ (S_ISLNK h (fileAttributeToMode h attr tag) = true
        ↔ (attr &&& FILE_ATTRIBUTE_REPARSE_POINT ≠ 0 ∧ tag = IO_REPARSE_TAG_SYMLINK))
    ∧ (S_ISDIR (fileAttributeToMode h attr tag) = true
        ↔ (¬ (attr &&& FILE_ATTRIBUTE_REPARSE_POINT ≠ 0 ∧ tag = IO_REPARSE_TAG_SYMLINK)
            ∧ attr &&& FILE_ATTRIBUTE_DIRECTORY ≠ 0))
    ∧ (S_ISREG (fileAttributeToMode h attr tag) = true
        ↔ (¬ (attr &&& FILE_ATTRIBUTE_REPARSE_POINT ≠ 0 ∧ tag = IO_REPARSE_TAG_SYMLINK)
            ∧ ¬ attr &&& FILE_ATTRIBUTE_DIRECTORY ≠ 0)) := by
  unfold fileAttributeToMode
  by_cases hp : attr &&& FILE_ATTRIBUTE_REPARSE_POINT = 0 <;>
  by_cases ht : tag = IO_REPARSE_TAG_SYMLINK <;>
  by_cases hd : attr &&& FILE_ATTRIBUTE_DIRECTORY = 0 <;>
  by_cases hr : attr &&& FILE_ATTRIBUTE_READONLY = 0 <;>
  cases h <;>
  simp only [hp, ht, hd, hr, ne_eq, not_true_eq_false, not_false_eq_true, and_true, and_false,
    true_and, false_and, if_true, if_false, iff_true, iff_false, and_self] <;>
  decide

/-- C19: for every `lstat` whose native query fails (the failing call is `c`), `lstat`
returns -1, leaves the record alone and sets `errno` from the native last-error code of
`c` by the classification of the specification: `EACCES` for access-denied,
sharing-violation, lock-violation and sharing-buffer-exceeded, `ENAMETOOLONG` for
buffer-overflow, `ENOMEM` for not-enough-memory, for path-not-found `ENOTDIR` when the
prefix walk fails and `ENOENT` when it passes, and `ENOENT` for every other code.  The
prefix walk of the code (`hasValidDirectoryPrefix`) returns 1 exactly when the walk
described in the specification passes: prefixes before each separator from longest to
shortest, those failing with path-not-found skipped, and the first remaining one having
attributes exactly 'directory' or exactly 'device' or failing with file-not-found. -/
theorem C19_lstat_error_classification (h : Header) (fs : FileSystem)
    (filename uninit : List Char) (out : struct_stat) (w : World) (c : NativeCall)
    (hlen : lstatLen filename uninit ≠ 0)
    (hfail : lstatFailingCall fs (lstatPath filename uninit) = some c) :
    (∃ w1, win32_overrides.lstat h fs filename uninit out w = .returned (-1, out) w1
      ∧ w1.errno = lstatErrorOf (fs.GetLastError (some c))
          (prefixWalkPasses fs (lstatPath filename uninit) (lstatPath filename uninit).length))
    ∧ (∀ path w0, ∃ w1, hasValidDirectoryPrefix fs path w0
        = .returned (if prefixWalkPasses fs path path.length then 1 else 0) w1)
    ∧ (∀ walk, lstatErrorOf ERROR_ACCESS_DENIED walk = EACCES
        ∧ lstatErrorOf ERROR_SHARING_VIOLATION walk = EACCES
        ∧ lstatErrorOf ERROR_LOCK_VIOLATION walk = EACCES
        ∧ lstatErrorOf ERROR_SHARING_BUFFER_EXCEEDED walk = EACCES
        ∧ lstatErrorOf ERROR_BUFFER_OVERFLOW walk = ENAMETOOLONG
        ∧ lstatErrorOf ERROR_NOT_ENOUGH_MEMORY walk = ENOMEM)
    ∧ lstatErrorOf ERROR_PATH_NOT_FOUND false = ENOTDIR
    ∧ lstatErrorOf ERROR_PATH_NOT_FOUND true = ENOENT
    ∧ (∀ code walk, code ≠ ERROR_ACCESS_DENIED → code ≠ ERROR_SHARING_VIOLATION →
        code ≠ ERROR_LOCK_VIOLATION → code ≠ ERROR_SHARING_BUFFER_EXCEEDED →
        code ≠ ERROR_BUFFER_OVERFLOW → code ≠ ERROR_NOT_ENOUGH_MEMORY →
        code ≠ ERROR_PATH_NOT_FOUND → lstatErrorOf code walk = ENOENT) := by
  refine ⟨?_, ?_, ?_, by decide, by decide, ?_⟩
  · obtain ⟨w1, hrun, he, _⟩ :=
      Win32File.lstat_of_failing_query h fs filename uninit out w c hlen hfail
    exact ⟨w1, hrun, he⟩
  · intro path w0
    obtain ⟨w1, hrun, _⟩ := hasValidDirectoryPrefixLoop_spec fs path path.length w0
    exact ⟨w1, hrun⟩
  · intro walk
    cases walk <;> decide
  · intro code walk h1 h2 h3 h4 h5 h6 h7
    unfold lstatErrorOf
    simp only [h1, h2, h3, h4, h5, h6, h7, or_self, if_false]

/-- C19 at the path `x/y` of the sample file system: the attribute query fails with
file-not-found and `lstat` returns -1 with `errno = ENOENT`. -/
theorem C19_lstat_error_classification_witness :
    lstatLen ['x', '/', 'y'] [NUL] ≠ 0
    ∧ lstatFailingCall sampleFs (lstatPath ['x', '/', 'y'] [NUL])
        = some (.GetFileAttributesExA ['x', '/', 'y'])
    ∧ ∃ w1, win32_overrides.lstat .win32_overrides sampleFs ['x', '/', 'y'] [NUL] zeroStat
          (World.ofList []) = .returned (-1, zeroStat) w1
        ∧ w1.errno = ENOENT :=
  ⟨by decide, by decide,
    (C19_lstat_error_classification .win32_overrides sampleFs ['x', '/', 'y'] [NUL] zeroStat
      (World.ofList []) (.GetFileAttributesExA ['x', '/', 'y']) (by decide) (by decide)).1.imp
      fun _ hw => ⟨hw.1, hw.2.trans (by decide)⟩⟩

/-- C20 (the code at the failing input): the buffer of `lstat` gets no terminator from
`strncpy(strvec.data(), filename, len)`, so a name without a trailing separator is
queried together with the bytes that follow it in the uninitialised storage.  With the
byte `x` there, `lstat` of the name `f` queries the path `fx` and fails with
`errno = ENOENT`, while `lstat` of `f/`, whose separator is overwritten by the terminator,
queries `f` and succeeds: the two calls differ in return value, `errno` and record. -/
theorem C20_lstat_trailing_separator_differs :
    Win32File.lstat .win32_overrides sampleFs ['f'] ['x', NUL] zeroStat (World.ofList [])
      = .returned (-1, zeroStat)
          { World.ofList [] with
            errno := ENOENT, trace := [.GetFileAttributesExA ['f', 'x'], .GetLastError] }
    ∧ Win32File.lstat .win32_overrides sampleFs ['f', '/'] ['x', NUL] zeroStat (World.ofList [])
      = .returned
          (0, { st_dev := 0, st_ino := 0, st_mode := 0x8180, st_nlink := 1, st_uid := 0,
                st_gid := 0, st_rdev := 0, st_size := 5, st_atime := 10000000,
                st_mtime := 10000000, st_ctime := 10000000 })
          { World.ofList [] with trace := [.GetFileAttributesExA ['f']] } := by
  decide

/-- C21 (the code at the failing input): `readdir` assigns `d_type` only when the entry has
the directory, the normal or the reparse-point attribute.  In a directory that enumerates
`.`, the subdirectory `b` and the file `a.txt` whose only attribute is archive, the two
`readdir` calls after `opendir` return `b` with `d_type = DT_DIR` and then `a.txt` with
`d_type = DT_DIR`, left over from `b`; when `a.txt` is the first entry returned its
`d_type` is 0, which is none of `DT_DIR`, `DT_REG`, `DT_LNK`.  Each entry returned has
`d_off = -1`.  The loop of `readdir` is given any bound of at least one iteration. -/
theorem C21_d_type_left_over (fuel : Nat) :
    (opendir (listing dotEntries) zeroFinddata (some ['d'])
        >>= readdirs (listing dotEntries) (1 + fuel) 2) (World.ofList [])
      = .returned
          [some ⟨9, -1, 1, DT_DIR, ['b']⟩,
            some ⟨16, -1, 5, DT_DIR, ['a', '.', 't', 'x', 't']⟩]
          ⟨FileMap.empty, 0,
            [._findfirst ['d', '/', '*'], ._findnext 50, .CreateFileA ['b'],
              .GetFileInformationByHandle 41, .GetFullPathNameA ['b'], ._findnext 50,
              .CreateFileA ['a', '.', 't', 'x', 't'], .GetFileInformationByHandle 40,
              .GetFullPathNameA ['a', '.', 't', 'x', 't']]⟩
    ∧ (opendir (listing archiveEntries) zeroFinddata (some ['d'])
        >>= readdirs (listing archiveEntries) (1 + fuel) 1) (World.ofList [])
      = .returned [some ⟨16, -1, 5, 0, ['a', '.', 't', 'x', 't']⟩]
          ⟨FileMap.empty, 0,
            [._findfirst ['d', '/', '*'], ._findnext 50,
              .CreateFileA ['a', '.', 't', 'x', 't'], .GetFileInformationByHandle 40,
              .GetFullPathNameA ['a', '.', 't', 'x', 't']]⟩
    ∧ 0 ∉ [DT_DIR, DT_REG, DT_LNK] :=
  ⟨opendir_readdirs_mono _ _ _ 1 2 _ _ _ (by decide!) fuel,
    opendir_readdirs_mono _ _ _ 1 1 _ _ _ (by decide!) fuel, by decide⟩

/-- C22 (the code at the failing input): for the directory `d` whose enumeration yields
`a.txt` (by `_findfirst`) and then `b` (by `_findnext`), both of which can be opened and
queried, the first `readdir` after `opendir` calls `_findnext` before it looks at any
entry and returns `b`; the second and the third return null.  The entry `a.txt` that
`_findfirst` found is never returned.  The loop of `readdir` is given any bound of at
least one iteration. -/
theorem C22_first_entry_never_returned (fuel : Nat) :
    (opendir (listing twoEntries) zeroFinddata (some ['d'])
        >>= readdirs (listing twoEntries) (1 + fuel) 3) (World.ofList [])
      = .returned [some ⟨9, -1, 1, DT_DIR, ['b']⟩, none, none]
          ⟨FileMap.empty, EBADF,
            [._findfirst ['d', '/', '*'], ._findnext 50, .CreateFileA ['b'],
              .GetFileInformationByHandle 41, .GetFullPathNameA ['b'], ._findnext 50,
              ._findnext 50]⟩ :=
  opendir_readdirs_mono _ _ _ 1 3 _ _ _ (by decide) fuel

/-- C23: for every array `fds` whose descriptors are all bound to socket-kind objects,
`poll` returns after exactly one native call, `WSAPoll`, on an array of the same length
whose entry `i` carries the native handle of `fds[i].fd` and the interest mask of `fds[i]`;
the array after the call has the same length, its entry `i` has `revents` as the native
call left it at index `i` and `fd` and `events` as before, and the value returned is the
return value of the native call. -/
theorem C23_poll_translates_and_copies_back (WSAPoll : WSAPollResult) (fds : List pollfd)
    (timeout : Int) (w : World) (hsock : ∀ p ∈ fds, w.boundToSocket p.fd) :
    ∃ translated after,
      poll WSAPoll fds timeout w
        = .returned ((WSAPoll w.trace translated timeout).1, after)
            { w with trace := w.trace ++ [.WSAPoll translated timeout] }
      ∧ translated.length = fds.length
      ∧ (∀ (i : Nat) (p : pollfd), fds[i]? = some p →
          ∃ file, w.fileMap.find p.fd = some file
            ∧ translated[i]? = some ⟨file.m_handle, p.events, p.revents⟩)
      ∧ after.length = fds.length
      ∧ (∀ (i : Nat) (p : pollfd), fds[i]? = some p →
          after[i]? = some ⟨p.fd, p.events, (WSAPoll w.trace translated timeout).2 i⟩) := by
  refine ⟨fds.map (fun p => { p with fd := w.handleOf p.fd }),
    fds.mapIdx (fun i p => { p with revents :=
      (WSAPoll w.trace (fds.map (fun p => { p with fd := w.handleOf p.fd })) timeout).2 i }),
    ?_, List.length_map _ _, ?_, List.length_mapIdx, ?_⟩
  · unfold poll
    rw [Prog.bind_returned (pollTranslate_eq fds w hsock)]
    rfl
  · intro i p hp
    obtain ⟨_, file, hfind, _⟩ := hsock p (List.mem_iff_getElem?.2 ⟨i, hp⟩)
    refine ⟨file, hfind, ?_⟩
    have hh : w.handleOf p.fd = file.m_handle := by
      unfold World.handleOf
      rw [hfind]
    rw [List.getElem?_map, hp, Option.map_some', hh]
  · intro i p hp
    rw [List.getElem?_mapIdx, hp]
    rfl

/-- C23 at two sockets bound at descriptors 3 and 4 (handles 7 and 9), with a native wait
that reports the first entry ready. -/
theorem C23_poll_translates_and_copies_back_witness :
    (∀ p ∈ [(⟨3, 1, 0⟩ : pollfd), ⟨4, 4, 0⟩],
        (World.ofList [(3, ⟨3, .Socket, 7, 0⟩), (4, ⟨4, .Socket, 9, 0⟩)]).boundToSocket p.fd)
    ∧ poll firstReady [⟨3, 1, 0⟩, ⟨4, 4, 0⟩] 50
          (World.ofList [(3, ⟨3, .Socket, 7, 0⟩), (4, ⟨4, .Socket, 9, 0⟩)])
        = .returned (1, [⟨3, 1, 1⟩, ⟨4, 4, 0⟩])
            { World.ofList [(3, ⟨3, .Socket, 7, 0⟩), (4, ⟨4, .Socket, 9, 0⟩)] with
              trace := [.WSAPoll [⟨7, 1, 0⟩, ⟨9, 4, 0⟩] 50] }
    ∧ ∃ translated after,
      poll firstReady [⟨3, 1, 0⟩, ⟨4, 4, 0⟩] 50
          (World.ofList [(3, ⟨3, .Socket, 7, 0⟩), (4, ⟨4, .Socket, 9, 0⟩)])
        = .returned (1, after)
            { World.ofList [(3, ⟨3, .Socket, 7, 0⟩), (4, ⟨4, .Socket, 9, 0⟩)] with
              trace := [] ++ [.WSAPoll translated 50] }
      ∧ translated.length = 2 ∧ after.length = 2 :=
  have hsock : ∀ p ∈ [(⟨3, 1, 0⟩ : pollfd), ⟨4, 4, 0⟩],
      (World.ofList [(3, ⟨3, .Socket, 7, 0⟩), (4, ⟨4, .Socket, 9, 0⟩)]).boundToSocket
        p.fd := by
    intro p hp
    rcases List.mem_cons.1 hp with h | h
    · subst h
      exact ⟨by decide, ⟨3, .Socket, 7, 0⟩, by decide, rfl⟩
    · rcases List.mem_cons.1 h with h | h
      · subst h
        exact ⟨by decide, ⟨4, .Socket, 9, 0⟩, by decide, rfl⟩
      · cases h
  ⟨hsock, by decide,
    (C23_poll_translates_and_copies_back firstReady [⟨3, 1, 0⟩, ⟨4, 4, 0⟩] 50
      (World.ofList [(3, ⟨3, .Socket, 7, 0⟩), (4, ⟨4, .Socket, 9, 0⟩)]) hsock).imp
      fun _ h => h.imp fun _ h => ⟨h.1, h.2.1, h.2.2.2.1⟩⟩

/-- C24 (as stated, refuted): when the native `_open` returns the descriptor 0, open-by-path
succeeds (descriptor 1 is bound to the duplicated handle) and returns without any `_close`
call: the temporary descriptor 0 stays open.  The same holds for `_sopen`. -/
theorem C24_counterexample :
    Win32File.open_filename okEnv ['f'] 0 0 (World.ofList [])
      = .returned 1
          ⟨FileMap.ofList [(1, ⟨1, .File, 100, 0⟩)], 0,
            [._open ['f'] 0 0, ._get_osfhandle 0, .GetCurrentProcess, .GetCurrentProcess,
              .DuplicateHandle (-1) 0 (-1) 0 false 3, .CloseHandle (-1)]⟩
    ∧ Win32File.sopen okEnv ['f'] 0 0 0 (World.ofList [])
      = .returned 1
          ⟨FileMap.ofList [(1, ⟨1, .File, 100, 0⟩)], 0,
            [._sopen ['f'] 0 0 0, ._get_osfhandle 0, .GetCurrentProcess, .GetCurrentProcess,
              .DuplicateHandle (-1) 0 (-1) 0 false 3, .CloseHandle (-1)]⟩ := by
  decide

/-- C24 (amended): open-by-path and open-with-share-flags always return, and with `fd` the
value the native open (`_open`, `_sopen`) returned as its temporary descriptor: when
`fd >= 1`, whatever the outcome (handle extraction fails, duplication fails, everything
succeeds), the last native call before the return is `_close(fd)` and it is the only
`_close(fd)` of the operation; when `fd < 1`, that is when the native open fails with -1
and also when it returns 0, the operation makes no `_close` call at all. -/
theorem C24_temporary_descriptor_closed (env : Env) (filename : List Char)
    (openFlag shareFlag permissionMode : Int) (w : World) :
    (∃ r w1 calls,
        Win32File.open_filename env filename openFlag permissionMode w = .returned r w1
        ∧ w1.trace = w.trace ++ NativeCall._open filename openFlag permissionMode :: calls
        ∧ (1 ≤ (env w.trace (._open filename openFlag permissionMode)).ret →
            calls.getLast?
                = some (NativeCall._close
                    (env w.trace (._open filename openFlag permissionMode)).ret)
              ∧ calls.count
                  (NativeCall._close (env w.trace (._open filename openFlag permissionMode)).ret)
                = 1)
        ∧ ((env w.trace (._open filename openFlag permissionMode)).ret < 1 →
            ∀ x, NativeCall._close x ∉ calls))
    ∧ (∃ r w1 calls,
        Win32File.sopen env filename openFlag shareFlag permissionMode w = .returned r w1
        ∧ w1.trace
            = w.trace ++ NativeCall._sopen filename openFlag shareFlag permissionMode :: calls
        ∧ (1 ≤ (env w.trace (._sopen filename openFlag shareFlag permissionMode)).ret →
            calls.getLast?
                = some (NativeCall._close
                    (env w.trace (._sopen filename openFlag shareFlag permissionMode)).ret)
              ∧ calls.count
                  (NativeCall._close
                    (env w.trace (._sopen filename openFlag shareFlag permissionMode)).ret)
                = 1)
        ∧ ((env w.trace (._sopen filename openFlag shareFlag permissionMode)).ret < 1 →
            ∀ x, NativeCall._close x ∉ calls)) := by
  constructor
  · obtain ⟨r, w1, pre, hrun, htrace, hno⟩ := Win32File.open_tail_trace env
      (env w.trace (._open filename openFlag permissionMode)).ret
      { w with trace := w.trace ++ [._open filename openFlag permissionMode] }
    refine ⟨r, w1, _, ?_, ?_, closes_once_at_end pre _ hno⟩
    · unfold Win32File.open_filename
      dsimp only
      rw [Prog.bind_eq, native_eq]
      exact hrun
    · rw [htrace]
      simp
  · obtain ⟨r, w1, pre, hrun, htrace, hno⟩ := Win32File.open_tail_trace env
      (env w.trace (._sopen filename openFlag shareFlag permissionMode)).ret
      { w with trace := w.trace ++ [._sopen filename openFlag shareFlag permissionMode] }
    refine ⟨r, w1, _, ?_, ?_, closes_once_at_end pre _ hno⟩
    · unfold Win32File.sopen
      dsimp only
      rw [Prog.bind_eq, native_eq]
      exact hrun
    · rw [htrace]
      simp

/-- C25 (the code at the failing input): two threads call `FileMap::set(NewEntry, file)` on
the empty registry.  Under the schedule in which both run `slot()` before either takes
the lock of `set`, both are given descriptor 1; the first binds it, and in the second the
assertion `m_files.count(fd) == 0` fails.  Under the schedule that runs one call after
the other the descriptors are 1 and 2. -/
theorem C25_auto_bind_not_one_critical_section :
    runSchedule [0, 1]
        ([.called FileMap.NewEntry ⟨FileMap.NewEntry, .File, 7, 0⟩,
          .called FileMap.NewEntry ⟨FileMap.NewEntry, .File, 8, 0⟩], FileMap.empty)
      = ([.allocated 1 ⟨FileMap.NewEntry, .File, 7, 0⟩,
          .allocated 1 ⟨FileMap.NewEntry, .File, 8, 0⟩], FileMap.empty)
    ∧ runSchedule [0, 1, 0, 1]
        ([.called FileMap.NewEntry ⟨FileMap.NewEntry, .File, 7, 0⟩,
          .called FileMap.NewEntry ⟨FileMap.NewEntry, .File, 8, 0⟩], FileMap.empty)
      = ([.returned 1, .failed .assertion], FileMap.ofList [(1, ⟨1, .File, 7, 0⟩)])
    ∧ runSchedule [0, 0, 1, 1]
        ([.called FileMap.NewEntry ⟨FileMap.NewEntry, .File, 7, 0⟩,
          .called FileMap.NewEntry ⟨FileMap.NewEntry, .File, 8, 0⟩], FileMap.empty)
      = ([.returned 1, .returned 2],
          FileMap.ofList [(2, ⟨2, .File, 8, 0⟩), (1, ⟨1, .File, 7, 0⟩)]) := by
  decide

/-- C26: for every registry with `n = size` bindings, `FileMap::slot` returns (its loop ends
within `n + 1` iterations), and the descriptor `d` it returns is the smallest integer above
`n` that is not bound: `n < d`, `d` is unbound, and every `k` with `n < k < d` is bound.
Consequently it returns `n + 1` when the bound descriptors are exactly `1..n`, it never
returns a descriptor `d0 <= n`, and so a descriptor `d0` just released is not handed out
while `d0` is at most the number of remaining bindings. -/
theorem C26_slot_smallest_above_size (m : FileMap) :
    (∃ d, m.slot = some d ∧ (m.size : Int) < d ∧ m.find d = none
        ∧ ∀ k, (m.size : Int) < k → k < d → (m.find k).isSome = true)
    ∧ ((∀ k, (m.find k).isSome = true ↔ 1 ≤ k ∧ k ≤ (m.size : Int)) →
        m.slot = some ((m.size : Int) + 1))
    ∧ (∀ d0 : Int, d0 ≤ (m.size : Int) → m.slot ≠ some d0)
    ∧ (∀ d0 : Int, d0 ≤ ((m.eraseKey d0).size : Int) →
        (m.eraseKey d0).find d0 = none ∧ (m.eraseKey d0).slot ≠ some d0) := by
  have bound : ∀ (m1 : FileMap) (k : Int), m1.count k ≠ 0 → (m1.find k).isSome = true := by
    intro m1 k hk
    rw [FileMap.find_isSome_iff]
    exact (FileMap.count_ne_zero_iff m1 k).1 hk
  have above : ∀ (m1 : FileMap) (d0 : Int), d0 ≤ (m1.size : Int) → m1.slot ≠ some d0 := by
    intro m1 d0 hle hslot
    obtain ⟨d, hd, hlo, _, _⟩ := FileMap.slot_spec m1
    rw [hd] at hslot
    cases hslot
    omega
  obtain ⟨d, hd, hlo, hfree, hbelow⟩ := FileMap.slot_spec m
  refine ⟨⟨d, hd, by omega, (FileMap.count_eq_zero_iff m d).1 hfree, ?_⟩, ?_, above m, ?_⟩
  · intro k hk1 hk2
    exact bound m k (hbelow k (by omega) hk2)
  · intro hexact
    rw [hd]
    by_cases hlt : (m.size : Int) + 1 < d
    · have h1 := bound m _ (hbelow ((m.size : Int) + 1) (le_refl _) hlt)
      have h2 := (hexact _).1 h1
      omega
    · have hde : d = (m.size : Int) + 1 := by omega
      rw [hde]
  · intro d0 hle
    exact ⟨FileMap.find_eraseKey_self m d0, above _ d0 hle⟩

/-- C27 (as stated, refuted): with descriptors 1 and 2 bound to two file objects and the
native handle duplication failing, `dup(2)` on the object at 1 returns -1 with
`errno = EBADF`, and the object that occupied descriptor 2 has been closed (`CloseHandle`
on its handle 8) and is no longer bound. -/
theorem C27_counterexample :
    Win32File.dup noDuplicateEnv ⟨1, .File, 7, 0⟩ 2
        (World.ofList [(1, ⟨1, .File, 7, 0⟩), (2, ⟨2, .File, 8, 0⟩)])
      = .returned (-1)
          ⟨FileMap.ofList [(1, ⟨1, .File, 7, 0⟩)], EBADF,
            [.CloseHandle 8, .GetCurrentProcess, .GetCurrentProcess,
              .DuplicateHandle (-1) 7 (-1) 0 false 2]⟩
    ∧ (FileMap.ofList [(1, ⟨1, .File, 7, 0⟩)]).find 2 = none := by
  decide

/-- C27 (amended): if `dup(newfd)` returns -1, then the registry is unchanged when the
handle of the object is invalid and when `newfd` is the `NewEntry` sentinel; when `newfd` is
occupied by another object, that occupant has been closed and unbound before the
duplication was attempted, and the registry after the call is the registry before it
without the binding of `newfd`. -/
theorem C27_dup_failure_registry (env : Env) (self : Win32File) (newfd : Int) (w w1 : World)
    (hret : Win32File.dup env self newfd w = .returned (-1) w1) :
    (self.isValid = false → w1.fileMap = w.fileMap)
    ∧ (newfd = FileMap.NewEntry → w1.fileMap = w.fileMap)
    ∧ (∀ occupant, self.isValid = true → w.holds newfd occupant → newfd ≠ self.m_fd →
        w1.fileMap = w.fileMap.eraseKey newfd ∧ w1.fileMap.find newfd = none) := by
  refine ⟨?_, ?_, ?_⟩
  · intro hv
    unfold Win32File.dup at hret
    simp only [hv, Bool.not_false, if_true, handleError_eq] at hret
    cases hret
    rfl
  · intro hnew
    subst hnew
    by_cases hv : self.isValid = true
    · obtain ⟨x, w2, hdup, hm, _⟩ := duplicateHandle_frame env (-1) self.m_handle false w
      by_cases hx : x = INVALID_HANDLE_VALUE
      · unfold Win32File.dup at hret
        simp only [hv, Bool.not_true, Bool.false_eq_true, if_false] at hret
        rw [Prog.bind_returned (Win32File.of_NewEntry w)] at hret
        simp only [Prog.bind_eq, Prog.pure_eq, hdup, if_pos hx, handleError_eq] at hret
        cases hret
        exact hm
      · obtain ⟨d, hd, hs⟩ := Win32File.dup_NewEntry_eq hv hdup hx
        rw [hd] at hret
        cases hret
        have := hs.1
        omega
    · have hv1 : self.isValid = false := by simpa using hv
      unfold Win32File.dup at hret
      simp only [hv1, Bool.not_false, if_true, handleError_eq] at hret
      cases hret
      rfl
  · intro occupant hv hocc hne
    obtain ⟨r, w2, hclose, hm2⟩ := Win32File.close_frame env (World.holds_ne hocc) w
    obtain ⟨x, w3, hdup, hm3, _⟩ := duplicateHandle_frame env (-1) self.m_handle false w2
    by_cases hx : x = INVALID_HANDLE_VALUE
    · unfold Win32File.dup at hret
      simp only [hv, Bool.not_true, Bool.false_eq_true, if_false] at hret
      rw [Prog.bind_returned (Win32File.of_holds hocc)] at hret
      simp only [Prog.bind_eq, Prog.pure_eq, hclose, if_neg hne, hdup, if_pos hx,
        handleError_eq] at hret
      cases hret
      have hmap : w3.fileMap = w.fileMap.eraseKey newfd := by
        rw [hm3, hm2, hocc.2.2]
      exact ⟨hmap, by rw [hmap]; exact FileMap.find_eraseKey_self _ _⟩
    · have hd := Win32File.dup_occupied_eq hv hocc hne hclose hdup hx
      rw [hd] at hret
      cases hret
      exact absurd rfl hocc.1

/-- C27 at the two bound file objects of the counterexample: the target descriptor 2 is
unbound after the failed call. -/
theorem C27_dup_failure_registry_witness :
    Win32File.dup noDuplicateEnv ⟨1, .File, 7, 0⟩ 2
        (World.ofList [(1, ⟨1, .File, 7, 0⟩), (2, ⟨2, .File, 8, 0⟩)])
      = .returned (-1)
          ⟨FileMap.ofList [(1, ⟨1, .File, 7, 0⟩)], EBADF,
            [.CloseHandle 8, .GetCurrentProcess, .GetCurrentProcess,
              .DuplicateHandle (-1) 7 (-1) 0 false 2]⟩
    ∧ (FileMap.ofList [(1, ⟨1, .File, 7, 0⟩)])
        = (FileMap.ofList [(1, ⟨1, .File, 7, 0⟩), (2, ⟨2, .File, 8, 0⟩)]).eraseKey 2
    ∧ (FileMap.ofList [(1, ⟨1, .File, 7, 0⟩)]).find 2 = none :=
  ⟨by decide,
    (C27_dup_failure_registry noDuplicateEnv ⟨1, .File, 7, 0⟩ 2
      (World.ofList [(1, ⟨1, .File, 7, 0⟩), (2, ⟨2, .File, 8, 0⟩)])
      ⟨FileMap.ofList [(1, ⟨1, .File, 7, 0⟩)], EBADF,
        [.CloseHandle 8, .GetCurrentProcess, .GetCurrentProcess,
          .DuplicateHandle (-1) 7 (-1) 0 false 2]⟩
      (by decide)).2.2 ⟨2, .File, 8, 0⟩ (by decide) (by decide) (by decide)⟩

/-- C28 (the code at the failing input): the shift count of the inode surrogate is
`sizeof(DWORD)`, which is 4, so the high part is shifted by 4 bits and not above the 32
bits of the low part.  The distinct 32-bit pairs (high 1, low 0) and (high 0, low 16) both
give `d_ino = 16`, and `readdir` returns the two files `x` and `y` that have these file
indices with the same `d_ino`; the four top bits of the high part are lost altogether.
The loop of `readdir` is given any bound of at least one iteration. -/
theorem C28_d_ino_not_injective (fuel : Nat) :
    fileIndexToIno 1 0 = 16
    ∧ fileIndexToIno 0 16 = 16
    ∧ ((1, 0) : Nat × Nat) ≠ (0, 16)
    ∧ fileIndexToIno (2 ^ 28) 0 = fileIndexToIno 0 0
    ∧ (opendir (listing collidingEntries) zeroFinddata (some ['d'])
        >>= readdirs (listing collidingEntries) (1 + fuel) 2) (World.ofList [])
      = .returned [some ⟨16, -1, 1, DT_REG, ['x']⟩, some ⟨16, -1, 1, DT_REG, ['y']⟩]
          ⟨FileMap.empty, 0,
            [._findfirst ['d', '/', '*'], ._findnext 50, .CreateFileA ['x'],
              .GetFileInformationByHandle 42, .GetFullPathNameA ['x'], ._findnext 50,
              .CreateFileA ['y'], .GetFileInformationByHandle 43, .GetFullPathNameA ['y']]⟩ :=
  ⟨by decide, by decide, by decide, by decide,
    opendir_readdirs_mono _ _ _ 1 2 _ _ _ (by decide!) fuel⟩

/-- C29 (the code at the failing input): `readdir` never calls `CloseHandle`.  With the
native calls of `opendir` made and no file handle open, the `readdir` call that returns
the entry `a.txt` opens the handle 40 by `CreateFileA` and returns with it open; and a
`readdir` call that returns null, because the information query on its only candidate
fails, has opened the handle 40 as well and returns with it open.  The loop of `readdir`
is given any bound of at least one, in the second case two, iterations. -/
theorem C29_readdir_leaves_handle_open (fuel : Nat) :
    (opendir (listing archiveEntries) zeroFinddata (some ['d'])
        >>= readdirs (listing archiveEntries) (1 + fuel) 1) (World.ofList [])
      = .returned [some ⟨16, -1, 5, 0, ['a', '.', 't', 'x', 't']⟩]
          ⟨FileMap.empty, 0,
            [._findfirst ['d', '/', '*'], ._findnext 50,
              .CreateFileA ['a', '.', 't', 'x', 't'], .GetFileInformationByHandle 40,
              .GetFullPathNameA ['a', '.', 't', 'x', 't']]⟩
    ∧ openFileHandles (listing archiveEntries) [] [._findfirst ['d', '/', '*']] [] = []
    ∧ openFileHandles (listing archiveEntries) []
        [._findfirst ['d', '/', '*'], ._findnext 50,
          .CreateFileA ['a', '.', 't', 'x', 't'], .GetFileInformationByHandle 40,
          .GetFullPathNameA ['a', '.', 't', 'x', 't']] [] = [40]
    ∧ (opendir (listing unqueriedEntries) zeroFinddata (some ['d'])
        >>= readdirs (listing unqueriedEntries) (2 + fuel) 1) (World.ofList [])
      = .returned [none]
          ⟨FileMap.empty, EBADF,
            [._findfirst ['d', '/', '*'], ._findnext 50,
              .CreateFileA ['a', '.', 't', 'x', 't'], .GetFileInformationByHandle 40,
              ._findnext 50]⟩
    ∧ openFileHandles (listing unqueriedEntries) []
        [._findfirst ['d', '/', '*'], ._findnext 50,
          .CreateFileA ['a', '.', 't', 'x', 't'], .GetFileInformationByHandle 40,
          ._findnext 50] [] = [40] :=
  ⟨opendir_readdirs_mono _ _ _ 1 1 _ _ _ (by decide) fuel, by decide, by decide,
    opendir_readdirs_mono _ _ _ 2 1 _ _ _ (by decide) fuel, by decide⟩

end Win32
